import Mathlib

/-!
# Mini-games session server: rooms, reconnection and round transitions

A shallow embedding of `server/rooms.js`, `server/bots.js` and the round
transitions of the game modules under `server/games/`.

* JavaScript `Map` and `Set` are insertion-ordered; they are embedded as lists
  of entries in insertion order (`JsMap`, `JsSet`).
* Objects mutated in place (`room`, `room.gameState`, player records) become
  values that are passed in and returned.
* `Date.now()` and `Math.random()` are explicit arguments.
* Timers created with `setTimeout` are recorded, with their due time and the
  callback they carry, in the room that owns them.
-/

namespace MiniGames

/-! ## JavaScript collections -/

/-- A JavaScript `Map`: entries in insertion order. -/
structure JsMap (α β : Type) where
  entries : List (α × β)
deriving DecidableEq, Repr

namespace JsMap

variable {α β : Type} [DecidableEq α]

/-- The association-list lookup behind `Map.prototype.get`. -/
def lookup (k : α) : List (α × β) → Option β
  | [] => none
  | (k', v) :: rest => if k' = k then some v else lookup k rest

/-- The association-list update behind `Map.prototype.set`: an existing key
keeps its position, a new key goes to the end. -/
def upsert (k : α) (v : β) : List (α × β) → List (α × β)
  | [] => [(k, v)]
  | (k', v') :: rest => if k' = k then (k, v) :: rest else (k', v') :: upsert k v rest

/-- The empty map, `new Map()`. -/
def empty : JsMap α β := ⟨[]⟩

/-- The call `m.get(k)`; `none` stands for `undefined`. -/
def get (m : JsMap α β) (k : α) : Option β := lookup k m.entries

/-- The call `m.has(k)`. -/
def has (m : JsMap α β) (k : α) : Bool := (m.get k).isSome

/-- The call `m.set(k, v)`. -/
def set (m : JsMap α β) (k : α) (v : β) : JsMap α β := ⟨upsert k v m.entries⟩

/-- The call `m.delete(k)`. -/
def delete (m : JsMap α β) (k : α) : JsMap α β :=
  ⟨m.entries.filter (fun e => !decide (e.1 = k))⟩

/-- The property `m.size`. -/
def size (m : JsMap α β) : Nat := m.entries.length

/-- The keys in iteration order, `Array.from(m.keys())`. -/
def keys (m : JsMap α β) : List α := m.entries.map Prod.fst

end JsMap

/-- A JavaScript `Set`: members in insertion order. -/
structure JsSet (α : Type) where
  elems : List α
deriving DecidableEq, Repr

namespace JsSet

variable {α : Type} [DecidableEq α]

/-- The empty set, `new Set()`. -/
def empty : JsSet α := ⟨[]⟩

/-- The call `s.has(x)`. -/
def has (s : JsSet α) (x : α) : Bool := decide (x ∈ s.elems)

/-- The call `s.add(x)`. -/
def add (s : JsSet α) (x : α) : JsSet α :=
  if x ∈ s.elems then s else ⟨s.elems ++ [x]⟩

/-- The call `s.delete(x)`. -/
def delete (s : JsSet α) (x : α) : JsSet α :=
  ⟨s.elems.filter (fun y => !decide (y = x))⟩

/-- The property `s.size`. -/
def size (s : JsSet α) : Nat := s.elems.length

end JsSet

/-! ## Data model -/

/-- A connection handle: a socket.io connection id, or the id of a bot. -/
abbrev Handle := String

/-- A player record. The properties `isBot` and `disconnected` are only ever
read for their truthiness, so an absent property is `false`. -/
structure Player where
  name : String
  score : Int
  isHost : Bool
  isBot : Bool
  disconnected : Bool
  difficulty : Option String
  diffEmoji : Option String
deriving DecidableEq, Repr

/-- The record `{ name, score: 0, isHost }` written by `createRoom` and `joinRoom`. -/
def Player.fresh (name : String) (isHost : Bool) : Player :=
  ⟨name, 0, isHost, false, false, none, none⟩

/-- The values of `room.state`. -/
inductive RoomState
  | lobby | playing | results
deriving DecidableEq, Repr

/-- The values taken by `gameState.phase` across the eight game modules. -/
inductive Phase
  | waiting | ready | go | result | finished
  | question | answer
  | countdown | tapping
  | scrambled | reveal
  | playing | roundResult
  | solving
  | showing | input
deriving DecidableEq, Repr

/-- The ids of the game modules. -/
inductive GameId
  | reactionRace | triviaBlitz | tapFrenzy | wordScramble
  | emojiMatch | mathBlitz | simonSays | colorClash
deriving DecidableEq, Repr

/-! ### Game states, one record per module -/

/-- An element of reaction-race `roundResults`. -/
structure RRResult where
  id : Handle
  name : String
  time : Int
deriving DecidableEq, Repr

/-- The reaction-race game state. `resultFired` is absent until the first
`_nextRound` and only read for truthiness. -/
structure RRState where
  round : Nat
  totalRounds : Nat
  phase : Phase
  goTime : Option Nat
  roundResults : List RRResult
  tapped : JsSet Handle
  earlyTappers : JsSet Handle
  resultFired : Bool
deriving DecidableEq, Repr

/-- A trivia question. -/
structure Question where
  q : String
  options : List String
  answer : Nat
deriving DecidableEq, Repr

/-- A trivia-blitz answer record `{ choice, time }`. -/
structure TVAnswer where
  choice : Int
  time : Int
deriving DecidableEq, Repr

/-- The trivia-blitz game state. -/
structure TVState where
  questions : List Question
  round : Nat
  totalRounds : Nat
  phase : Phase
  answers : JsMap Handle TVAnswer
  questionStart : Option Nat
  answerShown : Bool
  currentRoundTimer : Option Nat
deriving DecidableEq, Repr

/-- The tap-frenzy game state. -/
structure TFState where
  round : Nat
  totalRounds : Nat
  phase : Phase
  taps : JsMap Handle Nat
  roundDuration : Nat
  startTime : Option Nat
deriving DecidableEq, Repr

/-- An element of word-scramble `solvers`. -/
structure WSSolver where
  id : Handle
  name : String
  time : Int
  rank : Nat
  points : Nat
deriving DecidableEq, Repr

/-- The word-scramble game state. -/
structure WSState where
  words : List String
  round : Nat
  totalRounds : Nat
  phase : Phase
  solvers : List WSSolver
  roundStart : Option Nat
  revealFired : Bool
  currentRoundTimer : Option Nat
deriving DecidableEq, Repr

/-- A value of `firstPick` or `secondPick` in emoji-match: `null`, a card
index, or `undefined` (stored when a flip arrives without an `index`). -/
inductive Pick
  | null
  | undef
  | card (i : Nat)
deriving DecidableEq, Repr

/-- The emoji-match game state. -/
structure EMState where
  round : Nat
  totalRounds : Nat
  phase : Phase
  board : List String
  revealed : List Bool
  currentTurn : Option Handle
  firstPick : Pick
  secondPick : Pick
  locked : Bool
  pairsFound : JsMap Handle Nat
  turnOrder : List Handle
  turnIndex : Nat
  boardSize : Nat
deriving DecidableEq, Repr

/-- A math-blitz problem. -/
structure Problem where
  display : String
  answer : Int
  level : Nat
deriving DecidableEq, Repr

/-- A math-blitz answer record `{ answer, time, correct }`. -/
structure MBAnswer where
  answer : Int
  time : Int
  correct : Bool
deriving DecidableEq, Repr

/-- An element of math-blitz `solvers`. -/
structure MBSolver where
  id : Handle
  name : String
  time : Int
deriving DecidableEq, Repr

/-- The math-blitz game state (`roundTimer` is never assigned after `init`). -/
structure MBState where
  round : Nat
  totalRounds : Nat
  phase : Phase
  problems : List Problem
  answers : JsMap Handle MBAnswer
  solvers : List MBSolver
  roundTimer : Option Nat
  roundStart : Option Nat
deriving DecidableEq, Repr

/-- The simon-says game state (`roundResults` is never assigned after `init`). -/
structure SSState where
  round : Nat
  totalRounds : Nat
  phase : Phase
  fullSequence : List String
  inputs : JsMap Handle (List String)
  eliminated : JsSet Handle
  survivors : JsSet Handle
  roundResults : List String
deriving DecidableEq, Repr

/-- A color-clash answer record `{ choice, responseTime }`. -/
structure CCAnswer where
  choice : String
  responseTime : Int
deriving DecidableEq, Repr

/-- The color-clash game state. The properties `timeLimit` and `questionStart`
are not in the object literal of `init`; the `_nextRound` call that `init`
makes before it returns assigns them, so they are present in every state that
an event or a timer can observe. -/
structure CCState where
  round : Nat
  totalRounds : Nat
  phase : Phase
  word : Option String
  inkColor : Option String
  options : List String
  answers : JsMap Handle CCAnswer
  streaks : JsMap Handle Nat
  timeLimit : Nat
  questionStart : Nat
deriving DecidableEq, Repr

/-- The object held in `room.gameState`, tagged by the module whose `init` built it. -/
inductive GameState
  | reactionRace (gs : RRState)
  | triviaBlitz (gs : TVState)
  | tapFrenzy (gs : TFState)
  | wordScramble (gs : WSState)
  | emojiMatch (gs : EMState)
  | mathBlitz (gs : MBState)
  | simonSays (gs : SSState)
  | colorClash (gs : CCState)
deriving DecidableEq, Repr

/-- The module a game state belongs to. -/
def GameState.gameId : GameState → GameId
  | .reactionRace _ => .reactionRace
  | .triviaBlitz _ => .triviaBlitz
  | .tapFrenzy _ => .tapFrenzy
  | .wordScramble _ => .wordScramble
  | .emojiMatch _ => .emojiMatch
  | .mathBlitz _ => .mathBlitz
  | .simonSays _ => .simonSays
  | .colorClash _ => .colorClash

/-- The `phase` property of a game state. -/
def GameState.phase : GameState → Phase
  | .reactionRace gs => gs.phase
  | .triviaBlitz gs => gs.phase
  | .tapFrenzy gs => gs.phase
  | .wordScramble gs => gs.phase
  | .emojiMatch gs => gs.phase
  | .mathBlitz gs => gs.phase
  | .simonSays gs => gs.phase
  | .colorClash gs => gs.phase

/-- The `round` property of a game state. -/
def GameState.round : GameState → Nat
  | .reactionRace gs => gs.round
  | .triviaBlitz gs => gs.round
  | .tapFrenzy gs => gs.round
  | .wordScramble gs => gs.round
  | .emojiMatch gs => gs.round
  | .mathBlitz gs => gs.round
  | .simonSays gs => gs.round
  | .colorClash gs => gs.round

/-! ### Timers -/

/-- The callbacks that the modelled game code hands to `setTimeout`. A
constructor carries exactly the values the closure captures by value; the
room and its game state are captured by reference and are read when the
callback runs. The callbacks that test a captured round number take the
game-state object they hold as a `Captured`. -/
inductive Callback
  | nextRound (g : GameId)
  | endGame (g : GameId)
  | roundTimeout (g : GameId)
  | roundTimeoutFor (g : GameId) (thisRound : Nat)
  | roundResult (g : GameId)
  | tick (g : GameId)
  | rrGo (thisRound : Nat)
  | rrFirstTap (winnerId : Handle)
  | tfStart
  | emMatch (first second : Pick) (socketId : Handle) (playerName : Option String)
  | emUnflip (first second : Pick)
  | ssFlash (color : String) (index total : Nat)
  | ssInputStart (sequenceLength : Nat)
deriving DecidableEq, Repr

/-- The game-state object `gs` that a timer closure holds. A closure of a game
module binds `gs` to the object that `room.gameState` holds when the timer is
created, and reads and writes that object when it runs. `live`: the object is
still the one `room.gameState` holds, which is so for as long as the game that
created the timer runs. `orphan gs`: `init` has run again since (a second
`room:startGame`) and has put a new object in `room.gameState` without
clearing the pending timers; the closure still holds the old object, whose
contents are `gs` when the callback runs. A callback that takes no `Captured`
is given for the case `live` only. -/
inductive Captured (σ : Type)
  | live
  | orphan (gs : σ)
deriving DecidableEq, Repr

/-- A pending timer: the handle returned by `setTimeout`, the time at which it
is due, and its callback. -/
structure Timer where
  id : Nat
  due : Nat
  cb : Callback
deriving DecidableEq, Repr

/-! ### Rooms and the registry -/

/-- A room. `timers` holds the timers the active game module has created for
the room and that have neither fired nor been cleared; `nextTimerId` is the
next handle `setTimeout` returns. -/
structure Room where
  code : String
  host : Handle
  players : JsMap Handle Player
  state : RoomState
  currentGame : Option GameId
  gameState : Option GameState
  createdAt : Nat
  timers : List Timer
  nextTimerId : Nat
deriving DecidableEq, Repr

/-- An entry of `graceTimers`: `{ timer, code, playerData }`, the timer given
by its due time. -/
structure GraceEntry where
  due : Nat
  code : String
  playerData : Player
deriving DecidableEq, Repr

/-- The module-level state of `rooms.js` and `bots.js`. -/
structure Registry where
  rooms : JsMap String Room
  graceTimers : JsMap Handle GraceEntry
  botCounter : Nat
deriving DecidableEq, Repr

/-- The state at server start. -/
def Registry.empty : Registry := ⟨JsMap.empty, JsMap.empty, 0⟩

/-! ## `rooms.js` -/

/-- The grace period in milliseconds, `GRACE_PERIOD`. -/
def GRACE_PERIOD : Nat := 30000

/-- The alphabet of room codes, `chars` in `generateCode`. -/
def chars : List Char := "ABCDEFGHJKLMNPQRSTUVWXYZ23456789".toList

/-- The character `chars[Math.floor(Math.random() * chars.length)]`; the draw
`r` stands for the random number, and `r % chars.length` ranges over exactly the
indices the floor can take. -/
def pickChar (r : Nat) : Char :=
  chars.getD (r % chars.length) 'A'

/-- The function `generateCode`. Each attempt consumes four draws; the
recursive retry on a collision continues with the following draws. The result
is `none` when the draws run out before an unused code is found. -/
def generateCode (rooms : JsMap String Room) : List Nat → Option String
  | a :: b :: c :: d :: rest =>
    let code := String.mk [pickChar a, pickChar b, pickChar c, pickChar d]
    if rooms.has code then generateCode rooms rest else some code
  | _ => none

/-- The function `createRoom`; `none` when `generateCode` does not return. -/
def createRoom (s : Registry) (hostId : Handle) (hostName : String) (now : Nat)
    (draws : List Nat) : Option (Registry × Room) :=
  match generateCode s.rooms draws with
  | none => none
  | some code =>
    let room : Room :=
      { code := code, host := hostId
        players := JsMap.empty.set hostId (Player.fresh hostName true)
        state := .lobby, currentGame := none, gameState := none
        createdAt := now, timers := [], nextTimerId := 0 }
    some ({ s with rooms := s.rooms.set code room }, room)

/-- The method `String.prototype.toLowerCase`, on the ASCII letters. -/
def toLowerCase (s : String) : String := String.mk (s.data.map Char.toLower)

/-- The results of `joinRoom` and `rejoinRoom`: `{ error }`, `{ room }` and
`{ room, rejoined: true }`. -/
inductive JoinResult
  | error (msg : String)
  | joined (room : Room)
  | rejoined (room : Room)
deriving DecidableEq, Repr

/-- The duplicate-name loop of `joinRoom`: some player that is not flagged
disconnected has the same name ignoring case. -/
def nameTaken (players : JsMap Handle Player) (name : String) : Bool :=
  players.entries.any fun e =>
    decide (toLowerCase e.2.name = toLowerCase name) && !e.2.disconnected

/-- The function `joinRoom`. -/
def joinRoom (s : Registry) (socketId : Handle) (code : String) (name : String) :
    Registry × JoinResult :=
  match s.rooms.get code with
  | none => (s, .error "Room not found")
  | some room =>
    if room.players.size ≥ 20 then (s, .error "Room is full")
    else if nameTaken room.players name then (s, .error "Name already taken")
    else
      let room1 := { room with players := room.players.set socketId (Player.fresh name false) }
      ({ s with rooms := s.rooms.set code room1 }, .joined room1)

/-- The search loop of `rejoinRoom`: the first disconnected player with the
same name ignoring case. -/
def findDisconnected (players : JsMap Handle Player) (name : String) :
    Option (Handle × Player) :=
  players.entries.find? fun e =>
    decide (toLowerCase e.2.name = toLowerCase name) && e.2.disconnected

/-- The statement `if (gs.currentTurn === oldId) gs.currentTurn = socket.id`. -/
def remapTurn (oldId newId : Handle) (currentTurn : Option Handle) : Option Handle :=
  if currentTurn = some oldId then some newId else currentTurn

/-- The statements `idx = gs.turnOrder.indexOf(oldId)` and
`if (idx !== -1) gs.turnOrder[idx] = socket.id`: the first occurrence is replaced. -/
def remapTurnOrder (oldId newId : Handle) : List Handle → List Handle
  | [] => []
  | x :: rest => if x = oldId then newId :: rest else x :: remapTurnOrder oldId newId rest

/-- The remap of a `Set` field: `if (s.has(oldId)) { s.delete(oldId); s.add(socket.id) }`. -/
def remapSet (oldId newId : Handle) (s : JsSet Handle) : JsSet Handle :=
  if s.has oldId then (s.delete oldId).add newId else s

/-- The remap of a `Map` field:
`if (m.has(oldId)) { m.set(socket.id, m.get(oldId)); m.delete(oldId) }`. -/
def remapMap {β : Type} (oldId newId : Handle) (m : JsMap Handle β) : JsMap Handle β :=
  match m.get oldId with
  | some v => (m.set newId v).delete oldId
  | none => m

/-- The block of `rejoinRoom` that updates `room.gameState`. It touches the
properties `currentTurn`, `turnOrder`, `tapped`, `earlyTappers`, `answers`,
`taps` and `pairsFound`; each module's state has the ones listed here and no
other of the seven. -/
def remapGameState (oldId newId : Handle) : GameState → GameState
  | .reactionRace gs =>
    .reactionRace { gs with tapped := remapSet oldId newId gs.tapped
                            earlyTappers := remapSet oldId newId gs.earlyTappers }
  | .triviaBlitz gs => .triviaBlitz { gs with answers := remapMap oldId newId gs.answers }
  | .tapFrenzy gs => .tapFrenzy { gs with taps := remapMap oldId newId gs.taps }
  | .wordScramble gs => .wordScramble gs
  | .emojiMatch gs =>
    .emojiMatch { gs with currentTurn := remapTurn oldId newId gs.currentTurn
                          turnOrder := remapTurnOrder oldId newId gs.turnOrder
                          pairsFound := remapMap oldId newId gs.pairsFound }
  | .mathBlitz gs => .mathBlitz { gs with answers := remapMap oldId newId gs.answers }
  | .simonSays gs => .simonSays gs
  | .colorClash gs => .colorClash { gs with answers := remapMap oldId newId gs.answers }

/-- The function `rejoinRoom`. -/
def rejoinRoom (s : Registry) (socketId : Handle) (code : String) (name : String) :
    Registry × JoinResult :=
  match s.rooms.get code with
  | none => (s, .error "Room not found")
  | some room =>
    match findDisconnected room.players name with
    | some (oldId, oldPlayer) =>
      let room1 : Room :=
        { room with
          players := (room.players.delete oldId).set socketId
            { oldPlayer with disconnected := false }
          host := if room.host = oldId then socketId else room.host
          gameState := room.gameState.map (remapGameState oldId socketId) }
      ({ s with rooms := s.rooms.set code room1
                graceTimers := s.graceTimers.delete oldId }, .rejoined room1)
    | none =>
      if room.state = .playing then (s, .error "Game in progress")
      else joinRoom s socketId code name

/-- The result `{ code, room, gracePeriod: true }` of `disconnectPlayer`. -/
structure DisconnectResult where
  code : String
  room : Room
  gracePeriod : Bool
deriving DecidableEq, Repr

/-- The room loop of `disconnectPlayer`: the first room in which `socketId` is
a player that is not a bot, with that player flagged disconnected. -/
def disconnectScan (socketId : Handle) : List (String × Room) → Option (String × Room × Player)
  | [] => none
  | (code, room) :: rest =>
    match room.players.get socketId with
    | none => disconnectScan socketId rest
    | some player =>
      if player.isBot then disconnectScan socketId rest
      else
        let player1 := { player with disconnected := true }
        some (code, { room with players := room.players.set socketId player1 }, player1)

/-- The function `disconnectPlayer`; the grace timer is the new entry of
`graceTimers`, due `GRACE_PERIOD` after `now`. -/
def disconnectPlayer (s : Registry) (socketId : Handle) (now : Nat) :
    Registry × Option DisconnectResult :=
  match disconnectScan socketId s.rooms.entries with
  | none => (s, none)
  | some (code, room1, player1) =>
    ({ s with rooms := s.rooms.set code room1
              graceTimers := s.graceTimers.set socketId ⟨now + GRACE_PERIOD, code, player1⟩ },
     some ⟨code, room1, true⟩)

/-- The result is `{ room, rejoined: true }`. -/
def JoinResult.isRejoined : JoinResult → Bool
  | .rejoined _ => true
  | _ => false

/-- The results of `finalizeLeave` and `leaveRoom`: `{ code, closed: true }`
and `{ code, room }`. -/
inductive LeaveResult
  | closed (code : String)
  | left (code : String) (room : Room)
deriving DecidableEq, Repr

/-- The promotion loop of `finalizeLeave` and `leaveRoom`: the first player in
iteration order that is not a bot gets `isHost = true`; the result is that
player's handle and the updated players, or `none` when the loop ends with
`promoted` still false. -/
def promoteFirstHuman : List (Handle × Player) → Option (Handle × List (Handle × Player))
  | [] => none
  | (id, p) :: rest =>
    if !p.isBot then some (id, (id, { p with isHost := true }) :: rest)
    else
      match promoteFirstHuman rest with
      | some (h, rest1) => some (h, (id, p) :: rest1)
      | none => none

/-- The function `finalizeLeave`. -/
def finalizeLeave (s : Registry) (socketId : Handle) (code : String) :
    Registry × Option LeaveResult :=
  match s.rooms.get code with
  | none => (s, none)
  | some room =>
    match room.players.get socketId with
    | none => (s, none)
    | some player =>
      if !player.disconnected then (s, none)
      else
        let players1 := room.players.delete socketId
        if room.host = socketId then
          match promoteFirstHuman players1.entries with
          | none => ({ s with rooms := s.rooms.delete code }, some (.closed code))
          | some (id, entries2) =>
            let room2 := { room with players := ⟨entries2⟩, host := id }
            if room2.players.size = 0 then
              ({ s with rooms := s.rooms.delete code }, some (.closed code))
            else ({ s with rooms := s.rooms.set code room2 }, some (.left code room2))
        else
          let room1 := { room with players := players1 }
          if room1.players.size = 0 then
            ({ s with rooms := s.rooms.delete code }, some (.closed code))
          else ({ s with rooms := s.rooms.set code room1 }, some (.left code room1))

/-- The room loop of `leaveRoom`: the first room that has `socketId` as a player. -/
def findRoomOf (socketId : Handle) (rooms : JsMap String Room) : Option (String × Room) :=
  rooms.entries.find? fun e => e.2.players.has socketId

/-- The function `leaveRoom`. -/
def leaveRoom (s : Registry) (socketId : Handle) : Registry × Option LeaveResult :=
  let s0 := { s with graceTimers := s.graceTimers.delete socketId }
  match findRoomOf socketId s0.rooms with
  | none => (s0, none)
  | some (code, room) =>
    let players1 := room.players.delete socketId
    if room.host = socketId then
      match promoteFirstHuman players1.entries with
      | none => ({ s0 with rooms := s0.rooms.delete code }, some (.closed code))
      | some (id, entries2) =>
        let room2 := { room with players := ⟨entries2⟩, host := id }
        if room2.players.size = 0 then
          ({ s0 with rooms := s0.rooms.delete code }, some (.closed code))
        else ({ s0 with rooms := s0.rooms.set code room2 }, some (.left code room2))
    else
      let room1 := { room with players := players1 }
      if room1.players.size = 0 then
        ({ s0 with rooms := s0.rooms.delete code }, some (.closed code))
      else ({ s0 with rooms := s0.rooms.set code room1 }, some (.left code room1))

/-- The function `getRoom`; `none` stands for `null`. -/
def getRoom (s : Registry) (code : String) : Option Room := s.rooms.get code

/-- The function `getRoomBySocket`. -/
def getRoomBySocket (s : Registry) (socketId : Handle) : Option Room :=
  (findRoomOf socketId s.rooms).map Prod.snd

/-! ## `bots.js`: adding and removing bots -/

/-- The table `BOT_NAMES`. -/
def BOT_NAMES : List String :=
  ["RoboChamp", "PixelPal", "ByteBot", "NeonNinja", "TurboTap",
   "GlitchKing", "LazerFox", "CyberPunk", "BotBoss", "MegaByte",
   "ZapMaster", "DataDog", "WiFiWiz", "ClickBot", "SpeedyAI",
   "RoboRex", "BitBlitz", "CodeCat", "QuantumQ", "SteelSam"]

/-- The table `DIFFICULTIES`. -/
def DIFFICULTIES : List String := ["easy", "medium", "hard"]

/-- The table `DIFF_EMOJI`. -/
def DIFF_EMOJI (difficulty : String) : Option String :=
  if difficulty = "easy" then some "🟢"
  else if difficulty = "medium" then some "🟡"
  else if difficulty = "hard" then some "🔴"
  else none

/-- The id a bot gets from counter value `n` at time `now`. -/
def botId (n now : Nat) : Handle := "bot-" ++ toString n ++ "-" ++ toString now

/-- The function `createBot`, on the room it is given. The argument
`botCounter` is the counter before the call; `rName` and `rDiff` stand for the
two random numbers. The result is the counter after the call, the room with
the bot added, and the `{ id, bot }` pair. -/
def createBot (botCounter : Nat) (room : Room) (now rName rDiff : Nat) :
    Nat × Room × Handle × Player :=
  let counter := botCounter + 1
  let id := botId counter now
  let usedNames := room.players.entries.map fun e => e.2.name
  let available := BOT_NAMES.filter fun n => decide (n ∉ usedNames)
  let name :=
    if available.length > 0 then available.getD (rName % available.length) ""
    else "Bot" ++ toString counter
  let difficulty := DIFFICULTIES.getD (rDiff % DIFFICULTIES.length) ""
  let bot : Player :=
    { name := name, score := 0, isHost := false, isBot := true, disconnected := false
      difficulty := some difficulty, diffEmoji := DIFF_EMOJI difficulty }
  (counter, { room with players := room.players.set id bot }, id, bot)

/-- The function `removeBot`. -/
def removeBot (room : Room) (botId : Handle) : Room × Bool :=
  match room.players.get botId with
  | none => (room, false)
  | some player =>
    if !player.isBot then (room, false)
    else ({ room with players := room.players.delete botId }, true)

/-! ## Game modules: output, timers and sorting -/

/-- The addressee of an emit: `io.to(room.code)` or a single `socket`. -/
inductive Target
  | room (code : String)
  | socket (id : Handle)
deriving DecidableEq, Repr

/-- The `winner` object of the reaction-race result. -/
structure RRWinner where
  id : Handle
  name : String
  time : Option Int
deriving DecidableEq, Repr

/-- An element of the trivia-blitz `results`. -/
structure TVResult where
  id : Handle
  name : String
  correct : Bool
  points : Int
  time : Int
deriving DecidableEq, Repr

/-- An element of the tap-frenzy `results`; `points` is absent until awarded. -/
structure TFResult where
  id : Handle
  name : String
  count : Nat
  points : Option Int
deriving DecidableEq, Repr

/-- An element of the emoji-match `results`. -/
structure EMResult where
  id : Handle
  name : String
  pairs : Nat
deriving DecidableEq, Repr

/-- An element of the color-clash `results`. -/
structure CCResult where
  name : String
  correct : Bool
  time : Int
deriving DecidableEq, Repr

/-- An element of the `scores` of `game:end`. -/
structure ScoreEntry where
  id : Handle
  name : String
  score : Int
deriving DecidableEq, Repr

/-- The message objects the modelled code emits. Each constructor stands for
one object literal of the source; its `phase` property is given by `Payload.phase`. -/
inductive Payload
  | rrResult (round : Nat) (winner : Option RRWinner) (results : List RRResult)
  | tvAnswer (correctIndex : Nat) (correctText : Option String) (results : List TVResult)
  | tfResult (results : List TFResult)
  | wsReveal (word : Option String) (solvers : List WSSolver)
  | emRoundResult (results : List EMResult)
  | mbResult (round : Nat) (answer : Int) (problem : String) (solvers : List (String × Int))
      (totalAnswered totalPlayers : Nat)
  | ssResult (round : Nat) (survivors : List String) (survivorCount eliminated : Nat)
  | ccResult (round : Nat) (correctAnswer : Option String) (word : Option String)
      (results : List CCResult)
  | ccQuestion (round totalRounds : Nat) (word inkColor : Option String)
      (options : List String) (timeLimit : Nat)
  | ccAnswered (correct : Bool) (streak : Nat)
  | gameEnd (scores : List ScoreEntry)
  | rrReady (round totalRounds : Nat)
  | rrGo
  | rrEarly
  | tvQuestion (round totalRounds : Nat) (question : String) (options : List String)
      (timeLimit : Nat)
  | tfCountdown (round totalRounds : Nat)
  | wsScrambled (round totalRounds : Nat) (scrambled : String) (wordLength timeLimit : Nat)
  | wsSolved (rank : Nat) (points : Int)
  | wsWrong
  | emPlaying (round totalRounds boardSize cols : Nat) (currentTurn : Option Handle)
      (currentTurnName : Option String)
  | emFlip (index : Pick) (emoji : Option String)
  | emUnflip (first second : Pick)
  | emTurn (currentTurn : Option Handle) (currentTurnName : Option String)
  | mbSolving (round totalRounds : Nat) (problem : String) (level timeLimit : Nat)
  | mbAnswered (points : Int) (solveTime : Int)
  | mbWrong (yourAnswer : Int)
  | ssShowing (round totalRounds sequenceLength survivors totalPlayers : Nat)
  | ssEliminated (wrongAt : Nat) (expected : Option String) (entered : String)
  | ssInput (round sequenceLength timeLimit : Nat)
  | ssInputProgress (entered needed : Nat)
  | ssRoundComplete (message : String)
deriving DecidableEq, Repr

/-- The `phase` property of a message; `game:end` has none. -/
def Payload.phase : Payload → Option String
  | .rrResult .. => some "result"
  | .tvAnswer .. => some "answer"
  | .tfResult .. => some "result"
  | .wsReveal .. => some "reveal"
  | .emRoundResult .. => some "roundResult"
  | .mbResult .. => some "result"
  | .ssResult .. => some "result"
  | .ccResult .. => some "result"
  | .ccQuestion .. => some "question"
  | .ccAnswered .. => some "answered"
  | .gameEnd .. => none
  | .rrReady .. => some "ready"
  | .rrGo => some "go"
  | .rrEarly => some "early"
  | .tvQuestion .. => some "question"
  | .tfCountdown .. => some "countdown"
  | .wsScrambled .. => some "scrambled"
  | .wsSolved .. => some "solved"
  | .wsWrong => some "wrong"
  | .emPlaying .. => some "playing"
  | .emFlip .. => some "flip"
  | .emUnflip .. => some "unflip"
  | .emTurn .. => some "turn"
  | .mbSolving .. => some "solving"
  | .mbAnswered .. => some "answered"
  | .mbWrong .. => some "wrong"
  | .ssShowing .. => some "showing"
  | .ssEliminated .. => some "eliminated"
  | .ssInput .. => some "input"
  | .ssInputProgress .. => some "inputProgress"
  | .ssRoundComplete .. => some "roundComplete"

/-- One call of `emit`. -/
structure Emit where
  target : Target
  event : String
  payload : Payload
deriving DecidableEq, Repr

/-- What a call into a game module leaves behind: the room as mutated, the
emits in order, and whether the call ended by throwing a `TypeError`
(mutations made before the throw stay). -/
structure Outcome where
  room : Room
  emits : List Emit
  threw : Bool
deriving DecidableEq, Repr

/-- The call `setTimeout(cb, delay)` at time `now`, followed by `_addTimer`. -/
def Room.setTimeout (room : Room) (now delay : Nat) (cb : Callback) : Room :=
  { room with
    timers := room.timers ++ [⟨room.nextTimerId, now + delay, cb⟩]
    nextTimerId := room.nextTimerId + 1 }

/-- The call `clearTimeout(t)` for a stored handle `t`; `none` is a null handle. -/
def Room.clearTimeout (room : Room) (t : Option Nat) : Room :=
  match t with
  | none => room
  | some id => { room with timers := room.timers.filter fun x => !decide (x.id = id) }

/-- The method `Array.prototype.sort(cmp)`: a stable sort, `a` staying before
`b` when `cmp(a, b) <= 0`. -/
def jsSort {α : Type} (cmp : α → α → Int) (l : List α) : List α :=
  l.insertionSort fun a b => cmp a b ≤ 0

/-- The element `arr[round - 1]`, `undefined` when the index is out of range. -/
def roundItem {α : Type} (arr : List α) (round : Nat) : Option α :=
  if round = 0 then none else arr[round - 1]?

/-- The final ranking of `_endGame`: one entry per player, sorted by
`b.score - a.score`. -/
def finalScores (players : JsMap Handle Player) : List ScoreEntry :=
  jsSort (fun a b => b.score - a.score)
    (players.entries.map fun e => ⟨e.1, e.2.name, e.2.score⟩)

/-- The constructor `new Set(array)`. -/
def JsSet.ofList {α : Type} [DecidableEq α] (l : List α) : JsSet α :=
  l.foldl JsSet.add JsSet.empty

/-! ## Round-ending transitions

Each function reads `room.gameState` first. When it is null the property
access throws a `TypeError`; a state built by another module never reaches a
module's functions and is treated the same way. -/

/-- The method `_roundResult` of reaction-race. A `winnerId` that is null or
the empty string is falsy. -/
def ReactionRace._roundResult (now : Nat) (room : Room) (winnerId : Option Handle) : Outcome :=
  match room.gameState with
  | some (.reactionRace gs) =>
    if gs.resultFired then ⟨room, [], false⟩
    else
      let gs1 := { gs with resultFired := true, phase := .result }
      let winner : Option RRWinner :=
        match winnerId with
        | none => none
        | some w =>
          if w = "" then none
          else (room.players.get w).map fun p => ⟨w, p.name, gs1.roundResults.head?.map (·.time)⟩
      let room1 := { room with gameState := some (.reactionRace gs1) }
      ⟨room1.setTimeout now 3000 (.nextRound .reactionRace),
       [⟨.room room.code, "game:state", .rrResult gs1.round winner (gs1.roundResults.take 5)⟩],
       false⟩
  | _ => ⟨room, [], true⟩

/-- One pass of the scoring loop of trivia-blitz `_showAnswer`. -/
def TriviaBlitz.scoreAnswer (q : Question)
    (acc : JsMap Handle Player × List TVResult) (e : Handle × TVAnswer) :
    JsMap Handle Player × List TVResult :=
  match acc.1.get e.1 with
  | none => acc
  | some player =>
    let correct := decide (e.2.choice = (q.answer : Int))
    let points : Int := if correct then 100 + max 0 (Int.fdiv (10000 - e.2.time) 80) else 0
    let players :=
      if correct then acc.1.set e.1 { player with score := player.score + points } else acc.1
    (players, acc.2 ++ [⟨e.1, player.name, correct, points, e.2.time⟩])

/-- The method `_showAnswer` of trivia-blitz. -/
def TriviaBlitz._showAnswer (now : Nat) (room : Room) : Outcome :=
  match room.gameState with
  | some (.triviaBlitz gs) =>
    if gs.answerShown then ⟨room, [], false⟩
    else if gs.phase = .finished then ⟨room, [], false⟩
    else
      match roundItem gs.questions gs.round with
      | none => ⟨room, [], false⟩
      | some q =>
        let gs1 := { gs with answerShown := true, phase := .answer, currentRoundTimer := none }
        let room1 := room.clearTimeout gs.currentRoundTimer
        let scored := gs1.answers.entries.foldl (TriviaBlitz.scoreAnswer q) (room1.players, [])
        let results := jsSort (fun a b => b.points - a.points) scored.2
        let room2 := { room1 with players := scored.1, gameState := some (.triviaBlitz gs1) }
        ⟨room2.setTimeout now 4000 (.nextRound .triviaBlitz),
         [⟨.room room.code, "game:state", .tvAnswer q.answer q.options[q.answer]? results⟩],
         false⟩
  | _ => ⟨room, [], true⟩

/-- The table `pointTable` of tap-frenzy `_roundResult`. -/
def TapFrenzy.pointTable : List Int := [150, 100, 75]

/-- The `forEach` of tap-frenzy `_roundResult`, from index `i` on: every result
gets `pointTable[i] || 25` points, added to the score of its player. -/
def TapFrenzy.award : Nat → List TFResult → JsMap Handle Player →
    JsMap Handle Player × List TFResult
  | _, [], players => (players, [])
  | i, r :: rest, players =>
    let points : Int := (TapFrenzy.pointTable[i]?).getD 25
    let players1 :=
      match players.get r.id with
      | some player => players.set r.id { player with score := player.score + points }
      | none => players
    let tail := TapFrenzy.award (i + 1) rest players1
    (tail.1, { r with points := some points } :: tail.2)

/-- The method `_roundResult` of tap-frenzy. -/
def TapFrenzy._roundResult (now : Nat) (room : Room) : Outcome :=
  match room.gameState with
  | some (.tapFrenzy gs) =>
    if gs.phase = .result then ⟨room, [], false⟩
    else
      let gs1 := { gs with phase := .result }
      let listed : List TFResult := gs1.taps.entries.filterMap fun e =>
        (room.players.get e.1).map fun p => ⟨e.1, p.name, e.2, none⟩
      let sorted := jsSort (fun a b => (b.count : Int) - a.count) listed
      let awarded := TapFrenzy.award 0 sorted room.players
      let room1 := { room with players := awarded.1, gameState := some (.tapFrenzy gs1) }
      ⟨room1.setTimeout now 4000 (.nextRound .tapFrenzy),
       [⟨.room room.code, "game:state", .tfResult awarded.2⟩], false⟩
  | _ => ⟨room, [], true⟩

/-- The method `_revealAnswer` of word-scramble. -/
def WordScramble._revealAnswer (now : Nat) (room : Room) : Outcome :=
  match room.gameState with
  | some (.wordScramble gs) =>
    if gs.revealFired then ⟨room, [], false⟩
    else
      let gs1 := { gs with revealFired := true, phase := .reveal, currentRoundTimer := none }
      let room1 := room.clearTimeout gs.currentRoundTimer
      let room2 := { room1 with gameState := some (.wordScramble gs1) }
      ⟨room2.setTimeout now 4000 (.nextRound .wordScramble),
       [⟨.room room.code, "game:state", .wsReveal (roundItem gs1.words gs1.round) gs1.solvers⟩],
       false⟩
  | _ => ⟨room, [], true⟩

/-- The method `_roundResult` of emoji-match. -/
def EmojiMatch._roundResult (now : Nat) (room : Room) : Outcome :=
  match room.gameState with
  | some (.emojiMatch gs) =>
    if gs.phase = .roundResult ∨ gs.phase = .finished then ⟨room, [], false⟩
    else
      let gs1 := { gs with phase := .roundResult }
      let listed : List EMResult := gs1.pairsFound.entries.filterMap fun e =>
        (room.players.get e.1).map fun p => ⟨e.1, p.name, e.2⟩
      let results := jsSort (fun a b => (b.pairs : Int) - a.pairs) listed
      let room1 := { room with gameState := some (.emojiMatch gs1) }
      ⟨room1.setTimeout now 4000 (.nextRound .emojiMatch),
       [⟨.room room.code, "game:state", .emRoundResult results⟩], false⟩
  | _ => ⟨room, [], true⟩

/-- The method `_roundResult` of math-blitz. When `problems[round - 1]` is
undefined, reading `problem.answer` throws after `phase` was set. -/
def MathBlitz._roundResult (now : Nat) (room : Room) : Outcome :=
  match room.gameState with
  | some (.mathBlitz gs) =>
    if gs.phase = .result then ⟨room, [], false⟩
    else
      let gs1 := { gs with phase := .result }
      let room1 := { room with gameState := some (.mathBlitz gs1) }
      match roundItem gs1.problems gs1.round with
      | none => ⟨room1, [], true⟩
      | some problem =>
        ⟨room1.setTimeout now 3500 (.nextRound .mathBlitz),
         [⟨.room room.code, "game:state",
            .mbResult gs1.round problem.answer problem.display
              (gs1.solvers.map fun x => (x.name, x.time)) gs1.answers.size room.players.size⟩],
         false⟩
  | _ => ⟨room, [], true⟩

/-- The method `_resolveRound` of simon-says. -/
def SimonSays._resolveRound (now : Nat) (room : Room) : Outcome :=
  match room.gameState with
  | some (.simonSays gs) =>
    if gs.phase = .result then ⟨room, [], false⟩
    else
      let expectedLength := gs.round
      let eliminated : JsSet Handle := gs.survivors.elems.foldl
        (fun el id =>
          if ((gs.inputs.get id).getD []).length < expectedLength then el.add id else el)
        gs.eliminated
      let survivors : JsSet Handle :=
        JsSet.ofList (room.players.keys.filter fun id => !eliminated.has id)
      let survivorNames : List String := (survivors.elems.filterMap fun id =>
        (room.players.get id).map (·.name)).filter fun n => !decide (n = "")
      let gs1 : SSState :=
        { gs with phase := .result, eliminated := eliminated, survivors := survivors }
      let room1 : Room := { room with gameState := some (.simonSays gs1) }
      let next : Callback :=
        if survivors.size ≤ 1 ∨ gs1.round ≥ gs1.totalRounds then .endGame .simonSays
        else .nextRound .simonSays
      ⟨room1.setTimeout now 3000 next,
       [⟨.room room.code, "game:state",
          .ssResult gs1.round survivorNames survivors.size eliminated.size⟩],
       false⟩
  | _ => ⟨room, [], true⟩

/-- The comparator `(b.correct - a.correct) || (a.time - b.time)` of color-clash. -/
def ColorClash.compareResults (a b : CCResult) : Int :=
  let byCorrect : Int := (if b.correct then 1 else 0) - (if a.correct then 1 else 0)
  if byCorrect ≠ 0 then byCorrect else a.time - b.time

/-- The method `_resolveRound` of color-clash. -/
def ColorClash._resolveRound (now : Nat) (room : Room) : Outcome :=
  match room.gameState with
  | some (.colorClash gs) =>
    if gs.phase = .result then ⟨room, [], false⟩
    else
      let gs1 := { gs with phase := .result }
      let listed : List CCResult := gs1.answers.entries.filterMap fun e =>
        (room.players.get e.1).map fun p =>
          ⟨p.name, decide (some e.2.choice = gs1.inkColor), e.2.responseTime⟩
      let results := jsSort ColorClash.compareResults listed
      let room1 := { room with gameState := some (.colorClash gs1) }
      ⟨room1.setTimeout now 3000 (.nextRound .colorClash),
       [⟨.room room.code, "game:state",
          .ccResult gs1.round gs1.inkColor gs1.word (results.take 5)⟩],
       false⟩
  | _ => ⟨room, [], true⟩

/-- The round-ending transition of each module; `winnerId` is the extra
argument of reaction-race `_roundResult`. -/
def roundEnd (g : GameId) (now : Nat) (winnerId : Option Handle) (room : Room) : Outcome :=
  match g with
  | .reactionRace => ReactionRace._roundResult now room winnerId
  | .triviaBlitz => TriviaBlitz._showAnswer now room
  | .tapFrenzy => TapFrenzy._roundResult now room
  | .wordScramble => WordScramble._revealAnswer now room
  | .emojiMatch => EmojiMatch._roundResult now room
  | .mathBlitz => MathBlitz._roundResult now room
  | .simonSays => SimonSays._resolveRound now room
  | .colorClash => ColorClash._resolveRound now room

/-- The round of a game state has not been ended yet: the conditions under
which the round-ending transition of the state's module goes past its guards
and reaches its broadcast. -/
def roundOpen : GameState → Bool
  | .reactionRace gs => !gs.resultFired
  | .triviaBlitz gs =>
    !gs.answerShown && !decide (gs.phase = .finished) && (roundItem gs.questions gs.round).isSome
  | .tapFrenzy gs => !decide (gs.phase = .result)
  | .wordScramble gs => !gs.revealFired
  | .emojiMatch gs => !decide (gs.phase = .roundResult) && !decide (gs.phase = .finished)
  | .mathBlitz gs => !decide (gs.phase = .result) && (roundItem gs.problems gs.round).isSome
  | .simonSays gs => !decide (gs.phase = .result)
  | .colorClash gs => !decide (gs.phase = .result)

/-- The phase in which each module's round-ending transition leaves the game. -/
def resultPhase : GameId → Phase
  | .reactionRace => .result
  | .triviaBlitz => .answer
  | .tapFrenzy => .result
  | .wordScramble => .reveal
  | .emojiMatch => .roundResult
  | .mathBlitz => .result
  | .simonSays => .result
  | .colorClash => .result

/-- The string value of a phase that a result message carries. -/
def resultPhaseName : GameId → String
  | .reactionRace => "result"
  | .triviaBlitz => "answer"
  | .tapFrenzy => "result"
  | .wordScramble => "reveal"
  | .emojiMatch => "roundResult"
  | .mathBlitz => "result"
  | .simonSays => "result"
  | .colorClash => "result"

/-- The emit is a round-result broadcast of module `g` to the room `code`. -/
def isRoundResult (g : GameId) (code : String) (e : Emit) : Bool :=
  decide (e.target = .room code) && decide (e.event = "game:state") &&
    decide (e.payload.phase = some (resultPhaseName g))

/-! ## Color-clash: the whole round cycle -/

/-- A JavaScript value as it arrives in an event payload. -/
inductive JsVal
  | undef
  | num (n : Int)
  | str (s : String)
deriving DecidableEq, Repr

/-- The `data` object of a `game:event`, by the properties the modules read.
The property `index` is `undefined` (`none`) or an integer; other values of
it are not covered. -/
structure EventData where
  choice : JsVal
  answer : JsVal
  guess : JsVal
  index : Option Int
  color : JsVal
deriving DecidableEq, Repr

namespace ColorClash

/-- The table `COLORS`. -/
def COLORS : List String := ["red", "blue", "green", "yellow", "purple", "orange"]

/-- The constant `TOTAL_ROUNDS`. -/
def TOTAL_ROUNDS : Nat := 10

/-- The constant `BASE_TIME_MS`. -/
def BASE_TIME_MS : Nat := 5000

/-- The constant `MIN_TIME_MS`. -/
def MIN_TIME_MS : Nat := 1500

/-- The constant `TIME_DECAY`. -/
def TIME_DECAY : Nat := 300

/-- The object `{ word, inkColor, options }` that `_generateQuestion()` returns.
That method only draws random numbers; its result is an argument of the model. -/
structure Generated where
  word : String
  inkColor : String
  options : List String
deriving DecidableEq, Repr

/-- The method `_endGame`. -/
def _endGame (room : Room) : Outcome :=
  match room.gameState with
  | some (.colorClash gs) =>
    if gs.phase = .finished then ⟨room, [], false⟩
    else
      ⟨{ room with gameState := some (.colorClash { gs with phase := .finished })
                   state := .results },
       [⟨.room room.code, "game:end", .gameEnd (finalScores room.players)⟩], false⟩
  | _ => ⟨room, [], true⟩

/-- The method `_nextRound`, run at time `now` with `q` the generated question. -/
def _nextRound (now : Nat) (q : Generated) (room : Room) : Outcome :=
  match room.gameState with
  | some (.colorClash gs) =>
    let gs1 : CCState := { gs with round := gs.round + 1, phase := .showing, answers := JsMap.empty }
    let room1 : Room := { room with gameState := some (.colorClash gs1) }
    if gs1.round > gs1.totalRounds then _endGame room1
    else
      let timeLimit : Nat :=
        (max (MIN_TIME_MS : Int) ((BASE_TIME_MS : Int) - ((gs1.round : Int) - 1) * TIME_DECAY)).toNat
      let gs2 : CCState :=
        { gs1 with word := some q.word, inkColor := some q.inkColor, options := q.options
                   timeLimit := timeLimit, questionStart := now }
      let room2 : Room := { room1 with gameState := some (.colorClash gs2) }
      ⟨room2.setTimeout now timeLimit (.roundTimeout .colorClash),
       [⟨.room room.code, "game:state",
          .ccQuestion gs2.round gs2.totalRounds gs2.word gs2.inkColor gs2.options timeLimit⟩],
       false⟩
  | _ => ⟨room, [], true⟩

/-- The method `init`, run at time `now`. -/
def init (now : Nat) (q : Generated) (room : Room) : Outcome :=
  let gs : CCState :=
    { round := 0, totalRounds := TOTAL_ROUNDS, phase := .waiting
      word := none, inkColor := none, options := []
      answers := JsMap.empty
      streaks := room.players.entries.foldl (fun m e => m.set e.1 0) JsMap.empty
      timeLimit := 0, questionStart := 0 }
  _nextRound now q { room with gameState := some (.colorClash gs) }

/-- The method `onEvent`, run at time `now` for the socket `socketId`; a `data`
of `none` is an absent payload. -/
def onEvent (now : Nat) (room : Room) (socketId : Handle) (event : String)
    (data : Option EventData) : Outcome :=
  if event ≠ "answer" then ⟨room, [], false⟩
  else
    match room.gameState with
    | some (.colorClash gs) =>
      if gs.phase ≠ .showing then ⟨room, [], false⟩
      else if gs.answers.has socketId then ⟨room, [], false⟩
      else
        match data with
        | none => ⟨room, [], true⟩
        | some d =>
          match d.choice with
          | .str choice =>
            if !gs.options.contains choice then ⟨room, [], false⟩
            else
              let responseTime : Int := (now : Int) - gs.questionStart
              let gs1 : CCState := { gs with answers := gs.answers.set socketId ⟨choice, responseTime⟩ }
              match room.players.get socketId with
              | none => ⟨{ room with gameState := some (.colorClash gs1) }, [], false⟩
              | some player =>
                let correct : Bool := decide (some choice = gs1.inkColor)
                let streak : Nat := (gs1.streaks.get socketId).getD 0 + 1
                let speedBonus : Int := max 0 (Int.fdiv ((gs1.timeLimit : Int) - responseTime) 50)
                let streakBonus : Int := min ((streak : Int) - 1) 5 * 10
                let gs2 : CCState :=
                  if correct then { gs1 with streaks := gs1.streaks.set socketId streak }
                  else { gs1 with streaks := gs1.streaks.set socketId 0 }
                let players1 : JsMap Handle Player :=
                  if correct then
                    room.players.set socketId
                      { player with score := player.score + (100 + speedBonus + streakBonus) }
                  else room.players
                let ack : Emit :=
                  ⟨.socket socketId, "game:state",
                   .ccAnswered correct ((gs2.streaks.get socketId).getD 0)⟩
                let room1 : Room :=
                  { room with players := players1, gameState := some (.colorClash gs2) }
                if room1.players.keys.all fun id => gs2.answers.has id then
                  let o := ColorClash._resolveRound now room1
                  ⟨o.room, ack :: o.emits, o.threw⟩
                else ⟨room1, [ack], false⟩
          | _ => ⟨room, [], false⟩
    | _ => ⟨room, [], true⟩

/-- The callback of the round timer that `_nextRound` creates:
`if (gs.phase === 'showing') this._resolveRound(room, io)`. The closure holds
`gs`, `room` and `io` and no round number. Its `gs` is the object that
`room.gameState` held when the timer was created, which is the current
`room.gameState` for as long as that game runs. -/
def roundTimeout (now : Nat) (room : Room) : Outcome :=
  match room.gameState with
  | some (.colorClash gs) =>
    if gs.phase = .showing then ColorClash._resolveRound now room else ⟨room, [], false⟩
  | _ => ⟨room, [], true⟩

/-- The event loop runs the pending timer `id` at time `now`: the timer must be
pending and due; it leaves the pending timers and its callback runs. -/
def fire (now : Nat) (q : Generated) (id : Nat) (room : Room) : Option Outcome :=
  match room.timers.find? fun t => decide (t.id = id) with
  | none => none
  | some t =>
    if now < t.due then none
    else
      let room1 : Room := { room with timers := room.timers.filter fun x => !decide (x.id = id) }
      match t.cb with
      | .roundTimeout .colorClash => some (roundTimeout now room1)
      | .nextRound .colorClash => some (_nextRound now q room1)
      | _ => none

end ColorClash

/-- The callback of the math-blitz round timer:
`if (gs.phase === 'solving' && gs.round <= gs.totalRounds) this._roundResult(room, io)`.
The closure holds no round number. -/
def MathBlitz.roundTimeout (now : Nat) (room : Room) : Outcome :=
  match room.gameState with
  | some (.mathBlitz gs) =>
    if gs.phase = .solving ∧ gs.round ≤ gs.totalRounds then MathBlitz._roundResult now room
    else ⟨room, [], false⟩
  | _ => ⟨room, [], true⟩

/-- The callback of the simon-says input timer:
`if (gs.phase === 'input') this._resolveRound(room, io)`.
The closure holds no round number. -/
def SimonSays.inputTimeout (now : Nat) (room : Room) : Outcome :=
  match room.gameState with
  | some (.simonSays gs) =>
    if gs.phase = .input then SimonSays._resolveRound now room else ⟨room, [], false⟩
  | _ => ⟨room, [], true⟩

/-! ## Handles held in a game state -/

/-- Every connection handle stored in a game state: keys of maps, members of
sets, the turn pointer, the turn order, and the `id` of stored records. -/
def GameState.handles : GameState → List Handle
  | .reactionRace gs =>
    gs.tapped.elems ++ gs.earlyTappers.elems ++ gs.roundResults.map (·.id)
  | .triviaBlitz gs => gs.answers.keys
  | .tapFrenzy gs => gs.taps.keys
  | .wordScramble gs => gs.solvers.map (·.id)
  | .emojiMatch gs => gs.currentTurn.toList ++ gs.turnOrder ++ gs.pairsFound.keys
  | .mathBlitz gs => gs.answers.keys ++ gs.solvers.map (·.id)
  | .simonSays gs => gs.inputs.keys ++ gs.eliminated.elems ++ gs.survivors.elems
  | .colorClash gs => gs.answers.keys ++ gs.streaks.keys

/-- The handle occurs somewhere in `room.gameState`. -/
def handleOccurs (h : Handle) (room : Room) : Bool :=
  match room.gameState with
  | some gs => decide (h ∈ gs.handles)
  | none => false

/-- The registry in which the entry of player `p`, under handle `h` in the room
`room` stored under `c`, has its `disconnected` flag set. -/
def markDisconnected (s : Registry) (c : String) (room : Room) (h : Handle) (p : Player) :
    Registry :=
  { s with
    rooms := s.rooms.set c
      { room with players := room.players.set h { p with disconnected := true } } }

/-! ## `server.js`: the handlers for bots -/

/-- The acknowledgement a handler passes to its callback: `{ error }` or `{ ok: true }`. -/
inductive Ack
  | error (msg : String)
  | ok
deriving DecidableEq, Repr

/-- The handler of `room:addBot` for the socket `socketId`. -/
def addBotHandler (s : Registry) (socketId : Handle) (now rName rDiff : Nat) : Registry × Ack :=
  match findRoomOf socketId s.rooms with
  | none => (s, .error "Not in a room")
  | some (code, room) =>
    if room.host ≠ socketId then (s, .error "Only host can add bots")
    else if room.players.size ≥ 20 then (s, .error "Room is full")
    else if room.state ≠ .lobby then (s, .error "Can only add bots in lobby")
    else
      ({ s with
          rooms := s.rooms.set code (createBot s.botCounter room now rName rDiff).2.1
          botCounter := (createBot s.botCounter room now rName rDiff).1 }, .ok)

/-- The handler of `room:removeBot` for the socket `socketId`. -/
def removeBotHandler (s : Registry) (socketId : Handle) (bot : Handle) : Registry × Ack :=
  match findRoomOf socketId s.rooms with
  | none => (s, .error "Not in a room")
  | some (code, room) =>
    if room.host ≠ socketId then (s, .error "Only host can remove bots")
    else if (removeBot room bot).2 then
      ({ s with rooms := s.rooms.set code (removeBot room bot).1 }, .ok)
    else (s, .error "Bot not found")

/-! ## The other modules: `init`, the start of a round, `onEvent`, `_endGame` -/

/-- The number of players that are not flagged disconnected, `activePlayers`. -/
def activePlayers (players : JsMap Handle Player) : Nat :=
  (players.entries.filter fun e => !e.2.disconnected).length

namespace ReactionRace

/-- The property `rounds`. -/
def rounds : Nat := 5

/-- The method `_endGame`. -/
def _endGame (room : Room) : Outcome :=
  match room.gameState with
  | some (.reactionRace gs) =>
    if gs.phase = .finished then ⟨room, [], false⟩
    else
      ⟨{ room with gameState := some (.reactionRace { gs with phase := .finished })
                   state := .results },
       [⟨.room room.code, "game:end", .gameEnd (finalScores room.players)⟩], false⟩
  | _ => ⟨room, [], true⟩

/-- The method `_nextRound`, run at time `now`; `delay` stands for
`1500 + Math.random() * 3500`. -/
def _nextRound (now delay : Nat) (room : Room) : Outcome :=
  match room.gameState with
  | some (.reactionRace gs) =>
    let gs1 : RRState :=
      { gs with round := gs.round + 1, phase := .ready, goTime := none
                tapped := JsSet.empty, earlyTappers := JsSet.empty
                roundResults := [], resultFired := false }
    let room1 : Room := { room with gameState := some (.reactionRace gs1) }
    if gs1.round > gs1.totalRounds then _endGame room1
    else
      ⟨room1.setTimeout now delay (.rrGo gs1.round),
       [⟨.room room.code, "game:state", .rrReady gs1.round gs1.totalRounds⟩], false⟩
  | _ => ⟨room, [], true⟩

/-- The method `init`. -/
def init (now delay : Nat) (room : Room) : Outcome :=
  let gs : RRState :=
    { round := 0, totalRounds := rounds, phase := .waiting, goTime := none
      roundResults := [], tapped := JsSet.empty, earlyTappers := JsSet.empty
      resultFired := false }
  _nextRound now delay { room with gameState := some (.reactionRace gs) }

/-- What the callback of the timer `t1` does to the object `gs` it captured:
`gs.phase = 'go'` and `gs.goTime = Date.now()`, unless the round of that
object has changed. -/
def goCaptured (now thisRound : Nat) (gs : RRState) : RRState :=
  if gs.round ≠ thisRound then gs else { gs with phase := .go, goTime := some now }

/-- The callback of the timer `t1` of `_nextRound`, which captured `thisRound`
and the object `gs`; `captured` is that object, the live game state unless
stated. The callback tests and writes the object it captured: for an orphan,
`room.gameState` stays as it is (`goCaptured` gives the orphan after the
call), while the message 'go' still goes to the room and the timer `t2` is
still created. -/
def goCallback (now thisRound : Nat) (room : Room)
    (captured : optParam (Captured RRState) .live) : Outcome :=
  match captured with
  | .live =>
    match room.gameState with
    | some (.reactionRace gs) =>
      if gs.round ≠ thisRound then ⟨room, [], false⟩
      else
        let gs1 : RRState := { gs with phase := .go, goTime := some now }
        let room1 : Room := { room with gameState := some (.reactionRace gs1) }
        ⟨room1.setTimeout now 5000 (.roundTimeoutFor .reactionRace thisRound),
         [⟨.room room.code, "game:state", .rrGo⟩], false⟩
    | _ => ⟨room, [], true⟩
  | .orphan gs =>
    if gs.round ≠ thisRound then ⟨room, [], false⟩
    else
      ⟨room.setTimeout now 5000 (.roundTimeoutFor .reactionRace thisRound),
       [⟨.room room.code, "game:state", .rrGo⟩], false⟩

/-- The callback of the timer `t2`, created when the round turns to 'go';
`captured` is the object `gs` the closure holds, the live game state unless
stated. The guard reads `round`, `phase` and `resultFired` of the captured
object; `_roundResult(room, io, null)` then works on `room.gameState`. -/
def timeoutCallback (now thisRound : Nat) (room : Room)
    (captured : optParam (Captured RRState) .live) : Outcome :=
  match captured with
  | .live =>
    match room.gameState with
    | some (.reactionRace gs) =>
      if gs.round = thisRound ∧ gs.phase = .go ∧ gs.resultFired = false then
        ReactionRace._roundResult now room none
      else ⟨room, [], false⟩
    | _ => ⟨room, [], true⟩
  | .orphan gs =>
    if gs.round = thisRound ∧ gs.phase = .go ∧ gs.resultFired = false then
      ReactionRace._roundResult now room none
    else ⟨room, [], false⟩

/-- The callback of the timer created by the first valid tap; `captured` is
the object `gs` that `onEvent` read from `room.gameState` and the closure
holds, the live game state unless stated. The guard reads `resultFired` of the
captured object. -/
def firstTapCallback (now : Nat) (winnerId : Handle) (room : Room)
    (captured : optParam (Captured RRState) .live) : Outcome :=
  match captured with
  | .live =>
    match room.gameState with
    | some (.reactionRace gs) =>
      if gs.resultFired = false then ReactionRace._roundResult now room (some winnerId)
      else ⟨room, [], false⟩
    | _ => ⟨room, [], true⟩
  | .orphan gs =>
    if gs.resultFired = false then ReactionRace._roundResult now room (some winnerId)
    else ⟨room, [], false⟩

/-- The method `onEvent`. It never reads `data`. A null `goTime` counts as 0 in
the subtraction. -/
def onEvent (now : Nat) (room : Room) (socketId : Handle) (event : String)
    (_data : Option EventData) : Outcome :=
  if event ≠ "tap" then ⟨room, [], false⟩
  else
    match room.gameState with
    | some (.reactionRace gs) =>
      if gs.phase = .ready then
        ⟨{ room with gameState := some (.reactionRace
            { gs with earlyTappers := gs.earlyTappers.add socketId }) },
         [⟨.socket socketId, "game:state", .rrEarly⟩], false⟩
      else if gs.phase ≠ .go then ⟨room, [], false⟩
      else if gs.tapped.has socketId then ⟨room, [], false⟩
      else
        let gs1 : RRState := { gs with tapped := gs.tapped.add socketId }
        let reactionTime : Int := (now : Int) - (gs.goTime.getD 0 : Nat)
        match room.players.get socketId with
        | none => ⟨{ room with gameState := some (.reactionRace gs1) }, [], false⟩
        | some player =>
          let gs2 : RRState :=
            { gs1 with roundResults := gs1.roundResults ++ [⟨socketId, player.name, reactionTime⟩] }
          if gs2.roundResults.length = 1 ∧ gs2.resultFired = false then
            let bonus : Int := if reactionTime < 300 then 50 else 0
            let room1 : Room :=
              { room with
                players := room.players.set socketId
                  { player with score := player.score + 100 + bonus }
                gameState := some (.reactionRace gs2) }
            ⟨room1.setTimeout now 1500 (.rrFirstTap socketId), [], false⟩
          else ⟨{ room with gameState := some (.reactionRace gs2) }, [], false⟩
    | _ => ⟨room, [], true⟩

end ReactionRace

namespace TriviaBlitz

/-- The table `QUESTIONS`. -/
def QUESTIONS : List Question :=
  [⟨"What planet is known as the Red Planet?", ["Venus", "Mars", "Jupiter", "Saturn"], 1⟩,
   ⟨"How many sides does a hexagon have?", ["5", "6", "7", "8"], 1⟩,
   ⟨"What is the chemical symbol for gold?", ["Go", "Gd", "Au", "Ag"], 2⟩,
   ⟨"Which ocean is the largest?", ["Atlantic", "Indian", "Arctic", "Pacific"], 3⟩,
   ⟨"What year did the Titanic sink?", ["1905", "1912", "1918", "1923"], 1⟩,
   ⟨"How many bones in the adult human body?", ["186", "206", "226", "256"], 1⟩,
   ⟨"What is the smallest country in the world?",
     ["Monaco", "Vatican City", "Malta", "Liechtenstein"], 1⟩,
   ⟨"Which element has the atomic number 1?", ["Helium", "Oxygen", "Hydrogen", "Carbon"], 2⟩,
   ⟨"What is the speed of light in km/s (approx)?",
     ["150,000", "200,000", "300,000", "400,000"], 2⟩,
   ⟨"Which country invented pizza?", ["Greece", "France", "Italy", "Spain"], 2⟩,
   ⟨"What is the longest river in the world?", ["Amazon", "Nile", "Yangtze", "Mississippi"], 1⟩,
   ⟨"How many strings does a standard guitar have?", ["4", "5", "6", "7"], 2⟩,
   ⟨"What gas do plants absorb from the air?",
     ["Oxygen", "Nitrogen", "Carbon Dioxide", "Helium"], 2⟩,
   ⟨"In what year did World War II end?", ["1943", "1944", "1945", "1946"], 2⟩,
   ⟨"What is the capital of Australia?", ["Sydney", "Melbourne", "Canberra", "Brisbane"], 2⟩,
   ⟨"Which animal is the tallest?", ["Elephant", "Giraffe", "Horse", "Camel"], 1⟩,
   ⟨"What does \"HTTP\" stand for?",
     ["HyperText Transfer Protocol", "High Tech Transfer Program",
      "HyperText Transmission Port", "Home Tool Transfer Protocol"], 0⟩,
   ⟨"How many continents are there?", ["5", "6", "7", "8"], 2⟩,
   ⟨"Which planet has the most moons?", ["Jupiter", "Saturn", "Uranus", "Neptune"], 1⟩,
   ⟨"What is the hardest natural substance?", ["Gold", "Iron", "Diamond", "Platinum"], 2⟩]

/-- The property `rounds`. -/
def rounds : Nat := 7

/-- The method `_endGame`. -/
def _endGame (room : Room) : Outcome :=
  match room.gameState with
  | some (.triviaBlitz gs) =>
    if gs.phase = .finished then ⟨room, [], false⟩
    else
      let gs1 : TVState := { gs with phase := .finished, currentRoundTimer := none }
      let room1 : Room := room.clearTimeout gs.currentRoundTimer
      ⟨{ room1 with gameState := some (.triviaBlitz gs1), state := .results },
       [⟨.room room.code, "game:end", .gameEnd (finalScores room.players)⟩], false⟩
  | _ => ⟨room, [], true⟩

/-- The method `_nextQuestion`, run at time `now`. When `questions[round - 1]`
is undefined, reading `q.q` throws after `phase` and `questionStart` were set. -/
def _nextQuestion (now : Nat) (room : Room) : Outcome :=
  match room.gameState with
  | some (.triviaBlitz gs) =>
    let gs1 : TVState :=
      { gs with round := gs.round + 1, answers := JsMap.empty, answerShown := false
                currentRoundTimer := none }
    let room1 : Room :=
      { room.clearTimeout gs.currentRoundTimer with gameState := some (.triviaBlitz gs1) }
    if gs1.round > gs1.totalRounds then _endGame room1
    else
      let gs2 : TVState := { gs1 with phase := .question, questionStart := some now }
      match roundItem gs1.questions gs1.round with
      | none => ⟨{ room1 with gameState := some (.triviaBlitz gs2) }, [], true⟩
      | some q =>
        let gs3 : TVState := { gs2 with currentRoundTimer := some room1.nextTimerId }
        let room2 : Room := room1.setTimeout now 10000 (.roundTimeoutFor .triviaBlitz gs2.round)
        ⟨{ room2 with gameState := some (.triviaBlitz gs3) },
         [⟨.room room.code, "game:state",
            .tvQuestion gs2.round gs2.totalRounds q.q q.options 10⟩],
         false⟩
  | _ => ⟨room, [], true⟩

/-- The method `init`; `shuffled` is the array
`[...QUESTIONS].sort(() => Math.random() - 0.5)`, a rearrangement of `QUESTIONS`. -/
def init (now : Nat) (shuffled : List Question) (room : Room) : Outcome :=
  let gs : TVState :=
    { questions := shuffled.take rounds, round := 0, totalRounds := rounds
      phase := .waiting, answers := JsMap.empty, questionStart := none
      answerShown := false, currentRoundTimer := none }
  _nextQuestion now { room with gameState := some (.triviaBlitz gs) }

/-- The callback of the round timer of `_nextQuestion`, which captured
`thisRound` and the object `gs`; `captured` is that object, the live game
state unless stated. The guard reads `round` and `answerShown` of the captured
object; `_showAnswer(room, io)` then works on `room.gameState`. -/
def timeoutCallback (now thisRound : Nat) (room : Room)
    (captured : optParam (Captured TVState) .live) : Outcome :=
  match captured with
  | .live =>
    match room.gameState with
    | some (.triviaBlitz gs) =>
      if gs.round = thisRound ∧ gs.answerShown = false then TriviaBlitz._showAnswer now room
      else ⟨room, [], false⟩
    | _ => ⟨room, [], true⟩
  | .orphan gs =>
    if gs.round = thisRound ∧ gs.answerShown = false then TriviaBlitz._showAnswer now room
    else ⟨room, [], false⟩

/-- The method `onEvent`. A `choice` passes `typeof data.choice === 'number'`
only when it is a number; a null `questionStart` counts as 0. -/
def onEvent (now : Nat) (room : Room) (socketId : Handle) (event : String)
    (data : Option EventData) : Outcome :=
  if event ≠ "answer" then ⟨room, [], false⟩
  else
    match room.gameState with
    | some (.triviaBlitz gs) =>
      if gs.phase ≠ .question then ⟨room, [], false⟩
      else if gs.answers.has socketId then ⟨room, [], false⟩
      else
        match data with
        | none => ⟨room, [], true⟩
        | some d =>
          match d.choice with
          | .num choice =>
            let elapsed : Int := (now : Int) - (gs.questionStart.getD 0 : Nat)
            let gs1 : TVState := { gs with answers := gs.answers.set socketId ⟨choice, elapsed⟩ }
            let room1 : Room := { room with gameState := some (.triviaBlitz gs1) }
            if gs1.answers.size ≥ activePlayers room.players ∧ gs1.answerShown = false then
              TriviaBlitz._showAnswer now room1
            else ⟨room1, [], false⟩
          | _ => ⟨room, [], false⟩
    | _ => ⟨room, [], true⟩

end TriviaBlitz

namespace TapFrenzy

/-- The property `rounds`. -/
def rounds : Nat := 3

/-- The property `roundDuration`. -/
def roundDuration : Nat := 8000

/-- The method `_clearRoundTimers`: the intervals of the room are cleared. -/
def _clearRoundTimers (room : Room) : Room :=
  { room with timers := room.timers.filter fun t => !decide (t.cb = .tick .tapFrenzy) }

/-- The method `_endGame`. -/
def _endGame (room : Room) : Outcome :=
  match room.gameState with
  | some (.tapFrenzy gs) =>
    if gs.phase = .finished then ⟨room, [], false⟩
    else
      ⟨{ room with gameState := some (.tapFrenzy { gs with phase := .finished })
                   state := .results },
       [⟨.room room.code, "game:end", .gameEnd (finalScores room.players)⟩], false⟩
  | _ => ⟨room, [], true⟩

/-- The method `_nextRound`, run at time `now`. -/
def _nextRound (now : Nat) (room : Room) : Outcome :=
  match room.gameState with
  | some (.tapFrenzy gs) =>
    let gs1 : TFState := { gs with round := gs.round + 1, taps := JsMap.empty }
    let room1 : Room := { _clearRoundTimers room with gameState := some (.tapFrenzy gs1) }
    if gs1.round > gs1.totalRounds then _endGame room1
    else
      let gs2 : TFState :=
        { gs1 with taps := room.players.entries.foldl (fun m e => m.set e.1 0) gs1.taps
                   phase := .countdown }
      let room2 : Room := { room1 with gameState := some (.tapFrenzy gs2) }
      ⟨room2.setTimeout now 3000 .tfStart,
       [⟨.room room.code, "game:state", .tfCountdown gs2.round gs2.totalRounds⟩], false⟩
  | _ => ⟨room, [], true⟩

/-- The method `init`. -/
def init (now : Nat) (room : Room) : Outcome :=
  let gs : TFState :=
    { round := 0, totalRounds := rounds, phase := .waiting, taps := JsMap.empty
      roundDuration := roundDuration, startTime := none }
  _nextRound now { room with gameState := some (.tapFrenzy gs) }

/-- The method `onEvent`. It never reads `data`. -/
def onEvent (_now : Nat) (room : Room) (socketId : Handle) (event : String)
    (_data : Option EventData) : Outcome :=
  if event ≠ "tap" then ⟨room, [], false⟩
  else
    match room.gameState with
    | some (.tapFrenzy gs) =>
      if gs.phase ≠ .tapping then ⟨room, [], false⟩
      else
        let current : Nat := (gs.taps.get socketId).getD 0
        ⟨{ room with gameState := some (.tapFrenzy
            { gs with taps := gs.taps.set socketId (current + 1) }) }, [], false⟩
    | _ => ⟨room, [], true⟩

end TapFrenzy

/-- The method `String.prototype.toUpperCase`, on the ASCII letters. -/
def toUpperCase (s : String) : String := String.mk (s.data.map Char.toUpper)

/-- The characters that `String.prototype.trim` strips, within ASCII. -/
def isTrimmed (c : Char) : Bool :=
  c = ' ' || c = '\t' || c = '\n' || c = '\r' || c = Char.ofNat 11 || c = Char.ofNat 12

/-- The method `String.prototype.trim`, on ASCII whitespace. -/
def trim (s : String) : String :=
  String.mk ((s.data.dropWhile isTrimmed).reverse.dropWhile isTrimmed).reverse

namespace WordScramble

/-- The table `WORDS`. -/
def WORDS : List String :=
  ["PYTHON", "ROCKET", "PLANET", "GUITAR", "CASTLE", "BRIDGE", "FROZEN",
   "JUNGLE", "PIRATE", "DRAGON", "COOKIE", "SUNSET", "WIZARD", "COFFEE",
   "LAPTOP", "TEMPLE", "CANDLE", "FOREST", "SILVER", "ISLAND", "DANGER",
   "MONKEY", "ORANGE", "TROPHY", "PUZZLE", "MAGNET", "ROBOTS", "ANCHOR",
   "BUBBLE", "CIRCUS", "DONKEY", "FALCON", "GOBLIN", "HAMMER", "JACKET",
   "KITTEN", "LEMON", "MANGO", "PEPPER", "RABBIT", "SALMON", "TUNNEL",
   "VIOLET", "WALNUT", "ZOMBIE", "BREEZE", "GLITCH", "SKETCH", "THRONE"]

/-- The property `rounds`. -/
def rounds : Nat := 6

/-- The table `pointTable` of `onEvent`. -/
def pointTable : List Nat := [150, 100, 75, 50]

/-- The method `_endGame`. -/
def _endGame (room : Room) : Outcome :=
  match room.gameState with
  | some (.wordScramble gs) =>
    if gs.phase = .finished then ⟨room, [], false⟩
    else
      ⟨{ room with gameState := some (.wordScramble { gs with phase := .finished })
                   state := .results },
       [⟨.room room.code, "game:end", .gameEnd (finalScores room.players)⟩], false⟩
  | _ => ⟨room, [], true⟩

/-- The method `_nextRound`, run at time `now`; `scrambled` is what
`scramble(word)` returns. When `words[round - 1]` is undefined, `scramble`
throws after `phase` and `roundStart` were set. -/
def _nextRound (now : Nat) (scrambled : String) (room : Room) : Outcome :=
  match room.gameState with
  | some (.wordScramble gs) =>
    let gs1 : WSState := { gs with round := gs.round + 1, solvers := [], revealFired := false }
    let room1 : Room := { room with gameState := some (.wordScramble gs1) }
    if gs1.round > gs1.totalRounds then _endGame room1
    else
      let gs2 : WSState := { gs1 with phase := .scrambled, roundStart := some now }
      match roundItem gs1.words gs1.round with
      | none => ⟨{ room with gameState := some (.wordScramble gs2) }, [], true⟩
      | some word =>
        let gs3 : WSState := { gs2 with currentRoundTimer := some room.nextTimerId }
        let room2 : Room := room.setTimeout now 15000 (.roundTimeoutFor .wordScramble gs2.round)
        ⟨{ room2 with gameState := some (.wordScramble gs3) },
         [⟨.room room.code, "game:state",
            .wsScrambled gs2.round gs2.totalRounds scrambled word.length 15⟩],
         false⟩
  | _ => ⟨room, [], true⟩

/-- The method `init`; `shuffled` is the array
`[...WORDS].sort(() => Math.random() - 0.5)`, a rearrangement of `WORDS`. -/
def init (now : Nat) (shuffled : List String) (scrambled : String) (room : Room) : Outcome :=
  let gs : WSState :=
    { words := shuffled.take rounds, round := 0, totalRounds := rounds
      phase := .waiting, solvers := [], roundStart := none, revealFired := false
      currentRoundTimer := none }
  _nextRound now scrambled { room with gameState := some (.wordScramble gs) }

/-- The callback of the round timer of `_nextRound`, which captured
`thisRound` and the object `gs`; `captured` is that object, the live game
state unless stated. The guard reads `round` and `revealFired` of the captured
object; `_revealAnswer(room, io)` then works on `room.gameState`. -/
def timeoutCallback (now thisRound : Nat) (room : Room)
    (captured : optParam (Captured WSState) .live) : Outcome :=
  match captured with
  | .live =>
    match room.gameState with
    | some (.wordScramble gs) =>
      if gs.round = thisRound ∧ gs.revealFired = false then WordScramble._revealAnswer now room
      else ⟨room, [], false⟩
    | _ => ⟨room, [], true⟩
  | .orphan gs =>
    if gs.round = thisRound ∧ gs.revealFired = false then WordScramble._revealAnswer now room
    else ⟨room, [], false⟩

/-- The expression `(data.guess || '').toUpperCase().trim()`; `none` when it
throws: a number other than 0 is truthy and has no method `toUpperCase`. -/
def guessText : JsVal → Option String
  | .undef => some ""
  | .str s => some (trim (toUpperCase s))
  | .num n => if n = 0 then some "" else none

/-- The method `onEvent`; a null `roundStart` counts as 0. -/
def onEvent (now : Nat) (room : Room) (socketId : Handle) (event : String)
    (data : Option EventData) : Outcome :=
  if event ≠ "guess" then ⟨room, [], false⟩
  else
    match room.gameState with
    | some (.wordScramble gs) =>
      if gs.phase ≠ .scrambled then ⟨room, [], false⟩
      else
        match data with
        | none => ⟨room, [], true⟩
        | some d =>
          match guessText d.guess with
          | none => ⟨room, [], true⟩
          | some guess =>
            if some guess = roundItem gs.words gs.round then
              if gs.solvers.any fun x => decide (x.id = socketId) then ⟨room, [], false⟩
              else
                let elapsed : Int := (now : Int) - (gs.roundStart.getD 0 : Nat)
                match room.players.get socketId with
                | none => ⟨room, [], false⟩
                | some player =>
                  let rank : Nat := gs.solvers.length + 1
                  let points : Nat := (pointTable[rank - 1]?).getD 25
                  let gs1 : WSState :=
                    { gs with solvers :=
                        gs.solvers ++ [⟨socketId, player.name, elapsed, rank, points⟩] }
                  let room1 : Room :=
                    { room with
                      players := room.players.set socketId
                        { player with score := player.score + points }
                      gameState := some (.wordScramble gs1) }
                  let ack : Emit := ⟨.socket socketId, "game:state", .wsSolved rank points⟩
                  if gs1.solvers.length ≥ activePlayers room1.players ∧ gs1.revealFired = false then
                    let o := WordScramble._revealAnswer now room1
                    ⟨o.room, ack :: o.emits, o.threw⟩
                  else ⟨room1, [ack], false⟩
            else ⟨room, [⟨.socket socketId, "game:state", .wsWrong⟩], false⟩
    | _ => ⟨room, [], true⟩

end WordScramble

namespace EmojiMatch

/-- The property `rounds`. -/
def rounds : Nat := 3

/-- The table `sizes` of `_nextRound`. -/
def sizes : List Nat := [12, 16, 20]

/-- The method `_endGame`. -/
def _endGame (room : Room) : Outcome :=
  match room.gameState with
  | some (.emojiMatch gs) =>
    if gs.phase = .finished then ⟨room, [], false⟩
    else
      ⟨{ room with gameState := some (.emojiMatch { gs with phase := .finished })
                   state := .results },
       [⟨.room room.code, "game:end", .gameEnd (finalScores room.players)⟩], false⟩
  | _ => ⟨room, [], true⟩

/-- The method `_nextRound`; `board` is what `_generateBoard(boardSize)` returns
and `turnOrder` is the array
`Array.from(room.players.keys()).sort(() => Math.random() - 0.5)`. -/
def _nextRound (board : List String) (turnOrder : List Handle) (room : Room) : Outcome :=
  match room.gameState with
  | some (.emojiMatch gs) =>
    let gs1 : EMState := { gs with round := gs.round + 1, pairsFound := JsMap.empty }
    let room1 : Room := { room with gameState := some (.emojiMatch gs1) }
    if gs1.round > gs1.totalRounds then _endGame room1
    else
      let boardSize : Nat :=
        match roundItem sizes gs1.round with
        | some n => n
        | none => 16
      let gs2 : EMState :=
        { gs1 with
          boardSize := boardSize, board := board
          revealed := List.replicate boardSize false
          firstPick := .null, secondPick := .null, locked := false
          turnOrder := turnOrder, turnIndex := 0
          pairsFound := room.players.entries.foldl (fun m e => m.set e.1 0) gs1.pairsFound
          phase := .playing, currentTurn := turnOrder.head? }
      let cols : Nat := if boardSize ≤ 12 then 4 else if boardSize ≤ 16 then 4 else 5
      ⟨{ room with gameState := some (.emojiMatch gs2) },
       [⟨.room room.code, "game:state",
          .emPlaying gs2.round gs2.totalRounds boardSize cols gs2.currentTurn
            (gs2.currentTurn.bind fun id => (room.players.get id).map (·.name))⟩],
       false⟩
  | _ => ⟨room, [], true⟩

/-- The method `init`. -/
def init (board : List String) (turnOrder : List Handle) (room : Room) : Outcome :=
  let gs : EMState :=
    { round := 0, totalRounds := rounds, phase := .waiting, board := [], revealed := []
      currentTurn := none, firstPick := .null, secondPick := .null, locked := false
      pairsFound := JsMap.empty, turnOrder := [], turnIndex := 0, boardSize := 16 }
  _nextRound board turnOrder { room with gameState := some (.emojiMatch gs) }

/-- The element `gs.board[pick]`; `undefined` for a pick that is no card index. -/
def cardAt (board : List String) : Pick → Option String
  | .card i => board[i]?
  | _ => none

/-- The assignment `gs.revealed[pick] = true`, as far as it changes an element
of the array. -/
def reveal (revealed : List Bool) : Pick → List Bool
  | .card i => revealed.set i true
  | _ => revealed

/-- The validation `idx < 0 || idx >= gs.boardSize || gs.revealed[idx]` of
`onEvent`: the pick that passes it, or `none` when the event is dropped. For an
`index` of `undefined` all three tests are false. -/
def validIndex (gs : EMState) : Option Int → Option Pick
  | none => some .undef
  | some n =>
    if n < 0 ∨ n ≥ (gs.boardSize : Int) ∨ gs.revealed[n.toNat]? = some true then none
    else some (.card n.toNat)

/-- The method `onEvent`, run at time `now`. On a state whose `board` has
`boardSize` cards a pick of `undefined` never matches a card. -/
def onEvent (now : Nat) (room : Room) (socketId : Handle) (event : String)
    (data : Option EventData) : Outcome :=
  if event ≠ "flip" then ⟨room, [], false⟩
  else
    match room.gameState with
    | some (.emojiMatch gs) =>
      if gs.phase ≠ .playing then ⟨room, [], false⟩
      else if gs.currentTurn ≠ some socketId then ⟨room, [], false⟩
      else if gs.locked then ⟨room, [], false⟩
      else
        match data with
        | none => ⟨room, [], true⟩
        | some d =>
          match validIndex gs d.index with
          | none => ⟨room, [], false⟩
          | some idx =>
            if gs.firstPick = idx then ⟨room, [], false⟩
            else if gs.firstPick = .null then
              ⟨{ room with gameState := some (.emojiMatch { gs with firstPick := idx }) },
               [⟨.room room.code, "game:state", .emFlip idx (cardAt gs.board idx)⟩], false⟩
            else if gs.secondPick = .null then
              let first : Pick := gs.firstPick
              let gs1 : EMState := { gs with secondPick := idx, locked := true }
              let flip : Emit := ⟨.room room.code, "game:state", .emFlip idx (cardAt gs.board idx)⟩
              if cardAt gs.board first = cardAt gs.board idx then
                let count : Nat := (gs1.pairsFound.get socketId).getD 0 + 1
                let gs2 : EMState :=
                  { gs1 with revealed := reveal (reveal gs1.revealed first) idx
                             pairsFound := gs1.pairsFound.set socketId count }
                let player : Option Player := room.players.get socketId
                let players1 : JsMap Handle Player :=
                  match player with
                  | some pl => room.players.set socketId { pl with score := pl.score + 50 }
                  | none => room.players
                let room1 : Room :=
                  { room with players := players1, gameState := some (.emojiMatch gs2) }
                ⟨room1.setTimeout now 800 (.emMatch first idx socketId (player.map (·.name))),
                 [flip], false⟩
              else
                let room1 : Room := { room with gameState := some (.emojiMatch gs1) }
                ⟨room1.setTimeout now 1200 (.emUnflip first idx), [flip], false⟩
            else ⟨room, [], false⟩
    | _ => ⟨room, [], true⟩

end EmojiMatch

/-- The value of a run of decimal digits. -/
def digitsValue (digits : List Char) : Nat :=
  digits.foldl (fun acc c => acc * 10 + (c.toNat - '0'.toNat)) 0

/-- The call `parseInt(v, 10)`; `none` stands for `NaN`. A number is taken as
its decimal expansion; in a string, leading white space and a sign are
skipped and the leading run of digits is read. -/
def parseInt : JsVal → Option Int
  | .undef => none
  | .num n => some n
  | .str s =>
    let body := s.data.dropWhile isTrimmed
    let negative : Bool := body.head? = some '-'
    let unsigned := if body.head? = some '-' ∨ body.head? = some '+' then body.tail else body
    let digits := unsigned.takeWhile Char.isDigit
    if digits = [] then none
    else some (if negative then -(digitsValue digits : Int) else (digitsValue digits : Int))

namespace MathBlitz

/-- The constant `ROUND_TIME`. -/
def ROUND_TIME : Nat := 12000

/-- The constant `ROUNDS`. -/
def ROUNDS : Nat := 8

/-- The method `_endGame`. -/
def _endGame (room : Room) : Outcome :=
  match room.gameState with
  | some (.mathBlitz gs) =>
    if gs.phase = .finished then ⟨room, [], false⟩
    else
      ⟨{ room with gameState := some (.mathBlitz { gs with phase := .finished })
                   state := .results },
       [⟨.room room.code, "game:end", .gameEnd (finalScores room.players)⟩], false⟩
  | _ => ⟨room, [], true⟩

/-- The method `_nextRound`, run at time `now`. When `problems[round - 1]` is
undefined, reading `problem.display` throws after `roundStart` was set. The
countdown interval is the timer with callback `tick`. -/
def _nextRound (now : Nat) (room : Room) : Outcome :=
  match room.gameState with
  | some (.mathBlitz gs) =>
    let gs1 : MBState :=
      { gs with round := gs.round + 1, phase := .solving, answers := JsMap.empty, solvers := [] }
    let room1 : Room := { room with gameState := some (.mathBlitz gs1) }
    if gs1.round > gs1.totalRounds then _endGame room1
    else
      let gs2 : MBState := { gs1 with roundStart := some now }
      let room2 : Room := { room with gameState := some (.mathBlitz gs2) }
      match roundItem gs1.problems gs1.round with
      | none => ⟨room2, [], true⟩
      | some problem =>
        ⟨(room2.setTimeout now ROUND_TIME (.roundTimeout .mathBlitz)).setTimeout now 1000
            (.tick .mathBlitz),
         [⟨.room room.code, "game:state",
            .mbSolving gs2.round gs2.totalRounds problem.display problem.level ROUND_TIME⟩],
         false⟩
  | _ => ⟨room, [], true⟩

/-- The method `init`; `generateProblem i` is what the call `generateProblem(i)`
of the source returns. -/
def init (now : Nat) (generateProblem : Nat → Problem) (room : Room) : Outcome :=
  let gs : MBState :=
    { round := 0, totalRounds := ROUNDS, phase := .waiting
      problems := (List.range ROUNDS).map fun i => generateProblem (i + 1)
      answers := JsMap.empty, solvers := [], roundTimer := none, roundStart := none }
  _nextRound now { room with gameState := some (.mathBlitz gs) }

/-- The speed bonus `Math.max(0, Math.round(150 * (1 - elapsed / ROUND_TIME)))`,
in exact arithmetic (the source computes it in floating point): `Math.round`
rounds halves up, and `150 * (1 - elapsed / 12000) = (12000 - elapsed) / 80`. -/
def speedBonus (elapsed : Int) : Int :=
  max 0 (Int.fdiv (2 * (12000 - elapsed) + 80) 160)

/-- The method `onEvent`; a null `roundStart` counts as 0. -/
def onEvent (now : Nat) (room : Room) (socketId : Handle) (event : String)
    (data : Option EventData) : Outcome :=
  if event ≠ "answer" then ⟨room, [], false⟩
  else
    match room.gameState with
    | some (.mathBlitz gs) =>
      if gs.phase ≠ .solving then ⟨room, [], false⟩
      else if gs.answers.has socketId then ⟨room, [], false⟩
      else
        match data with
        | none => ⟨room, [], true⟩
        | some d =>
          match parseInt d.answer with
          | none => ⟨room, [], false⟩
          | some answer =>
            let elapsed : Int := (now : Int) - (gs.roundStart.getD 0 : Nat)
            match roundItem gs.problems gs.round with
            | none => ⟨room, [], true⟩
            | some problem =>
              let correct : Bool := decide (answer = problem.answer)
              let gs1 : MBState :=
                { gs with answers := gs.answers.set socketId ⟨answer, elapsed, correct⟩ }
              match room.players.get socketId with
              | none => ⟨{ room with gameState := some (.mathBlitz gs1) }, [], false⟩
              | some player =>
                if correct then
                  let gs2 : MBState :=
                    { gs1 with solvers := gs1.solvers ++ [⟨socketId, player.name, elapsed⟩] }
                  let firstBonus : Int := if gs2.solvers.length = 1 then 50 else 0
                  let points : Int := 100 + speedBonus elapsed + firstBonus
                  let room1 : Room :=
                    { room with
                      players := room.players.set socketId
                        { player with score := player.score + points }
                      gameState := some (.mathBlitz gs2) }
                  let ack : Emit := ⟨.socket socketId, "game:state", .mbAnswered points elapsed⟩
                  let allHumansAnswered : Bool :=
                    (room1.players.entries.filter fun e => !e.2.isBot).all
                      fun e => gs2.answers.has e.1
                  let allBots : Bool :=
                    (room1.players.entries.filter fun e => e.2.isBot).all
                      fun e => gs2.answers.has e.1
                  if allHumansAnswered && allBots then
                    ⟨room1.setTimeout now 1500 (.roundResult .mathBlitz), [ack], false⟩
                  else ⟨room1, [ack], false⟩
                else
                  let gs2 : MBState := { gs1 with answers := gs1.answers.delete socketId }
                  ⟨{ room with gameState := some (.mathBlitz gs2) },
                   [⟨.socket socketId, "game:state", .mbWrong answer⟩], false⟩
    | _ => ⟨room, [], true⟩

end MathBlitz

namespace SimonSays

/-- The table `COLORS`. -/
def COLORS : List String := ["red", "blue", "green", "yellow"]

/-- The constant `MAX_ROUNDS`. -/
def MAX_ROUNDS : Nat := 12

/-- The constant `FLASH_SPEED_MS`. -/
def FLASH_SPEED_MS : Nat := 600

/-- The constant `INPUT_TIMEOUT_MS`. -/
def INPUT_TIMEOUT_MS : Nat := 10000

/-- The bonus loop of `_endGame`: every survivor that is a player gets 200 points. -/
def survivorBonus (survivors : List Handle) (players : JsMap Handle Player) :
    JsMap Handle Player :=
  survivors.foldl
    (fun m id =>
      match m.get id with
      | some player => m.set id { player with score := player.score + 200 }
      | none => m)
    players

/-- The method `_endGame`. -/
def _endGame (room : Room) : Outcome :=
  match room.gameState with
  | some (.simonSays gs) =>
    if gs.phase = .finished then ⟨room, [], false⟩
    else
      let players1 := survivorBonus gs.survivors.elems room.players
      ⟨{ room with players := players1
                   gameState := some (.simonSays { gs with phase := .finished })
                   state := .results },
       [⟨.room room.code, "game:end", .gameEnd (finalScores players1)⟩], false⟩
  | _ => ⟨room, [], true⟩

/-- The `forEach` of `_nextRound` that creates one flash timer per colour,
from index `i` on. -/
def scheduleFlashes (now total : Nat) : Nat → List String → Room → Room
  | _, [], room => room
  | i, color :: rest, room =>
    scheduleFlashes now total (i + 1) rest
      (room.setTimeout now ((i + 1) * FLASH_SPEED_MS) (.ssFlash color i total))

/-- The method `_nextRound`, run at time `now`. -/
def _nextRound (now : Nat) (room : Room) : Outcome :=
  match room.gameState with
  | some (.simonSays gs) =>
    let gs1 : SSState := { gs with round := gs.round + 1, phase := .showing, inputs := JsMap.empty }
    let room1 : Room := { room with gameState := some (.simonSays gs1) }
    if gs1.round > gs1.totalRounds ∨ gs1.survivors.size ≤ 1 then _endGame room1
    else
      let sequence : List String := gs1.fullSequence.take gs1.round
      let room2 : Room := scheduleFlashes now sequence.length 0 sequence room1
      let inputStart : Nat := (sequence.length + 1) * FLASH_SPEED_MS + 500
      ⟨room2.setTimeout now inputStart (.ssInputStart sequence.length),
       [⟨.room room.code, "game:state",
          .ssShowing gs1.round gs1.totalRounds sequence.length gs1.survivors.size
            room.players.size⟩],
       false⟩
  | _ => ⟨room, [], true⟩

/-- The method `init`; `draw i` stands for the value of
`Math.floor(Math.random() * COLORS.length)` in the `i`-th pass of the loop. -/
def init (now : Nat) (draw : Nat → Nat) (room : Room) : Outcome :=
  let gs : SSState :=
    { round := 0, totalRounds := MAX_ROUNDS, phase := .waiting
      fullSequence := (List.range MAX_ROUNDS).map fun i =>
        COLORS.getD (draw i % COLORS.length) ""
      inputs := JsMap.empty, eliminated := JsSet.empty
      survivors := room.players.entries.foldl (fun st e => st.add e.1) JsSet.empty
      roundResults := [] }
  _nextRound now { room with gameState := some (.simonSays gs) }

/-- The callback of the timer that opens the input phase. -/
def inputStartCallback (now sequenceLength : Nat) (room : Room) : Outcome :=
  match room.gameState with
  | some (.simonSays gs) =>
    let room1 : Room := { room with gameState := some (.simonSays { gs with phase := .input }) }
    ⟨room1.setTimeout now INPUT_TIMEOUT_MS (.roundTimeout .simonSays),
     [⟨.room room.code, "game:state", .ssInput gs.round sequenceLength INPUT_TIMEOUT_MS⟩],
     false⟩
  | _ => ⟨room, [], true⟩

/-- The method `_checkRoundComplete`, run at time `now`. -/
def _checkRoundComplete (now : Nat) (room : Room) : Room :=
  match room.gameState with
  | some (.simonSays gs) =>
    let allDone : Bool := gs.survivors.elems.all fun id =>
      !decide (((gs.inputs.get id).getD []).length < gs.round)
    if allDone ∨ gs.survivors.size ≤ 1 then room.setTimeout now 1000 (.roundResult .simonSays)
    else room
  | _ => room

/-- The method `onEvent`, run at time `now`. -/
def onEvent (now : Nat) (room : Room) (socketId : Handle) (event : String)
    (data : Option EventData) : Outcome :=
  if event ≠ "input" then ⟨room, [], false⟩
  else
    match room.gameState with
    | some (.simonSays gs) =>
      if gs.phase ≠ .input then ⟨room, [], false⟩
      else if gs.eliminated.has socketId then ⟨room, [], false⟩
      else
        match data with
        | none => ⟨room, [], true⟩
        | some d =>
          match d.color with
          | .str color =>
            if !COLORS.contains color then ⟨room, [], false⟩
            else
              let inputs0 : JsMap Handle (List String) :=
                if gs.inputs.has socketId then gs.inputs else gs.inputs.set socketId []
              let playerInputs : List String := (inputs0.get socketId).getD []
              let expectedLength : Nat := gs.round
              if playerInputs.length ≥ expectedLength then
                ⟨{ room with gameState := some (.simonSays { gs with inputs := inputs0 }) },
                 [], false⟩
              else
                let entered : List String := playerInputs ++ [color]
                let inputs1 := inputs0.set socketId entered
                let expected : Option String := gs.fullSequence[entered.length - 1]?
                if some color ≠ expected then
                  let gs1 : SSState :=
                    { gs with inputs := inputs1
                              eliminated := gs.eliminated.add socketId
                              survivors := gs.survivors.delete socketId }
                  let room1 : Room := { room with gameState := some (.simonSays gs1) }
                  ⟨_checkRoundComplete now room1,
                   [⟨.socket socketId, "game:state",
                      .ssEliminated entered.length expected color⟩],
                   false⟩
                else
                  let gs1 : SSState := { gs with inputs := inputs1 }
                  let progress : Emit :=
                    ⟨.socket socketId, "game:state",
                     .ssInputProgress entered.length expectedLength⟩
                  if entered.length = expectedLength then
                    let players1 : JsMap Handle Player :=
                      match room.players.get socketId with
                      | some player =>
                        room.players.set socketId
                          { player with score := player.score + (gs.round : Int) * 20 }
                      | none => room.players
                    let room1 : Room :=
                      { room with players := players1, gameState := some (.simonSays gs1) }
                    ⟨_checkRoundComplete now room1,
                     [progress,
                      ⟨.socket socketId, "game:state", .ssRoundComplete "Perfect! ✅"⟩],
                     false⟩
                  else ⟨{ room with gameState := some (.simonSays gs1) }, [progress], false⟩
          | _ => ⟨room, [], false⟩
    | _ => ⟨room, [], true⟩

end SimonSays

/-! ## The module table and the handlers of `room:startGame` and `game:event` -/

/-- The property `rounds` of each module. -/
def rounds : GameId → Nat
  | .reactionRace => ReactionRace.rounds
  | .triviaBlitz => TriviaBlitz.rounds
  | .tapFrenzy => TapFrenzy.rounds
  | .wordScramble => WordScramble.rounds
  | .emojiMatch => EmojiMatch.rounds
  | .mathBlitz => MathBlitz.ROUNDS
  | .simonSays => SimonSays.MAX_ROUNDS
  | .colorClash => ColorClash.TOTAL_ROUNDS

/-- The phase that `_nextRound` (`_nextQuestion` in trivia-blitz) of each
module assigns when it opens a round. -/
def startPhase : GameId → Phase
  | .reactionRace => .ready
  | .triviaBlitz => .question
  | .tapFrenzy => .countdown
  | .wordScramble => .scrambled
  | .emojiMatch => .playing
  | .mathBlitz => .solving
  | .simonSays => .showing
  | .colorClash => .showing

/-- The phases that pass the phase guard of `onEvent` of each module. -/
def inputPhases : GameId → List Phase
  | .reactionRace => [.ready, .go]
  | .triviaBlitz => [.question]
  | .tapFrenzy => [.tapping]
  | .wordScramble => [.scrambled]
  | .emojiMatch => [.playing]
  | .mathBlitz => [.solving]
  | .simonSays => [.input]
  | .colorClash => [.showing]

/-- What one call of `init` reads from the clock and from `Math.random`: the
time, the delay before reaction-race says go, the shuffled question and word
lists, the scrambled first word, the emoji board and turn order, the math
problems, the simon-says draws and the first color-clash question. -/
structure InitInput where
  now : Nat
  rrDelay : Nat
  tvShuffled : List Question
  wsShuffled : List String
  wsScrambled : String
  emBoard : List String
  emTurnOrder : List Handle
  mbProblem : Nat → Problem
  ssDraw : Nat → Nat
  ccGenerated : ColorClash.Generated

/-- The call `game.init(room, io)` for the module `g`. -/
def init (g : GameId) (inp : InitInput) (room : Room) : Outcome :=
  match g with
  | .reactionRace => ReactionRace.init inp.now inp.rrDelay room
  | .triviaBlitz => TriviaBlitz.init inp.now inp.tvShuffled room
  | .tapFrenzy => TapFrenzy.init inp.now room
  | .wordScramble => WordScramble.init inp.now inp.wsShuffled inp.wsScrambled room
  | .emojiMatch => EmojiMatch.init inp.emBoard inp.emTurnOrder room
  | .mathBlitz => MathBlitz.init inp.now inp.mbProblem room
  | .simonSays => SimonSays.init inp.now inp.ssDraw room
  | .colorClash => ColorClash.init inp.now inp.ccGenerated room

/-- The call `game.onEvent(room, socket, event, data, io)` for the module `g`,
at time `now`; `data` is `none` when the message carries no payload. -/
def onEvent (g : GameId) (now : Nat) (room : Room) (socketId : Handle) (event : String)
    (data : Option EventData) : Outcome :=
  match g with
  | .reactionRace => ReactionRace.onEvent now room socketId event data
  | .triviaBlitz => TriviaBlitz.onEvent now room socketId event data
  | .tapFrenzy => TapFrenzy.onEvent now room socketId event data
  | .wordScramble => WordScramble.onEvent now room socketId event data
  | .emojiMatch => EmojiMatch.onEvent now room socketId event data
  | .mathBlitz => MathBlitz.onEvent now room socketId event data
  | .simonSays => SimonSays.onEvent now room socketId event data
  | .colorClash => ColorClash.onEvent now room socketId event data

/-- The call `game._endGame(room, io)` for the module `g`. -/
def _endGame (g : GameId) (room : Room) : Outcome :=
  match g with
  | .reactionRace => ReactionRace._endGame room
  | .triviaBlitz => TriviaBlitz._endGame room
  | .tapFrenzy => TapFrenzy._endGame room
  | .wordScramble => WordScramble._endGame room
  | .emojiMatch => EmojiMatch._endGame room
  | .mathBlitz => MathBlitz._endGame room
  | .simonSays => SimonSays._endGame room
  | .colorClash => ColorClash._endGame room

/-- The function `resetScores` of `rooms.js`. -/
def resetScores (players : JsMap Handle Player) : JsMap Handle Player :=
  ⟨players.entries.map fun e => (e.1, { e.2 with score := 0 })⟩

/-- The handler of `room:startGame` for the socket `socketId`; `gameId` is
`none` when `games.get` does not know the id. The handler leaves
`room.gameState` as it is: `init` runs from a timer 500 ms later. -/
def startGameHandler (s : Registry) (socketId : Handle) (gameId : Option GameId) :
    Registry × Ack :=
  match findRoomOf socketId s.rooms with
  | none => (s, .error "Not in a room")
  | some (code, room) =>
    if room.host ≠ socketId then (s, .error "Only host can start")
    else if room.players.size < 2 then (s, .error "Need at least 2 players")
    else
      match gameId with
      | none => (s, .error "Unknown game")
      | some g =>
        ({ s with
            rooms := s.rooms.set code
              { room with players := resetScores room.players, state := .playing
                          currentGame := some g } }, .ok)

/-- The body of the `game:event` handler once the room of the socket is
found. -/
def dispatch (now : Nat) (room : Room) (socketId : Handle) (event : String)
    (data : Option EventData) : Outcome :=
  if room.state ≠ .playing then ⟨room, [], false⟩
  else
    match room.currentGame with
    | none => ⟨room, [], false⟩
    | some g => onEvent g now room socketId event data

/-- The handler of `game:event` for the socket `socketId`: the registry after
the call, the messages sent, and whether the call threw. -/
def gameEventHandler (s : Registry) (now : Nat) (socketId : Handle) (event : String)
    (data : Option EventData) : Registry × List Emit × Bool :=
  match findRoomOf socketId s.rooms with
  | none => (s, [], false)
  | some (code, room) =>
    ({ s with rooms := s.rooms.set code (dispatch now room socketId event data).room },
     (dispatch now room socketId event data).emits,
     (dispatch now room socketId event data).threw)

/-- The event name that passes the first guard of `onEvent` of each module. -/
def eventName : GameId → String
  | .reactionRace => "tap"
  | .triviaBlitz => "answer"
  | .tapFrenzy => "tap"
  | .wordScramble => "guess"
  | .emojiMatch => "flip"
  | .mathBlitz => "answer"
  | .simonSays => "input"
  | .colorClash => "answer"

/-- Whether the game state holds a response of the handle `h` for the round,
in the record that `onEvent` of the module consults: `tapped` in
reaction-race, `answers` in trivia-blitz, math-blitz and color-clash,
`solvers` in word-scramble. -/
def GameState.hasResponse (gs : GameState) (h : Handle) : Bool :=
  match gs with
  | .reactionRace gs => gs.tapped.has h
  | .triviaBlitz gs => gs.answers.has h
  | .wordScramble gs => gs.solvers.any fun s => decide (s.id = h)
  | .mathBlitz gs => gs.answers.has h
  | .colorClash gs => gs.answers.has h
  | _ => false

/-- How phase and records of a round hang together while a game runs: in
reaction-race nobody is in `tapped` while the phase is 'ready' (`_nextRound`
empties the set when it sets that phase, and taps are recorded in phase 'go'
only). The other modules need no such condition. -/
def GameState.roundWF : GameState → Prop
  | .reactionRace gs => gs.phase = .ready → gs.tapped.elems = []
  | _ => True

/-- In math-blitz every solver of the round has an entry in `answers`:
`onEvent` pushes the solver in the call that writes the entry. -/
def MathBlitz.solversAnswered (gs : MBState) : Prop :=
  ∀ s ∈ gs.solvers, gs.answers.has s.id = true

instance (gs : MBState) : Decidable (MathBlitz.solversAnswered gs) := by
  unfold MathBlitz.solversAnswered; infer_instance

instance (gs : GameState) : Decidable gs.roundWF := by
  cases gs <;> unfold GameState.roundWF <;> infer_instance

/-- The `totalRounds` property of a game state. -/
def GameState.totalRounds : GameState → Nat
  | .reactionRace gs => gs.totalRounds
  | .triviaBlitz gs => gs.totalRounds
  | .tapFrenzy gs => gs.totalRounds
  | .wordScramble gs => gs.totalRounds
  | .emojiMatch gs => gs.totalRounds
  | .mathBlitz gs => gs.totalRounds
  | .simonSays gs => gs.totalRounds
  | .colorClash gs => gs.totalRounds

/-- The game state records no response of any player for the round: the sets,
maps and lists of responses are empty; the counters that tap-frenzy (`taps`)
and emoji-match (`pairsFound`) keep per player are all 0, and in emoji-match
no card is picked or revealed. -/
def GameState.noResponses : GameState → Prop
  | .reactionRace gs =>
    gs.tapped.elems = [] ∧ gs.earlyTappers.elems = [] ∧ gs.roundResults = []
  | .triviaBlitz gs => gs.answers.entries = []
  | .tapFrenzy gs => ∀ e ∈ gs.taps.entries, e.2 = 0
  | .wordScramble gs => gs.solvers = []
  | .emojiMatch gs =>
    (∀ e ∈ gs.pairsFound.entries, e.2 = 0) ∧ gs.firstPick = .null ∧ gs.secondPick = .null
      ∧ ∀ b ∈ gs.revealed, b = false
  | .mathBlitz gs => gs.answers.entries = [] ∧ gs.solvers = []
  | .simonSays gs => gs.inputs.entries = []
  | .colorClash gs => gs.answers.entries = []

instance (gs : GameState) : Decidable gs.noResponses := by
  cases gs <;> unfold GameState.noResponses <;> infer_instance

/-- Every round-timeout timer that a call created carries the round number
that is live after the call: a timer of `after` that `before` did not hold and
whose callback is `roundTimeoutFor g r` has `r = gs.round`. -/
def CapturesLiveRound (before after : Room) : Prop :=
  ∀ t ∈ after.timers, t ∉ before.timers → ∀ g r, t.cb = .roundTimeoutFor g r →
    after.gameState.map GameState.round = some r

/-! ## What a rejoin has to do to a game state

The relations below restate the remap of a rejoin from the old handle `h` to
the new handle `n`, structure by structure; they are compared with
`remapGameState`, which is the code. -/

/-- A set after the remap: `n` is a member iff `h` was, `h` is gone, and the
membership of every other handle is as before. -/
def SetRemapped (h n : Handle) (s s1 : JsSet Handle) : Prop :=
  (n ∈ s1.elems ↔ h ∈ s.elems) ∧ h ∉ s1.elems
    ∧ ∀ k, k ≠ h → k ≠ n → (k ∈ s1.elems ↔ k ∈ s.elems)

/-- A map after the remap: `n` maps to what `h` mapped to, `h` has no entry,
and every other handle maps to what it mapped to before. -/
def MapRemapped {β : Type} (h n : Handle) (m m1 : JsMap Handle β) : Prop :=
  m1.get n = m.get h ∧ m1.get h = none ∧ ∀ k, k ≠ h → k ≠ n → m1.get k = m.get k

/-- The turn pointer after the remap: `n` if it was `h`, unchanged otherwise. -/
def TurnRemapped (h n : Handle) (t t1 : Option Handle) : Prop :=
  (t = some h → t1 = some n) ∧ (t ≠ some h → t1 = t) ∧ t1 ≠ some h

/-- The turn order after the remap: `h` is replaced by `n` at the same index,
the other elements stay, and `h` is gone. -/
def OrderRemapped (h n : Handle) (l l1 : List Handle) : Prop :=
  l1 = l.map (fun x => if x = h then n else x) ∧ h ∉ l1

/-- A game state after the remap: each of the seven structures `currentTurn`,
`turnOrder`, `tapped`, `earlyTappers`, `answers`, `taps`, `pairsFound` that
the state has is remapped, and every other property is as before. -/
def GameState.Remapped (h n : Handle) : GameState → GameState → Prop
  | .reactionRace a, .reactionRace b =>
    SetRemapped h n a.tapped b.tapped ∧ SetRemapped h n a.earlyTappers b.earlyTappers
      ∧ b = { a with tapped := b.tapped, earlyTappers := b.earlyTappers }
  | .triviaBlitz a, .triviaBlitz b =>
    MapRemapped h n a.answers b.answers ∧ b = { a with answers := b.answers }
  | .tapFrenzy a, .tapFrenzy b =>
    MapRemapped h n a.taps b.taps ∧ b = { a with taps := b.taps }
  | .wordScramble a, .wordScramble b => b = a
  | .emojiMatch a, .emojiMatch b =>
    TurnRemapped h n a.currentTurn b.currentTurn ∧ OrderRemapped h n a.turnOrder b.turnOrder
      ∧ MapRemapped h n a.pairsFound b.pairsFound
      ∧ b = { a with currentTurn := b.currentTurn, turnOrder := b.turnOrder
                     pairsFound := b.pairsFound }
  | .mathBlitz a, .mathBlitz b =>
    MapRemapped h n a.answers b.answers ∧ b = { a with answers := b.answers }
  | .simonSays a, .simonSays b => b = a
  | .colorClash a, .colorClash b =>
    MapRemapped h n a.answers b.answers ∧ b = { a with answers := b.answers }
  | _, _ => False

/-- The turn order of a game state: the handles of emoji-match `turnOrder`,
empty for the other modules. -/
def GameState.turnOrder : GameState → List Handle
  | .emojiMatch gs => gs.turnOrder
  | _ => []

/-! ## `server.js`: the handler of `room:create` -/

/-- The property `length` of a string: its number of UTF-16 code units. -/
def jsLength (s : String) : Nat :=
  (s.data.map fun c => if c.toNat < 65536 then 1 else 2).sum

/-- The reply of the `room:create` handler: `{ error }`, or `{ code, players }`
given by the room it describes. -/
inductive CreateReply
  | error (msg : String)
  | created (room : Room)
deriving DecidableEq, Repr

/-- The handler of `room:create` for the socket `socketId`. The `name` of the
payload is `none` when it is absent and a string otherwise (other values are
not covered); the test `!name` holds for an absent name and for the empty
string. The result is `none` when `generateCode` does not return. -/
def createHandler (s : Registry) (socketId : Handle) (name : Option String) (now : Nat)
    (draws : List Nat) : Option (Registry × CreateReply) :=
  match name with
  | none => some (s, .error "Invalid name")
  | some name =>
    if name = "" ∨ jsLength name > 20 then some (s, .error "Invalid name")
    else
      match createRoom s socketId (trim name) now draws with
      | none => none
      | some (s1, room) => some (s1, .created room)

/-! ## `bots.js`: the drivers with a delayed decision -/

/-- The expression `gs.answers.has(h)`; `none` when the state has no property
`answers`, so that the call throws a `TypeError`. -/
def GameState.answersHas (gs : GameState) (h : Handle) : Option Bool :=
  match gs with
  | .triviaBlitz gs => some (gs.answers.has h)
  | .mathBlitz gs => some (gs.answers.has h)
  | .colorClash gs => some (gs.answers.has h)
  | _ => none

/-- The expression `gs.tapped.has(h)`; `none` when the state has no property
`tapped`. -/
def GameState.tappedHas (gs : GameState) (h : Handle) : Option Bool :=
  match gs with
  | .reactionRace gs => some (gs.tapped.has h)
  | _ => none

/-- Whether `gs.solvers.find(s => s.id === h)` finds an element; `none` when
the state has no property `solvers`. -/
def GameState.solversFind (gs : GameState) (h : Handle) : Option Bool :=
  match gs with
  | .wordScramble gs => some (gs.solvers.any fun s => decide (s.id = h))
  | .mathBlitz gs => some (gs.solvers.any fun s => decide (s.id = h))
  | _ => none

namespace Bots

/-- The payload `{}`. -/
def noData : EventData := ⟨.undef, .undef, .undef, none, .undef⟩

/-- The call `room.currentGame.onEvent(room, sock, event, data, io)` that a bot
makes with its fake socket: `sock.id` is the bot's id, and `sock.emit` does
nothing, so the messages to that socket are dropped. A null `currentGame`
throws. -/
def send (now : Nat) (room : Room) (botId : Handle) (event : String) (data : EventData) :
    Outcome :=
  match room.currentGame with
  | none => ⟨room, [], true⟩
  | some g =>
    ⟨(onEvent g now room botId event (some data)).room,
     (onEvent g now room botId event (some data)).emits.filter fun e =>
       !decide (e.target = .socket botId),
     (onEvent g now room botId event (some data)).threw⟩

/-- The test of every delayed callback,
`room.gameState?.phase === phase && !recorded(room.gameState)`, followed by
`act` when it holds. The test reads the phase and the bot's record and
nothing else: no callback holds or compares a round number. -/
def guarded (room : Room) (phase : Phase) (recorded : GameState → Option Bool)
    (act : Outcome) : Outcome :=
  match room.gameState with
  | none => ⟨room, [], false⟩
  | some gs =>
    if gs.phase ≠ phase then ⟨room, [], false⟩
    else
      match recorded gs with
      | none => ⟨room, [], true⟩
      | some true => ⟨room, [], false⟩
      | some false => act

/-- The delayed callback of `startReactionBot`. -/
def reactionCallback (now : Nat) (botId : Handle) (room : Room) : Outcome :=
  guarded room .go (fun gs => gs.tappedHas botId) (send now room botId "tap" noData)

/-- The delayed callback of `startTriviaBot`; its closure holds the `choice`
that the poll computed from the question of the round it saw. -/
def triviaCallback (now : Nat) (botId : Handle) (choice : Int) (room : Room) : Outcome :=
  guarded room .question (fun gs => gs.answersHas botId)
    (send now room botId "answer" { noData with choice := .num choice })

/-- The delayed callback of `startWordBot`; its closure holds the `word` of
the round that the poll saw (`none` when that was undefined). -/
def wordCallback (now : Nat) (botId : Handle) (word : Option String) (room : Room) : Outcome :=
  guarded room .scrambled (fun gs => gs.solversFind botId)
    (send now room botId "guess"
      { noData with guess := match word with
                             | some w => .str w
                             | none => .undef })

/-- The delayed callback of `startMathBot` that sends `String(answer)`: the
callback of a bot that will solve sends the answer of the problem that the
poll saw, the callback of a bot that will not sends a wrong number (and may
create a timer that runs this callback again with the right answer). -/
def mathCallback (now : Nat) (botId : Handle) (answer : Int) (room : Room) : Outcome :=
  guarded room .solving (fun gs => gs.answersHas botId)
    (send now room botId "answer" { noData with answer := .str (toString answer) })

/-- The delayed callback of `startColorClashBot`; its closure holds the
`choice` that the poll took from `gs.inkColor` or `gs.word`. -/
def colorClashCallback (now : Nat) (botId : Handle) (choice : Option String) (room : Room) :
    Outcome :=
  guarded room .showing (fun gs => gs.answersHas botId)
    (send now room botId "answer"
      { noData with choice := match choice with
                              | some c => .str c
                              | none => .undef })

/-- One tick of the poll of `startTriviaBot`. `lastRound` is the variable of
the closure; `correct`, `wrong` and `delay` stand for the results of
`diffChance`, `randomWrong` and `diffRange`. The result is the new value of
`lastRound` and, when the tick creates a timer, its delay and the `choice` it
captures; `none` when the tick throws. -/
def triviaPoll (botId : Handle) (lastRound : Nat) (correct : Bool) (wrong : Int) (delay : Nat)
    (room : Room) : Option (Nat × Option (Nat × Int)) :=
  match room.gameState with
  | none => some (lastRound, none)
  | some gs =>
    if gs.phase = .finished then some (lastRound, none)
    else if gs.phase ≠ .question ∨ gs.round = lastRound then some (lastRound, none)
    else
      match gs with
      | .triviaBlitz tv =>
        if tv.answers.has botId then some (lastRound, none)
        else
          match roundItem tv.questions tv.round with
          | none => none
          | some q => some (tv.round, some (delay, if correct then (q.answer : Int) else wrong))
      | _ => none

end Bots

/-! ## Emoji-match: whose turn it is -/

namespace EmojiMatch

/-- The `do ... while` loop of `_advanceTurn`, with `left` passes to go before
`attempts` reaches `turnOrder.length`: each pass moves `turnIndex` one place
on, cyclically, and reads `currentTurn` there; the loop goes on while that
handle is not a key of `players` and passes are left. The result is the final
`turnIndex` and `currentTurn`. -/
def advanceLoop (players : JsMap Handle Player) (turnOrder : List Handle) :
    Nat → Nat → Nat × Option Handle
  | 0, turnIndex => (turnIndex, turnOrder[turnIndex]?)
  | left + 1, turnIndex =>
    let next : Nat := (turnIndex + 1) % turnOrder.length
    match turnOrder[next]? with
    | some h =>
      if players.has h ∨ left = 0 then (next, some h)
      else advanceLoop players turnOrder left next
    | none => if left = 0 then (next, none) else advanceLoop players turnOrder left next

/-- The test `room.players.has(gs.currentTurn)`; an undefined `currentTurn` is
no key. -/
def turnHolderPresent (players : JsMap Handle Player) : Option Handle → Bool
  | some h => players.has h
  | none => false

/-- The method `_advanceTurn`, run at time `now`. The loop makes at most
`turnOrder.length` passes. -/
def _advanceTurn (now : Nat) (room : Room) : Outcome :=
  match room.gameState with
  | some (.emojiMatch gs) =>
    if gs.turnOrder.length = 0 then ⟨room, [], false⟩
    else
      let moved := advanceLoop room.players gs.turnOrder gs.turnOrder.length gs.turnIndex
      let gs1 : EMState := { gs with turnIndex := moved.1, currentTurn := moved.2 }
      let room1 : Room := { room with gameState := some (.emojiMatch gs1) }
      if !turnHolderPresent room.players gs1.currentTurn then EmojiMatch._roundResult now room1
      else
        ⟨room1,
         [⟨.room room.code, "game:state",
            .emTurn gs1.currentTurn
              (gs1.currentTurn.bind fun h => (room.players.get h).map (·.name))⟩],
         false⟩
  | _ => ⟨room, [], true⟩

/-- The callback of the timer that `onEvent` creates after two cards that do
not match; it captured the two picks. -/
def unflipCallback (now : Nat) (first second : Pick) (room : Room) : Outcome :=
  match room.gameState with
  | some (.emojiMatch gs) =>
    let gs1 : EMState := { gs with firstPick := .null, secondPick := .null, locked := false }
    let room1 : Room := { room with gameState := some (.emojiMatch gs1) }
    ⟨(_advanceTurn now room1).room,
     ⟨.room room.code, "game:state", .emUnflip first second⟩ :: (_advanceTurn now room1).emits,
     (_advanceTurn now room1).threw⟩
  | _ => ⟨room, [], true⟩

end EmojiMatch

/-! ## Reachable registries -/

/-- The registries reachable from server start through `createRoom`,
`joinRoom`, `rejoinRoom`, `disconnectPlayer`, `finalizeLeave`, `leaveRoom`,
`createBot` and `removeBot`, with arbitrary arguments. The room handed to
`createBot` and `removeBot` is a room of the registry, and it is updated in
place. A bot id is new to its room: the counter makes bot ids pairwise
distinct, and no socket.io connection id has the form `bot-N-T`. -/
inductive Reachable : Registry → Prop
  | start : Reachable Registry.empty
  | createRoom {s s1 : Registry} {room : Room} (hostId : Handle) (hostName : String)
      (now : Nat) (draws : List Nat) :
      Reachable s → createRoom s hostId hostName now draws = some (s1, room) → Reachable s1
  | joinRoom {s : Registry} (socketId : Handle) (code name : String) :
      Reachable s → Reachable (joinRoom s socketId code name).1
  | rejoinRoom {s : Registry} (socketId : Handle) (code name : String) :
      Reachable s → Reachable (rejoinRoom s socketId code name).1
  | disconnectPlayer {s : Registry} (socketId : Handle) (now : Nat) :
      Reachable s → Reachable (disconnectPlayer s socketId now).1
  | finalizeLeave {s : Registry} (socketId : Handle) (code : String) :
      Reachable s → Reachable (finalizeLeave s socketId code).1
  | leaveRoom {s : Registry} (socketId : Handle) :
      Reachable s → Reachable (leaveRoom s socketId).1
  | createBot {s : Registry} {room : Room} (code : String) (now rName rDiff : Nat) :
      Reachable s → s.rooms.get code = some room →
      room.players.has (botId (s.botCounter + 1) now) = false →
      Reachable { s with
        rooms := s.rooms.set code (createBot s.botCounter room now rName rDiff).2.1
        botCounter := (createBot s.botCounter room now rName rDiff).1 }
  | removeBot {s : Registry} {room : Room} (code : String) (bot : Handle) :
      Reachable s → s.rooms.get code = some room →
      Reachable { s with rooms := s.rooms.set code (removeBot room bot).1 }

/-- Some player of the room is neither a bot nor flagged disconnected. -/
def hasConnectedHuman (room : Room) : Bool :=
  room.players.entries.any fun e => !e.2.isBot && !e.2.disconnected

/-- The handle `room.host` is that of a player of the room that is neither a
bot nor flagged disconnected. -/
def hostIsConnectedHuman (room : Room) : Bool :=
  match room.players.get room.host with
  | some p => !p.isBot && !p.disconnected
  | none => false

/-- The handle `host` is that of a player that is not a bot. -/
def HostIsHuman (host : Handle) (players : JsMap Handle Player) : Prop :=
  ∃ p, players.get host = some p ∧ p.isBot = false

/-- Well-formedness of a players map: the keys are pairwise distinct, and only
players that are not bots are flagged disconnected. -/
structure PlayersWF (players : JsMap Handle Player) : Prop where
  away_human : ∀ e ∈ players.entries, e.2.disconnected = true → e.2.isBot = false
  keys_nodup : players.keys.Nodup

/-- The invariant of a live room. -/
structure RoomInv (room : Room) : Prop where
  host_human : HostIsHuman room.host room.players
  wf : PlayersWF room.players

/-- The invariant of the registry: every room satisfies `RoomInv`. -/
def RegistryInv (s : Registry) : Prop :=
  ∀ e ∈ s.rooms.entries, RoomInv e.2

/-- The registries reachable from server start through room creation, join,
rejoin, the `room:addBot` and `room:removeBot` handlers, disconnect, grace
expiry (`finalizeLeave`) and leave, with arbitrary arguments. -/
inductive ReachableByHandlers : Registry → Prop
  | start : ReachableByHandlers Registry.empty
  | createRoom {s s1 : Registry} {room : Room} (hostId : Handle) (hostName : String)
      (now : Nat) (draws : List Nat) :
      ReachableByHandlers s → createRoom s hostId hostName now draws = some (s1, room) →
      ReachableByHandlers s1
  | joinRoom {s : Registry} (socketId : Handle) (code name : String) :
      ReachableByHandlers s → ReachableByHandlers (joinRoom s socketId code name).1
  | rejoinRoom {s : Registry} (socketId : Handle) (code name : String) :
      ReachableByHandlers s → ReachableByHandlers (rejoinRoom s socketId code name).1
  | addBot {s : Registry} (socketId : Handle) (now rName rDiff : Nat) :
      ReachableByHandlers s → ReachableByHandlers (addBotHandler s socketId now rName rDiff).1
  | removeBot {s : Registry} (socketId bot : Handle) :
      ReachableByHandlers s → ReachableByHandlers (removeBotHandler s socketId bot).1
  | disconnectPlayer {s : Registry} (socketId : Handle) (now : Nat) :
      ReachableByHandlers s → ReachableByHandlers (disconnectPlayer s socketId now).1
  | finalizeLeave {s : Registry} (socketId : Handle) (code : String) :
      ReachableByHandlers s → ReachableByHandlers (finalizeLeave s socketId code).1
  | leaveRoom {s : Registry} (socketId : Handle) :
      ReachableByHandlers s → ReachableByHandlers (leaveRoom s socketId).1

/-- Every room of the registry has at most 20 players. -/
def RoomsCapped (s : Registry) : Prop :=
  ∀ e ∈ s.rooms.entries, e.2.players.size ≤ 20

/-- No two distinct players of the room, neither flagged disconnected, have
names that are equal ignoring case. -/
def NamesDistinct (room : Room) : Prop :=
  ∀ a ∈ room.players.entries, ∀ b ∈ room.players.entries,
    a.1 ≠ b.1 → a.2.disconnected = false → b.2.disconnected = false →
    toLowerCase a.2.name ≠ toLowerCase b.2.name

instance (room : Room) : Decidable (NamesDistinct room) := by
  unfold NamesDistinct; infer_instance

/-! ## Example states -/

/-- The registry after socket `s1` created a room as "Ava" at time 0, the four
draws giving the code `ABCD`. -/
def demoCreated : Registry :=
  match createRoom Registry.empty "s1" "Ava" 0 [0, 1, 2, 3] with
  | some (s, _) => s
  | none => Registry.empty

/-- The room of `demoCreated`. -/
def demoRoom : Room :=
  { code := "ABCD", host := "s1"
    players := ⟨[("s1", Player.fresh "Ava" true)]⟩
    state := .lobby, currentGame := none, gameState := none
    createdAt := 0, timers := [], nextTimerId := 0 }

/-- The room of `demoCreated` after "Ben" joined on socket `s2`. -/
def demoRoomJoined : Room :=
  { demoRoom with players := ⟨[("s1", Player.fresh "Ava" true), ("s2", Player.fresh "Ben" false)]⟩ }

/-- The registry of `demoCreated` after "Ben" joined and the host's socket
`s1` disconnected at time 1000. -/
def demoHostAway : Registry :=
  (disconnectPlayer (joinRoom demoCreated "s2" "ABCD" "Ben").1 "s1" 1000).1

/-- The room of `demoHostAway`: the host "Ava" is flagged disconnected. -/
def demoRoomHostAway : Room :=
  { demoRoom with
    players := ⟨[("s1", { Player.fresh "Ava" true with disconnected := true }),
                 ("s2", Player.fresh "Ben" false)]⟩ }

/-- The registry of `demoCreated` after the host's socket `s1` disconnected at
time 1000, the host being alone in the room. -/
def demoSoloAway : Registry := (disconnectPlayer demoCreated "s1" 1000).1

/-- The room of `demoSoloAway`. -/
def demoRoomSoloAway : Room :=
  { demoRoom with
    players := ⟨[("s1", { Player.fresh "Ava" true with disconnected := true })]⟩ }

/-- The registry of `demoCreated` after "Ben" joined on socket `s2` and then
"Cat" on socket `s3`. -/
def demoThree : Registry :=
  (joinRoom (joinRoom demoCreated "s2" "ABCD" "Ben").1 "s3" "ABCD" "Cat").1

/-- The call by which "Ben", whose socket `s2` disconnected at time 1000,
comes back on socket `s4`. -/
def demoBenRejoin : Registry × JoinResult :=
  rejoinRoom (disconnectPlayer demoThree "s2" 1000).1 "s4" "ABCD" "Ben"

/-- The call that ends the grace period of the host "Ava", whose socket `s1`
disconnected at time 2000, after "Ben" came back. -/
def demoHostExpired : Registry × Option LeaveResult :=
  finalizeLeave (disconnectPlayer demoBenRejoin.1 "s1" 2000).1 "s1" "ABCD"

/-- Handle, name, `isHost` and `isBot` of the players of room `code`, in
iteration order. -/
def roster (s : Registry) (code : String) : Option (List (Handle × String × Bool × Bool)) :=
  (getRoom s code).map fun r => r.players.entries.map fun e => (e.1, e.2.name, e.2.isHost, e.2.isBot)

/-- The first generated question of the example game. -/
def demoQuestion1 : ColorClash.Generated := ⟨"red", "blue", ["blue", "red", "green", "yellow"]⟩

/-- The second generated question of the example game. -/
def demoQuestion2 : ColorClash.Generated := ⟨"green", "purple", ["purple", "green", "red", "orange"]⟩

/-- The payload `{ choice }` of an `answer` event. -/
def demoChoice (c : String) : EventData := ⟨.str c, .undef, .undef, none, .undef⟩

/-- Room `ABCD` with "Ava" and "Ben", right after color-clash `init` ran at time 0. -/
def demoGameRoom : Room :=
  (ColorClash.init 0 demoQuestion1
    { demoRoomJoined with state := .playing, currentGame := some .colorClash }).room

/-- The game state of `demoGameRoom`: round 1 is open. -/
def demoGameState : GameState :=
  .colorClash
    { round := 1, totalRounds := 10, phase := .showing
      word := some "red", inkColor := some "blue"
      options := ["blue", "red", "green", "yellow"]
      answers := JsMap.empty, streaks := ⟨[("s1", 0), ("s2", 0)]⟩
      timeLimit := 5000, questionStart := 0 }

/-- The example game after "Ava" answered at 800 ms and "Ben" at 1000 ms. -/
def demoAfterAnswers : Room :=
  (ColorClash.onEvent 1000
    (ColorClash.onEvent 800 demoGameRoom "s1" "answer" (some (demoChoice "blue"))).room
    "s2" "answer" (some (demoChoice "red"))).room

/-- The example game after the next-round timer (handle 1) ran at 4000 ms. -/
def demoRound2 : Option Room :=
  (ColorClash.fire 4000 demoQuestion2 1 demoAfterAnswers).map (·.room)

/-- The example game when the timer of round 1 (handle 0) runs at 5000 ms. -/
def demoStaleFire : Option Outcome :=
  demoRound2.bind (ColorClash.fire 5000 demoQuestion2 0)

/-- A registry whose room `ABCD` is in the example game, after the socket `s1`
of "Ava" disconnected at 1000 ms. -/
def demoPlayingAway : Registry :=
  (disconnectPlayer ⟨⟨[("ABCD", demoGameRoom)]⟩, JsMap.empty, 0⟩ "s1" 1000).1

/-- The registry of `demoCreated` after the host's socket `s1` asked for a bot
at time 5000. -/
def demoWithBot : Registry := (addBotHandler demoCreated "s1" 5000 0 0).1

/-- The example game after `_endGame`: phase 'finished', room state 'results'. -/
def demoFinishedRoom : Room := (ColorClash._endGame demoGameRoom).room

/-- The game state of `demoFinishedRoom`. -/
def demoFinishedState : GameState :=
  .colorClash
    { round := 1, totalRounds := 10, phase := .finished
      word := some "red", inkColor := some "blue"
      options := ["blue", "red", "green", "yellow"]
      answers := JsMap.empty, streaks := ⟨[("s1", 0), ("s2", 0)]⟩
      timeLimit := 5000, questionStart := 0 }

/-- The registry of `demoCreated` after "Ben" joined on socket `s2` and the
host started reaction-race; `init` has not run yet. -/
def demoStarted : Registry :=
  (startGameHandler (joinRoom demoCreated "s2" "ABCD" "Ben").1 "s1" (some .reactionRace)).1

/-- Room `ABCD` with "Ava" and "Ben", right after trivia-blitz `init` ran at
time 0 with the questions in the order of the table. -/
def demoTriviaRoom : Room :=
  (TriviaBlitz.init 0 TriviaBlitz.QUESTIONS
    { demoRoomJoined with state := .playing, currentGame := some .triviaBlitz }).room

/-- The example game after "Ava" answered "blue" at 800 ms. -/
def demoAnswered : Room :=
  (ColorClash.onEvent 800 demoGameRoom "s1" "answer" (some (demoChoice "blue"))).room

/-- One choice of what `init` draws: time 0, the tables unshuffled, "PYTHON"
scrambled to "NOHTYP", a board of six pairs, "Ben" first, the problem
"7 + 5" for every round, and the colours in the order of the table. -/
def demoInit : InitInput :=
  { now := 0, rrDelay := 2000
    tvShuffled := TriviaBlitz.QUESTIONS
    wsShuffled := WordScramble.WORDS, wsScrambled := "NOHTYP"
    emBoard := ["🐶", "🐱", "🐭", "🐹", "🐰", "🦊", "🐶", "🐱", "🐭", "🐹", "🐰", "🦊"]
    emTurnOrder := ["s2", "s1"]
    mbProblem := fun _ => ⟨"7 + 5", 12, 0⟩
    ssDraw := fun i => i
    ccGenerated := demoQuestion1 }

/-- Room `ABCD` with "Ava" and "Ben" in round 1 of reaction-race, phase
'ready': `init` ran at time 0 with a delay of 2000 ms. -/
def demoRaceReady : Room :=
  (ReactionRace.init 0 2000
    { demoRoomJoined with state := .playing, currentGame := some .reactionRace }).room

/-- The reaction-race example after "Ben" tapped too early at 1000 ms and the
round turned to 'go' at 2000 ms. -/
def demoRaceGo : Room :=
  (ReactionRace.goCallback 2000 1
    (ReactionRace.onEvent 1000 demoRaceReady "s2" "tap" none).room).room

/-- A registry whose room `ABCD` is in the example game, after "Ava" answered
"blue" at 800 ms and her socket `s1` disconnected at 1000 ms. -/
def demoAnsweredAway : Registry :=
  (disconnectPlayer ⟨⟨[("ABCD", demoAnswered)]⟩, JsMap.empty, 0⟩ "s1" 1000).1

/-- The reaction-race example after "Ava" tapped at 6000 ms, 4000 ms after
'go': hers is the first result of round 1. -/
def demoRaceLateTap : Room := (ReactionRace.onEvent 6000 demoRaceGo "s1" "tap" none).room

/-- The room after its socket `h` disconnected at time `now`: what
`disconnectPlayer` leaves in a registry that holds this room only. -/
def roomAfterDisconnect (room : Room) (h : Handle) (now : Nat) : Room :=
  ((disconnectPlayer ⟨⟨[(room.code, room)]⟩, JsMap.empty, 0⟩ h now).1.rooms.get room.code).getD room

/-- Room `ABCD` with "Ava", "Ben" and "Cat" in the lobby. -/
def demoThreeRoom : Room := (getRoom demoThree "ABCD").getD demoRoom

/-- The payload `{ choice }` of a trivia `answer` event. -/
def demoPick (n : Int) : EventData := ⟨.num n, .undef, .undef, none, .undef⟩

/-- The payload `{ guess }` of a word-scramble `guess` event. -/
def demoGuess (w : String) : EventData := ⟨.undef, .undef, .str w, none, .undef⟩

/-- Trivia-blitz in room `ABCD` with three players: `init` at time 0, "Ben"
answers at 500 ms and his socket disconnects at 600 ms. -/
def demoQuizBenAway : Room :=
  roomAfterDisconnect
    (TriviaBlitz.onEvent 500
      (TriviaBlitz.init 0 TriviaBlitz.QUESTIONS
        { demoThreeRoom with state := .playing, currentGame := some .triviaBlitz }).room
      "s2" "answer" (some (demoPick 2))).room
    "s2" 600

/-- Word-scramble in room `ABCD` with three players: `init` at time 0 with the
word "PYTHON", "Ben" solves it at 500 ms and his socket disconnects at 600 ms. -/
def demoWordsBenAway : Room :=
  roomAfterDisconnect
    (WordScramble.onEvent 500
      (WordScramble.init 0 WordScramble.WORDS "NOHTYP"
        { demoThreeRoom with state := .playing, currentGame := some .wordScramble }).room
      "s2" "guess" (some (demoGuess "python"))).room
    "s2" 600

/-- Room `ABCD` with "Ava", "Ben" and the bot `bot-1-0` (added at time 0,
"RoboChamp", easy), after the host started trivia-blitz and before `init`. -/
def demoBotRoom : Room :=
  (getRoom
    (startGameHandler
      (addBotHandler (joinRoom demoCreated "s2" "ABCD" "Ben").1 "s1" 0 0 0).1
      "s1" (some .triviaBlitz)).1 "ABCD").getD demoRoom

/-- One result of the shuffle in trivia-blitz `init`: the table turned by two
places, so that round 1 asks for the symbol of gold (answer 2) and round 2 for
the largest ocean (answer 3). -/
def demoShuffled : List Question := TriviaBlitz.QUESTIONS.drop 2 ++ TriviaBlitz.QUESTIONS.take 2

/-- The trivia game of `demoBotRoom` in round 1: `init` ran at 500 ms. -/
def demoBotQuiz : Room := (TriviaBlitz.init 500 demoShuffled demoBotRoom).room

/-- The same game after "Ben" answered at 1000 ms and disconnected at 1500 ms,
and "Ava" answered at 2000 ms, which ended round 1 before the bot answered. -/
def demoBotQuizShown : Room :=
  (TriviaBlitz.onEvent 2000
    (roomAfterDisconnect
      (TriviaBlitz.onEvent 1000 demoBotQuiz "s2" "answer" (some (demoPick 0))).room "s2" 1500)
    "s1" "answer" (some (demoPick 2))).room

/-- The same game in round 2: the next-question timer ran at 6000 ms. -/
def demoBotQuizRound2 : Room := (TriviaBlitz._nextQuestion 6000 demoBotQuizShown).room

/-- A board of six pairs, as `_generateBoard(12)` may return it. -/
def demoBoard : List String :=
  ["🐶", "🐱", "🐭", "🐹", "🐰", "🦊", "🐶", "🐱", "🐭", "🐹", "🐰", "🦊"]

/-- The payload `{ index }` of a `flip` event. -/
def demoFlip (i : Int) : EventData := ⟨.undef, .undef, .undef, some i, .undef⟩

/-- Emoji-match in room `ABCD` with "Ava" and "Ben": `init` gives "Ava" the
first turn; "Ben" disconnects at 1000 ms; "Ava" flips the cards 0 and 1, which
do not match, at 2000 and 3000 ms. -/
def demoCardsBenAway : Room :=
  (EmojiMatch.onEvent 3000
    (EmojiMatch.onEvent 2000
      (roomAfterDisconnect
        (EmojiMatch.init demoBoard ["s1", "s2"]
          { demoRoomJoined with state := .playing, currentGame := some .emojiMatch }).room
        "s2" 1000)
      "s1" "flip" (some (demoFlip 0))).room
    "s1" "flip" (some (demoFlip 1))).room

/-- The room after the socket `n` sent `room:rejoin` with `name`: what
`rejoinRoom` leaves in a registry that holds this room only. -/
def roomAfterRejoin (room : Room) (n : Handle) (name : String) : Room :=
  ((rejoinRoom ⟨⟨[(room.code, room)]⟩, JsMap.empty, 0⟩ n room.code name).1.rooms.get
    room.code).getD room

/-- The payload `{ color }` of an `input` event. -/
def demoColor (c : String) : EventData := ⟨.undef, .undef, .undef, none, .str c⟩

/-- Simon-says in room `ABCD` with "Ava", "Ben" and "Cat", the sequence being
red, blue, green, yellow, red, ...: round 1 in phase 'input' (from 1700 ms),
after "Ben" pressed blue at 2000 ms, which is wrong. -/
def demoSimonBenOut : Room :=
  (SimonSays.onEvent 2000
    (SimonSays.inputStartCallback 1700 1
      (SimonSays.init 0 (fun i => i)
        { demoThreeRoom with state := .playing, currentGame := some .simonSays }).room).room
    "s2" "input" (some (demoColor "blue"))).room

/-- The same game after "Ben" disconnected at 2500 ms and came back on socket
`s4`. -/
def demoSimonBenBack : Room :=
  roomAfterRejoin (roomAfterDisconnect demoSimonBenOut "s2" 2500) "s4" "Ben"

/-- The same game after "Ava", "Cat" and "Ben" (on `s4`) each pressed red, and
the round resolved at 5000 ms. -/
def demoSimonRound1 : Room :=
  (SimonSays._resolveRound 5000
    (SimonSays.onEvent 4200
      (SimonSays.onEvent 4000
        (SimonSays.onEvent 3500 demoSimonBenBack "s1" "input" (some (demoColor "red"))).room
        "s3" "input" (some (demoColor "red"))).room
      "s4" "input" (some (demoColor "red"))).room).room

/-- The same game in round 2 (from 8000 ms, phase 'input' from 10300 ms), after
"Ava" and "Cat" pressed green, which is wrong, and "Ben" pressed red and blue.
The round resolved at 11700 ms: the input timer of round 1, created at 1700 ms
with a delay of 10000 ms and never cleared, found the phase 'input' again. -/
def demoSimonRound2 : Room :=
  (SimonSays.inputTimeout 11700
    (SimonSays.onEvent 11400
      (SimonSays.onEvent 11200
        (SimonSays.onEvent 11000
          (SimonSays.onEvent 10500
            (SimonSays.inputStartCallback 10300 2
              (SimonSays._nextRound 8000 demoSimonRound1).room).room
            "s1" "input" (some (demoColor "green"))).room
          "s3" "input" (some (demoColor "green"))).room
        "s4" "input" (some (demoColor "red"))).room
      "s4" "input" (some (demoColor "blue"))).room).room

/-- Round, phase, `eliminated` and `survivors` of a simon-says game. -/
def simonView (room : Room) : Option (Nat × Phase × List Handle × List Handle) :=
  room.gameState.bind fun gs =>
    match gs with
    | .simonSays ss => some (ss.round, ss.phase, ss.eliminated.elems, ss.survivors.elems)
    | _ => none

/-- Handle, name and score of the players of a room. -/
def scoreboard (room : Room) : List (Handle × String × Int) :=
  room.players.entries.map fun e => (e.1, e.2.name, e.2.score)

/-- The registry of `demoCreated` after "Ben" joined on socket `s2` and
disconnected at 1000 ms, a socket `s3` joined as "Ben", and a socket `s4`
sent `room:rejoin` for "ben". -/
def demoTwoBens : Registry :=
  (rejoinRoom
    (joinRoom (disconnectPlayer (joinRoom demoCreated "s2" "ABCD" "Ben").1 "s2" 1000).1
      "s3" "ABCD" "Ben").1
    "s4" "ABCD" "ben").1

/-- The registry after socket `s1` created room `ABCD` as "robochamp". -/
def demoRobo : Registry :=
  match createRoom Registry.empty "s1" "robochamp" 0 [0, 1, 2, 3] with
  | some (s, _) => s
  | none => Registry.empty

/-- The room of `demoRobo`. -/
def demoRoboRoom : Room := { demoRoom with players := ⟨[("s1", Player.fresh "robochamp" true)]⟩ }

/-- The registry of `demoRobo` after `createBot` ran on its room at 5000 ms,
both random numbers being 0. -/
def demoRoboBot : Registry :=
  { demoRobo with
    rooms := demoRobo.rooms.set "ABCD" (createBot demoRobo.botCounter demoRoboRoom 5000 0 0).2.1
    botCounter := (createBot demoRobo.botCounter demoRoboRoom 5000 0 0).1 }

/-- The registry of `demoCreated` after "Ben" joined and the host sent
`room:startGame` for trivia-blitz twice, 150 ms apart, with the reply to the
second request. The handler has no test of `room.state`: each request starts
a timer that runs `init` 500 ms later. -/
def demoQuizRestart : Registry × Ack :=
  startGameHandler
    (startGameHandler (joinRoom demoCreated "s2" "ABCD" "Ben").1 "s1" (some .triviaBlitz)).1
    "s1" (some .triviaBlitz)

/-- Room `ABCD` after the `init` of the first request ran at 500 ms, the
questions in the order of `demoShuffled`. -/
def demoQuizFirst : Room :=
  (TriviaBlitz.init 500 demoShuffled ((getRoom demoQuizRestart.1 "ABCD").getD demoRoom)).room

/-- The game-state object that the first `init` built, as it is when the second
`init` replaces it: round 1, phase 'question', no answer shown. From then on
only the closure of its round timer holds it, and that closure does not write
to it. -/
def demoQuizOrphan : TVState :=
  { questions := demoShuffled.take 7, round := 1, totalRounds := 7, phase := .question
    answers := JsMap.empty, questionStart := some 500, answerShown := false
    currentRoundTimer := some 0 }

/-- The room after the `init` of the second request ran at 650 ms, the
questions in the order of the table: `room.gameState` is a new object. -/
def demoQuizSecond : Room := (TriviaBlitz.init 650 TriviaBlitz.QUESTIONS demoQuizFirst).room

/-- The second game after "Ava" answered at 1000 ms and "Ben" at 2000 ms,
which ended round 1. -/
def demoQuizSecondShown : Room :=
  (TriviaBlitz.onEvent 2000
    (TriviaBlitz.onEvent 1000 demoQuizSecond "s1" "answer" (some (demoPick 1))).room
    "s2" "answer" (some (demoPick 2))).room

/-- The second game in round 2: the next-question timer ran at 6000 ms. -/
def demoQuizSecondRound2 : Room := (TriviaBlitz._nextQuestion 6000 demoQuizSecondShown).room

/-- The timers of a room that are due after `now`, with handle, time and
callback. -/
def timersDueAfter (now : Nat) (room : Room) : List (Nat × Nat × Callback) :=
  (room.timers.filter fun t => decide (now < t.due)).map fun t => (t.id, t.due, t.cb)

/-! # Theorems -/

/-! ## Lemmas on `JsMap` -/

section JsMapLemmas

variable {α β : Type} [DecidableEq α]

theorem JsMap.lookup_upsert_self (k : α) (v : β) (l : List (α × β)) :
    JsMap.lookup k (JsMap.upsert k v l) = some v := by
  induction l with
  | nil => simp [JsMap.upsert, JsMap.lookup]
  | cons e rest ih =>
    obtain ⟨k', v'⟩ := e
    by_cases h : k' = k <;> simp [JsMap.upsert, JsMap.lookup, h, ih]

theorem JsMap.lookup_upsert_ne {k k' : α} (h : k' ≠ k) (v : β) (l : List (α × β)) :
    JsMap.lookup k' (JsMap.upsert k v l) = JsMap.lookup k' l := by
  induction l with
  | nil => simp [JsMap.upsert, JsMap.lookup, Ne.symm h]
  | cons e rest ih =>
    obtain ⟨k2, v2⟩ := e
    by_cases h2 : k2 = k
    · subst h2
      simp [JsMap.upsert, JsMap.lookup, Ne.symm h]
    · by_cases h3 : k2 = k'
      · subst h3
        simp [JsMap.upsert, JsMap.lookup, h2]
      · simp [JsMap.upsert, JsMap.lookup, h2, h3, ih]

theorem JsMap.lookup_filter_self (k : α) (l : List (α × β)) :
    JsMap.lookup k (l.filter (fun e => !decide (e.1 = k))) = none := by
  induction l with
  | nil => simp [JsMap.lookup]
  | cons e rest ih =>
    obtain ⟨k', v'⟩ := e
    by_cases h : k' = k <;> simp [List.filter_cons, JsMap.lookup, h, ih]

theorem JsMap.lookup_filter_ne {k k' : α} (h : k' ≠ k) (l : List (α × β)) :
    JsMap.lookup k' (l.filter (fun e => !decide (e.1 = k))) = JsMap.lookup k' l := by
  induction l with
  | nil => simp [JsMap.lookup]
  | cons e rest ih =>
    obtain ⟨k2, v2⟩ := e
    by_cases h2 : k2 = k
    · subst h2
      simp [List.filter_cons, JsMap.lookup, Ne.symm h, ih]
    · by_cases h3 : k2 = k'
      · subst h3
        simp [List.filter_cons, JsMap.lookup, h2]
      · simp [List.filter_cons, JsMap.lookup, h2, h3, ih]

theorem JsMap.upsert_of_lookup_none {k : α} (v : β) {l : List (α × β)}
    (h : JsMap.lookup k l = none) : JsMap.upsert k v l = l ++ [(k, v)] := by
  induction l with
  | nil => simp [JsMap.upsert]
  | cons e rest ih =>
    obtain ⟨k', v'⟩ := e
    by_cases h2 : k' = k
    · simp [JsMap.lookup, h2] at h
    · simp only [JsMap.lookup, h2, if_false] at h
      simp [JsMap.upsert, h2, ih h]

theorem JsMap.length_upsert_of_lookup_some {k : α} (v w : β) {l : List (α × β)}
    (h : JsMap.lookup k l = some w) : (JsMap.upsert k v l).length = l.length := by
  induction l with
  | nil => simp [JsMap.lookup] at h
  | cons e rest ih =>
    obtain ⟨k', v'⟩ := e
    by_cases h2 : k' = k
    · simp [JsMap.upsert, h2]
    · simp only [JsMap.lookup, h2, if_false] at h
      simp [JsMap.upsert, h2, ih h]

theorem JsMap.lookup_of_mem_none {k : α} {l : List (α × β)}
    (h : JsMap.lookup k l = none) : ∀ e ∈ l, e.1 ≠ k := by
  induction l with
  | nil => simp
  | cons e rest ih =>
    obtain ⟨k', v'⟩ := e
    by_cases h2 : k' = k
    · simp [JsMap.lookup, h2] at h
    · simp only [JsMap.lookup, h2, if_false] at h
      intro e he
      rcases List.mem_cons.mp he with rfl | he
      · exact h2
      · exact ih h e he

theorem JsMap.mem_of_lookup_some {k : α} {v : β} {l : List (α × β)}
    (h : JsMap.lookup k l = some v) : (k, v) ∈ l := by
  induction l with
  | nil => simp [JsMap.lookup] at h
  | cons e rest ih =>
    obtain ⟨k', v'⟩ := e
    by_cases h2 : k' = k
    · simp only [JsMap.lookup, h2, if_true, Option.some.injEq] at h
      simp [h2, h]
    · simp only [JsMap.lookup, h2, if_false] at h
      exact List.mem_cons_of_mem _ (ih h)

theorem JsMap.get_set_self (m : JsMap α β) (k : α) (v : β) : (m.set k v).get k = some v :=
  JsMap.lookup_upsert_self k v m.entries

theorem JsMap.get_set_ne (m : JsMap α β) {k k' : α} (h : k' ≠ k) (v : β) :
    (m.set k v).get k' = m.get k' :=
  JsMap.lookup_upsert_ne h v m.entries

theorem JsMap.get_delete_self (m : JsMap α β) (k : α) : (m.delete k).get k = none :=
  JsMap.lookup_filter_self k m.entries

theorem JsMap.get_delete_ne (m : JsMap α β) {k k' : α} (h : k' ≠ k) :
    (m.delete k).get k' = m.get k' :=
  JsMap.lookup_filter_ne h m.entries

end JsMapLemmas

/-! ## Room codes -/

theorem pickChar_mem (r : Nat) : pickChar r ∈ chars := by
  unfold pickChar
  have h : r % chars.length < chars.length := Nat.mod_lt _ (by decide)
  rw [List.getD_eq_getElem _ _ h]
  exact List.getElem_mem h

theorem generateCode_sound (rooms : JsMap String Room) :
    ∀ (n : Nat) (draws : List Nat) (code : String), draws.length ≤ n →
      generateCode rooms draws = some code →
      code.length = 4 ∧ (∀ c ∈ code.toList, c ∈ chars) ∧ rooms.has code = false := by
  intro n
  induction n with
  | zero =>
    intro draws code hlen h
    have : draws = [] := List.length_eq_zero.mp (Nat.le_zero.mp hlen)
    subst this
    simp [generateCode] at h
  | succ n ih =>
    intro draws code hlen h
    match draws, hlen, h with
    | [], _, h => simp [generateCode] at h
    | [_], _, h => simp [generateCode] at h
    | [_, _], _, h => simp [generateCode] at h
    | [_, _, _], _, h => simp [generateCode] at h
    | a :: b :: c :: d :: rest, hlen, h =>
      simp only [generateCode] at h
      split at h
      · exact ih rest code (by simp only [List.length_cons] at hlen; omega) h
      · rename_i hfree
        simp only [Option.some.injEq] at h
        subst h
        refine ⟨rfl, ?_, by simpa using hfree⟩
        intro ch hch
        simp only [String.toList, List.mem_cons, List.mem_singleton, List.not_mem_nil,
          or_false] at hch
        rcases hch with rfl | rfl | rfl | rfl <;> exact pickChar_mem _

/-- C9. Whenever `generateCode` returns, the code has exactly 4 characters,
each taken from the 32-character alphabet (which has none of I, O, 0, 1), and
is not the code of a room in the registry; it does return as soon as four
consecutive draws give an unused code; and `createRoom` appends its room
under a code that was unused, leaving every existing entry in place. -/
theorem generateCode_createRoom_spec :
    (∀ (rooms : JsMap String Room) (draws : List Nat) (code : String),
        generateCode rooms draws = some code →
        code.length = 4 ∧ (∀ c ∈ code.toList, c ∈ chars) ∧ rooms.has code = false) ∧
    (chars.length = 32 ∧ 'I' ∉ chars ∧ 'O' ∉ chars ∧ '0' ∉ chars ∧ '1' ∉ chars) ∧
    (∀ (rooms : JsMap String Room) (a b c d : Nat) (rest : List Nat),
        rooms.has (String.mk [pickChar a, pickChar b, pickChar c, pickChar d]) = false →
        generateCode rooms (a :: b :: c :: d :: rest)
          = some (String.mk [pickChar a, pickChar b, pickChar c, pickChar d])) ∧
    (∀ (s : Registry) (hostId : Handle) (hostName : String) (now : Nat) (draws : List Nat)
        (s' : Registry) (room : Room),
        createRoom s hostId hostName now draws = some (s', room) →
        s.rooms.get room.code = none ∧
        s'.rooms.entries = s.rooms.entries ++ [(room.code, room)] ∧
        s'.graceTimers = s.graceTimers) := by
  refine ⟨?_, ?_, ?_, ?_⟩
  · intro rooms draws code h
    exact generateCode_sound rooms draws.length draws code le_rfl h
  · decide
  · intro rooms a b c d rest h
    simp [generateCode, h]
  · intro s hostId hostName now draws s' room h
    unfold createRoom at h
    split at h
    · simp at h
    · rename_i code hcode
      simp only [Option.some.injEq, Prod.mk.injEq] at h
      obtain ⟨hs, hr⟩ := h
      have hfree := (generateCode_sound s.rooms draws.length draws code le_rfl hcode).2.2
      have hnone : s.rooms.get code = none := by
        simpa [JsMap.has] using hfree
      subst hr
      subst hs
      refine ⟨hnone, ?_, rfl⟩
      exact JsMap.upsert_of_lookup_none _ hnone

/-- A concrete instance of C9: in the empty registry the draws 0, 1, 2, 3 give the code `ABCD`. -/
theorem generateCode_createRoom_spec_witness :
    generateCode JsMap.empty [0, 1, 2, 3] = some "ABCD" ∧
    ("ABCD".length = 4 ∧ (∀ c ∈ "ABCD".toList, c ∈ chars) ∧
      (JsMap.empty : JsMap String Room).has "ABCD" = false) :=
  ⟨by decide, generateCode_createRoom_spec.1 JsMap.empty [0, 1, 2, 3] "ABCD" (by decide)⟩

/-! ## Joining -/

theorem nameTaken_iff (players : JsMap Handle Player) (name : String) :
    nameTaken players name = true ↔
      ∃ e ∈ players.entries, toLowerCase e.2.name = toLowerCase name ∧ e.2.disconnected = false := by
  simp [nameTaken, List.any_eq_true]

/-- C10 (amended). `joinRoom` returns the error 'Room not found' iff no room has
the code; otherwise 'Room is full' iff the room has 20 or more players;
otherwise 'Name already taken' iff a player not flagged disconnected has the
same name ignoring case; an error leaves the registry unchanged; otherwise it
writes `{name, score: 0, isHost: false}` under `socket.id` and returns
`{room}`: every other entry is unchanged, the entry is appended (one more
player) when `socket.id` was not a key of the room, and it replaces the
existing entry (same number of players) when it was. -/
theorem joinRoom_spec (s : Registry) (socketId : Handle) (code name : String) :
    ((joinRoom s socketId code name).2 = .error "Room not found" ↔ s.rooms.get code = none) ∧
    (∀ room, s.rooms.get code = some room →
      ((joinRoom s socketId code name).2 = .error "Room is full" ↔ room.players.size ≥ 20) ∧
      (room.players.size < 20 →
        ((joinRoom s socketId code name).2 = .error "Name already taken" ↔
          ∃ e ∈ room.players.entries,
            toLowerCase e.2.name = toLowerCase name ∧ e.2.disconnected = false)) ∧
      (room.players.size < 20 →
        (¬ ∃ e ∈ room.players.entries,
            toLowerCase e.2.name = toLowerCase name ∧ e.2.disconnected = false) →
        let room1 := { room with players := room.players.set socketId (Player.fresh name false) }
        joinRoom s socketId code name
          = ({ s with rooms := s.rooms.set code room1 }, .joined room1) ∧
        (joinRoom s socketId code name).1.rooms.get code = some room1 ∧
        room1.players.get socketId = some (Player.fresh name false) ∧
        (∀ k, k ≠ socketId → room1.players.get k = room.players.get k) ∧
        (room.players.has socketId = false →
          room1.players.entries = room.players.entries ++ [(socketId, Player.fresh name false)]) ∧
        (room.players.has socketId = true → room1.players.size = room.players.size))) ∧
    (∀ msg, (joinRoom s socketId code name).2 = .error msg →
      (joinRoom s socketId code name).1 = s) := by
  refine ⟨?_, ?_, ?_⟩
  · unfold joinRoom
    cases hget : s.rooms.get code with
    | none => simp
    | some room =>
      simp only
      split
      · simp
      · split <;> simp
  · intro room hget
    refine ⟨?_, ?_, ?_⟩
    · unfold joinRoom
      simp only [hget]
      split
      · simpa using ‹_›
      · rename_i hsz
        split
        · simp [hsz]
        · simp [hsz]
    · intro hsz
      have hsz' : ¬ room.players.size ≥ 20 := by omega
      unfold joinRoom
      simp only [hget, hsz', if_false]
      rw [← nameTaken_iff]
      split
      · simp [*]
      · simp [*]
    · intro hsz hfree
      have hsz' : ¬ room.players.size ≥ 20 := by omega
      have hnt : nameTaken room.players name = false := by
        rw [← nameTaken_iff] at hfree
        simpa using hfree
      intro room1
      have heq : joinRoom s socketId code name
          = ({ s with rooms := s.rooms.set code room1 }, .joined room1) := by
        unfold joinRoom
        simp only [hget, hsz', if_false, hnt]
        rfl
      refine ⟨heq, ?_, ?_, ?_, ?_, ?_⟩
      · rw [heq]
        exact JsMap.get_set_self _ _ _
      · exact JsMap.get_set_self _ _ _
      · intro k hk
        exact JsMap.get_set_ne _ hk _
      · intro hhas
        have : JsMap.lookup socketId room.players.entries = none := by
          simpa [JsMap.has, JsMap.get] using hhas
        exact JsMap.upsert_of_lookup_none _ this
      · intro hhas
        obtain ⟨w, hw⟩ := Option.isSome_iff_exists.mp hhas
        exact JsMap.length_upsert_of_lookup_some _ w hw
  · intro msg
    unfold joinRoom
    cases hget : s.rooms.get code with
    | none => simp
    | some room =>
      simp only
      split
      · simp
      · split <;> simp

/-- A concrete instance of C10: a second socket joins the room `ABCD` as "Ben". -/
theorem joinRoom_spec_witness :
    demoCreated.rooms.get "ABCD" = some demoRoom ∧
    demoRoom.players.size < 20 ∧
    joinRoom demoCreated "s2" "ABCD" "Ben"
      = (⟨⟨[("ABCD", demoRoomJoined)]⟩, JsMap.empty, 0⟩, .joined demoRoomJoined) :=
  ⟨by decide, by decide,
   (((joinRoom_spec demoCreated "s2" "ABCD" "Ben").2.1 demoRoom (by decide)).2.2
      (by decide) (by decide)).1⟩

/-- C10 as stated fails: the socket that created room `ABCD` as "Ava" joins it
again as "Bob". The call succeeds, the room still has one player, not two, and
the entry under the socket's handle is replaced. -/
theorem joinRoom_counterexample :
    demoCreated.rooms.get "ABCD" = some demoRoom ∧
    demoRoom.players.entries = [("s1", Player.fresh "Ava" true)] ∧
    (joinRoom demoCreated "s1" "ABCD" "Bob").2
      = .joined { demoRoom with players := ⟨[("s1", Player.fresh "Bob" false)]⟩ } ∧
    ¬ ((JsMap.mk [("s1", Player.fresh "Bob" false)]).size = demoRoom.players.size + 1) := by
  decide

/-! ## Rejoining -/

/-- C2. When `rejoinRoom` finds a disconnected player `p` with a matching name
under the old handle `h`, and the new connection's handle differs from `h`,
then afterwards the room has no entry for `h`, the entry for `socket.id` is
`p` with only `disconnected` reset to false (name, score and isHost are
unchanged), every other entry is unchanged, `room.host` is `socket.id` if it
was `h` and is unchanged otherwise, and the result is `{room, rejoined: true}`. -/
theorem rejoinRoom_restores (s : Registry) (socketId : Handle) (code name : String)
    (room : Room) (h : Handle) (p : Player)
    (hroom : s.rooms.get code = some room)
    (hfind : findDisconnected room.players name = some (h, p))
    (hnew : socketId ≠ h) :
    (h, p) ∈ room.players.entries ∧ p.disconnected = true ∧
    toLowerCase p.name = toLowerCase name ∧
    ∃ room1,
      (rejoinRoom s socketId code name).2 = .rejoined room1 ∧
      (rejoinRoom s socketId code name).1.rooms.get code = some room1 ∧
      room1.players.get h = none ∧
      room1.players.get socketId = some { p with disconnected := false } ∧
      (∀ k, k ≠ h → k ≠ socketId → room1.players.get k = room.players.get k) ∧
      room1.host = (if room.host = h then socketId else room.host) ∧
      room1.code = room.code ∧ room1.state = room.state := by
  have hmem : (h, p) ∈ room.players.entries := List.mem_of_find?_eq_some hfind
  have hprop := List.find?_some hfind
  simp only [Bool.and_eq_true, decide_eq_true_eq] at hprop
  refine ⟨hmem, hprop.2, hprop.1, ?_⟩
  refine ⟨{ room with
            players := (room.players.delete h).set socketId { p with disconnected := false }
            host := if room.host = h then socketId else room.host
            gameState := room.gameState.map (remapGameState h socketId) }, ?_⟩
  refine ⟨?_, ?_, ?_, ?_, ?_, rfl, rfl, rfl⟩
  · simp [rejoinRoom, hroom, hfind]
  · simp only [rejoinRoom, hroom, hfind]
    exact JsMap.get_set_self _ _ _
  · show ((room.players.delete h).set socketId _).get h = none
    rw [JsMap.get_set_ne _ (Ne.symm hnew)]
    exact JsMap.get_delete_self _ _
  · exact JsMap.get_set_self _ _ _
  · intro k hk1 hk2
    show ((room.players.delete h).set socketId _).get k = _
    rw [JsMap.get_set_ne _ hk2, JsMap.get_delete_ne _ hk1]

/-- A concrete instance of C2: the disconnected host "Ava" of room `ABCD`
comes back on socket `s3`, spelling her name "AVA". -/
theorem rejoinRoom_restores_witness :
    demoHostAway.rooms.get "ABCD" = some demoRoomHostAway ∧
    findDisconnected demoRoomHostAway.players "AVA"
      = some ("s1", { Player.fresh "Ava" true with disconnected := true }) ∧
    ∃ room1,
      (rejoinRoom demoHostAway "s3" "ABCD" "AVA").2 = .rejoined room1 ∧
      (rejoinRoom demoHostAway "s3" "ABCD" "AVA").1.rooms.get "ABCD" = some room1 ∧
      room1.players.get "s1" = none ∧
      room1.players.get "s3" = some (Player.fresh "Ava" true) ∧
      room1.host = "s3" :=
  ⟨by decide, by decide,
   by
    obtain ⟨room1, h1, h2, h3, h4, _, h6, _⟩ :=
      (rejoinRoom_restores demoHostAway "s3" "ABCD" "AVA" demoRoomHostAway "s1"
        { Player.fresh "Ava" true with disconnected := true }
        (by decide) (by decide) (by decide)).2.2.2
    exact ⟨room1, h1, h2, h3, h4, h6⟩⟩

/-! ## Leaving -/

theorem promoteFirstHuman_none {l : List (Handle × Player)} :
    promoteFirstHuman l = none ↔ ∀ e ∈ l, e.2.isBot = true := by
  induction l with
  | nil => simp [promoteFirstHuman]
  | cons e rest ih =>
    obtain ⟨id, p⟩ := e
    cases hb : p.isBot with
    | false => simp [promoteFirstHuman, hb]
    | true =>
      simp only [promoteFirstHuman, hb, Bool.not_true, Bool.false_eq_true, if_false,
        List.mem_cons, forall_eq_or_imp, true_and]
      rw [← ih]
      cases promoteFirstHuman rest <;> simp

theorem promoteFirstHuman_some {l : List (Handle × Player)} {id : Handle}
    {l2 : List (Handle × Player)} (h : promoteFirstHuman l = some (id, l2)) :
    ∃ pre q post, l = pre ++ (id, q) :: post ∧ (∀ e ∈ pre, e.2.isBot = true) ∧
      q.isBot = false ∧ l2 = pre ++ (id, { q with isHost := true }) :: post := by
  induction l generalizing l2 with
  | nil => simp [promoteFirstHuman] at h
  | cons e rest ih =>
    obtain ⟨id0, p⟩ := e
    rcases Bool.eq_false_or_eq_true p.isBot with hb | hb
    · simp only [promoteFirstHuman, hb, Bool.not_true, Bool.false_eq_true, if_false] at h
      cases hrec : promoteFirstHuman rest with
      | none => simp [hrec] at h
      | some r =>
        obtain ⟨id1, rest1⟩ := r
        simp only [hrec, Option.some.injEq, Prod.mk.injEq] at h
        obtain ⟨rfl, rfl⟩ := h
        obtain ⟨pre, q, post, h1, h2, h3, h4⟩ := ih hrec
        refine ⟨(id0, p) :: pre, q, post, by simp [h1], ?_, h3, by simp [h4]⟩
        intro e he
        rcases List.mem_cons.mp he with rfl | he
        · exact hb
        · exact h2 e he
    · have h' : some (id0, (id0, { p with isHost := true }) :: rest) = some (id, l2) := by
        rw [← h]
        simp [promoteFirstHuman, hb]
      simp only [Option.some.injEq, Prod.mk.injEq] at h'
      obtain ⟨rfl, rfl⟩ := h'
      exact ⟨[], p, rest, rfl, by simp, hb, rfl⟩

theorem promoteFirstHuman_keys {l : List (Handle × Player)} {id : Handle}
    {l2 : List (Handle × Player)} (h : promoteFirstHuman l = some (id, l2)) :
    l2.map Prod.fst = l.map Prod.fst := by
  obtain ⟨pre, q, post, h1, _, _, h4⟩ := promoteFirstHuman_some h
  simp [h1, h4]

theorem JsMap.lookup_eq_none_iff {α β : Type} [DecidableEq α] {k : α} {l : List (α × β)} :
    JsMap.lookup k l = none ↔ k ∉ l.map Prod.fst := by
  induction l with
  | nil => simp [JsMap.lookup]
  | cons e rest ih =>
    obtain ⟨k', v'⟩ := e
    by_cases h2 : k' = k
    · simp [JsMap.lookup, h2]
    · simp [JsMap.lookup, h2, ih, Ne.symm h2]

theorem promoteFirstHuman_lookup_none {l : List (Handle × Player)} {id k : Handle}
    {l2 : List (Handle × Player)} (h : promoteFirstHuman l = some (id, l2))
    (hk : JsMap.lookup k l = none) : JsMap.lookup k l2 = none := by
  rw [JsMap.lookup_eq_none_iff] at hk ⊢
  rwa [promoteFirstHuman_keys h]

/-- C3 (amended). In a room whose host `h` is flagged disconnected and in which
another non-bot player remains, `finalizeLeave(h, code)` removes `h` and
promotes exactly one player, the first remaining non-bot player in the
iteration order of `room.players`: with the remaining players in that order
`pre ++ (id, q) :: post`, where `pre` holds only bots and `q` is not a bot,
`room.host` becomes `id`, `q.isHost` becomes true, every other entry is
unchanged, and the room stays in the registry. -/
theorem finalizeLeave_promotes (s : Registry) (code : String) (room : Room) (h : Handle)
    (p : Player)
    (hroom : s.rooms.get code = some room) (hhost : room.host = h)
    (hp : room.players.get h = some p) (hdisc : p.disconnected = true)
    (hother : ∃ e ∈ (room.players.delete h).entries, e.2.isBot = false) :
    ∃ pre id q post,
      (room.players.delete h).entries = pre ++ (id, q) :: post ∧
      (∀ e ∈ pre, e.2.isBot = true) ∧ q.isBot = false ∧
      (finalizeLeave s h code).2
        = some (.left code { room with
            players := ⟨pre ++ (id, { q with isHost := true }) :: post⟩, host := id }) ∧
      getRoom (finalizeLeave s h code).1 code
        = some { room with
            players := ⟨pre ++ (id, { q with isHost := true }) :: post⟩, host := id } ∧
      JsMap.get ⟨pre ++ (id, { q with isHost := true }) :: post⟩ h = none ∧
      id ≠ h := by
  cases hprom : promoteFirstHuman (room.players.delete h).entries with
  | none =>
    rw [promoteFirstHuman_none] at hprom
    obtain ⟨e, he, hb⟩ := hother
    rw [hprom e he] at hb
    cases hb
  | some r =>
    obtain ⟨id, l2⟩ := r
    obtain ⟨pre, q, post, h1, h2, h3, h4⟩ := promoteFirstHuman_some hprom
    have hnone : JsMap.lookup h l2 = none :=
      promoteFirstHuman_lookup_none hprom (JsMap.lookup_filter_self h _)
    subst h4
    have hsize : ¬ (JsMap.mk (pre ++ (id, { q with isHost := true }) :: post)
        : JsMap Handle Player).size = 0 := by
      simp [JsMap.size]
    have hidne : id ≠ h := by
      intro hid
      have := JsMap.lookup_eq_none_iff.mp hnone
      apply this
      simp [hid]
    refine ⟨pre, id, q, post, h1, h2, h3, ?_, ?_, hnone, hidne⟩
    · simp only [finalizeLeave, hroom, hp, hdisc, hhost, hprom, Bool.not_true,
        Bool.false_eq_true, if_false, if_true]
      rw [if_neg hsize]
    · simp only [finalizeLeave, hroom, hp, hdisc, hhost, hprom, getRoom, Bool.not_true,
        Bool.false_eq_true, if_false, if_true]
      rw [if_neg hsize]
      exact JsMap.get_set_self _ _ _

/-- A concrete instance of C3: the disconnected host "Ava" of room `ABCD` is
removed and "Ben" becomes host. -/
theorem finalizeLeave_promotes_witness :
    demoHostAway.rooms.get "ABCD" = some demoRoomHostAway ∧
    ∃ pre id q post,
      (demoRoomHostAway.players.delete "s1").entries = pre ++ (id, q) :: post ∧
      (∀ e ∈ pre, e.2.isBot = true) ∧ q.isBot = false ∧
      (finalizeLeave demoHostAway "s1" "ABCD").2
        = some (.left "ABCD" { demoRoomHostAway with
            players := ⟨pre ++ (id, { q with isHost := true }) :: post⟩, host := id }) ∧
      getRoom (finalizeLeave demoHostAway "s1" "ABCD").1 "ABCD"
        = some { demoRoomHostAway with
            players := ⟨pre ++ (id, { q with isHost := true }) :: post⟩, host := id } ∧
      JsMap.get ⟨pre ++ (id, { q with isHost := true }) :: post⟩ "s1" = none ∧
      id ≠ "s1" :=
  ⟨by decide,
   finalizeLeave_promotes demoHostAway "ABCD" demoRoomHostAway "s1"
     { Player.fresh "Ava" true with disconnected := true }
     (by decide) (by decide) (by decide) (by decide) (by decide)⟩

/-- C3 as stated fails. "Ava" creates room `ABCD`, then "Ben" joins, then
"Cat". Ben's socket drops and Ben is restored by `rejoinRoom` on a new socket,
which moves his entry behind Cat's. Then the host's socket drops and her grace
period ends: `finalizeLeave` promotes "Cat", although "Ben", who joined before
"Cat", is still in the room and is not a bot. -/
theorem finalizeLeave_promotes_later_joiner :
    roster demoThree "ABCD"
      = some [("s1", "Ava", true, false), ("s2", "Ben", false, false),
              ("s3", "Cat", false, false)] ∧
    demoBenRejoin.2.isRejoined = true ∧
    roster demoBenRejoin.1 "ABCD"
      = some [("s1", "Ava", true, false), ("s3", "Cat", false, false),
              ("s4", "Ben", false, false)] ∧
    (getRoom (disconnectPlayer demoBenRejoin.1 "s1" 2000).1 "ABCD").map
        (fun r => (r.host, (r.players.get "s1").map (·.disconnected)))
      = some ("s1", some true) ∧
    roster demoHostExpired.1 "ABCD"
      = some [("s3", "Cat", true, false), ("s4", "Ben", false, false)] ∧
    (getRoom demoHostExpired.1 "ABCD").map (·.host) = some "s3" :=
  ⟨by decide, by decide, by decide, by decide, by decide, by decide⟩

/-- C6. `finalizeLeave` returns null and leaves the registry unchanged when
the room does not exist, when the handle is not a player of the room, or when
the player's disconnected flag is not set; and a second `finalizeLeave(h, code)`
right after a first one returns null and changes nothing, so calling it twice
yields the same registry as calling it once. -/
theorem finalizeLeave_idempotent (s : Registry) (h : Handle) (code : String) :
    ((s.rooms.get code = none ∨
        ∃ room, s.rooms.get code = some room ∧
          (room.players.get h = none ∨
            ∃ p, room.players.get h = some p ∧ p.disconnected = false)) →
      finalizeLeave s h code = (s, none)) ∧
    finalizeLeave (finalizeLeave s h code).1 h code = ((finalizeLeave s h code).1, none) := by
  constructor
  · rintro (hnone | ⟨room, hroom, hnone | ⟨p, hp, hd⟩⟩)
    · simp [finalizeLeave, hnone]
    · simp [finalizeLeave, hroom, hnone]
    · simp [finalizeLeave, hroom, hp, hd]
  · have key : ∀ s1 : Registry,
        (s1.rooms.get code = none ∨
          ∃ room, s1.rooms.get code = some room ∧ room.players.get h = none) →
        finalizeLeave s1 h code = (s1, none) := by
      rintro s1 (hnone | ⟨room, hroom, hnone⟩)
      · simp [finalizeLeave, hnone]
      · simp [finalizeLeave, hroom, hnone]
    cases hroom : s.rooms.get code with
    | none =>
      have h1 : finalizeLeave s h code = (s, none) := by simp [finalizeLeave, hroom]
      rw [h1]
      exact h1
    | some room =>
      cases hp : room.players.get h with
      | none =>
        have h1 : finalizeLeave s h code = (s, none) := by simp [finalizeLeave, hroom, hp]
        rw [h1]
        exact h1
      | some p =>
        cases hd : p.disconnected with
        | false =>
          have h1 : finalizeLeave s h code = (s, none) := by
            simp [finalizeLeave, hroom, hp, hd]
          rw [h1]
          exact h1
        | true =>
          apply key
          simp only [finalizeLeave, hroom, hp, hd, Bool.not_true, Bool.false_eq_true, if_false]
          split
          · split
            · left
              exact JsMap.get_delete_self _ _
            · rename_i id entries2 hprom
              split
              · left
                exact JsMap.get_delete_self _ _
              · right
                refine ⟨_, JsMap.get_set_self _ _ _, ?_⟩
                exact promoteFirstHuman_lookup_none hprom (JsMap.lookup_filter_self h _)
          · split
            · left
              exact JsMap.get_delete_self _ _
            · right
              exact ⟨_, JsMap.get_set_self _ _ _, JsMap.get_delete_self _ _⟩

/-- A concrete instance of C6: in room `ABCD` the connected player on socket
`s2` is not removed by `finalizeLeave`. -/
theorem finalizeLeave_idempotent_witness :
    demoHostAway.rooms.get "ABCD" = some demoRoomHostAway ∧
    demoRoomHostAway.players.get "s2" = some (Player.fresh "Ben" false) ∧
    finalizeLeave demoHostAway "s2" "ABCD" = (demoHostAway, none) :=
  ⟨by decide, by decide,
   (finalizeLeave_idempotent demoHostAway "s2" "ABCD").1
     (Or.inr ⟨demoRoomHostAway, by decide,
       Or.inr ⟨Player.fresh "Ben" false, by decide, by decide⟩⟩)⟩

/-! ## The registry invariant -/

section Invariant

variable {α β : Type} [DecidableEq α]

theorem JsMap.mem_upsert {k : α} {v : β} {l : List (α × β)} {e : α × β}
    (h : e ∈ JsMap.upsert k v l) : e = (k, v) ∨ e ∈ l := by
  induction l with
  | nil => simpa [JsMap.upsert] using h
  | cons e0 rest ih =>
    obtain ⟨k', v'⟩ := e0
    by_cases h2 : k' = k
    · simp only [JsMap.upsert, h2, if_true, List.mem_cons] at h
      rcases h with h | h
      · exact Or.inl h
      · exact Or.inr (List.mem_cons_of_mem _ h)
    · simp only [JsMap.upsert, h2, if_false, List.mem_cons] at h
      rcases h with h | h
      · exact Or.inr (by simp [h])
      · rcases ih h with h | h
        · exact Or.inl h
        · exact Or.inr (List.mem_cons_of_mem _ h)

theorem JsMap.keys_upsert (k : α) (v : β) (l : List (α × β)) :
    (JsMap.upsert k v l).map Prod.fst
      = if k ∈ l.map Prod.fst then l.map Prod.fst else l.map Prod.fst ++ [k] := by
  induction l with
  | nil => simp [JsMap.upsert]
  | cons e0 rest ih =>
    obtain ⟨k', v'⟩ := e0
    by_cases h2 : k' = k
    · simp [JsMap.upsert, h2]
    · have h3 : ¬ k = k' := fun h => h2 h.symm
      simp only [JsMap.upsert, h2, if_false, List.map_cons, ih, List.mem_cons, h3, false_or]
      split <;> simp

theorem JsMap.nodup_keys_upsert (k : α) (v : β) {l : List (α × β)}
    (h : (l.map Prod.fst).Nodup) : ((JsMap.upsert k v l).map Prod.fst).Nodup := by
  rw [JsMap.keys_upsert]
  split
  · exact h
  · rename_i hk
    rw [List.nodup_append]
    refine ⟨h, List.nodup_singleton k, ?_⟩
    intro a ha hb
    simp only [List.mem_singleton] at hb
    subst hb
    exact hk ha

omit [DecidableEq α] in
theorem JsMap.nodup_keys_filter (q : α × β → Bool) {l : List (α × β)}
    (h : (l.map Prod.fst).Nodup) : ((l.filter q).map Prod.fst).Nodup :=
  List.Nodup.sublist ((List.filter_sublist l).map Prod.fst) h

theorem JsMap.lookup_of_mem_nodup {k : α} {v : β} {l : List (α × β)}
    (hnd : (l.map Prod.fst).Nodup) (hmem : (k, v) ∈ l) : JsMap.lookup k l = some v := by
  induction l with
  | nil => simp at hmem
  | cons e0 rest ih =>
    obtain ⟨k', v'⟩ := e0
    simp only [List.map_cons, List.nodup_cons] at hnd
    rcases List.mem_cons.mp hmem with h | h
    · simp only [Prod.mk.injEq] at h
      obtain ⟨rfl, rfl⟩ := h
      simp [JsMap.lookup]
    · have hne : k' ≠ k := by
        intro hk
        apply hnd.1
        rw [hk]
        exact List.mem_map_of_mem Prod.fst h
      simp [JsMap.lookup, hne, ih hnd.2 h]

end Invariant

theorem playersWF_set {players : JsMap Handle Player} (hwf : PlayersWF players) (k : Handle)
    {v : Player} (hv : v.disconnected = true → v.isBot = false) :
    PlayersWF (players.set k v) := by
  constructor
  · intro e he
    rcases JsMap.mem_upsert he with rfl | h
    · exact hv
    · exact hwf.away_human e h
  · exact JsMap.nodup_keys_upsert k v hwf.keys_nodup

theorem playersWF_delete {players : JsMap Handle Player} (hwf : PlayersWF players)
    (k : Handle) : PlayersWF (players.delete k) := by
  constructor
  · intro e he
    exact hwf.away_human e (List.mem_of_mem_filter he)
  · exact JsMap.nodup_keys_filter _ hwf.keys_nodup

theorem hostIsHuman_set {host : Handle} {players : JsMap Handle Player}
    (hh : HostIsHuman host players) (k : Handle) {v : Player}
    (hv : host = k → v.isBot = false) : HostIsHuman host (players.set k v) := by
  by_cases hk : host = k
  · subst hk
    exact ⟨v, JsMap.get_set_self _ _ _, hv rfl⟩
  · obtain ⟨p, hp, hb⟩ := hh
    exact ⟨p, by rw [JsMap.get_set_ne _ hk]; exact hp, hb⟩

theorem hostIsHuman_delete {host : Handle} {players : JsMap Handle Player}
    (hh : HostIsHuman host players) {k : Handle} (hk : host ≠ k) :
    HostIsHuman host (players.delete k) := by
  obtain ⟨p, hp, hb⟩ := hh
  exact ⟨p, by rw [JsMap.get_delete_ne _ hk]; exact hp, hb⟩

theorem promoteFirstHuman_inv {players : JsMap Handle Player} (hwf : PlayersWF players)
    {id : Handle} {l2 : List (Handle × Player)}
    (h : promoteFirstHuman players.entries = some (id, l2)) :
    HostIsHuman id ⟨l2⟩ ∧ PlayersWF ⟨l2⟩ := by
  obtain ⟨pre, q, post, h1, h2, h3, h4⟩ := promoteFirstHuman_some h
  have hkeys : l2.map Prod.fst = players.entries.map Prod.fst := promoteFirstHuman_keys h
  have hnd : (l2.map Prod.fst).Nodup := by
    rw [hkeys]
    exact hwf.keys_nodup
  constructor
  · refine ⟨{ q with isHost := true }, ?_, h3⟩
    apply JsMap.lookup_of_mem_nodup hnd
    simp [h4]
  · constructor
    · intro e he
      simp only [h4, List.mem_append, List.mem_cons] at he
      rcases he with he | rfl | he
      · exact hwf.away_human e (by simp [h1, he])
      · intro _
        exact h3
      · exact hwf.away_human e (by simp [h1, he])
    · exact hnd

theorem registryInv_of_get {s : Registry} (hs : RegistryInv s) {code : String} {room : Room}
    (h : s.rooms.get code = some room) : RoomInv room :=
  hs (code, room) (JsMap.mem_of_lookup_some h)

theorem registryInv_set {s : Registry} (hs : RegistryInv s) (code : String) {room : Room}
    (hr : RoomInv room) (g : JsMap Handle GraceEntry) (n : Nat) :
    RegistryInv ⟨s.rooms.set code room, g, n⟩ := by
  intro e he
  rcases JsMap.mem_upsert he with rfl | h
  · exact hr
  · exact hs e h

theorem registryInv_delete {s : Registry} (hs : RegistryInv s) (code : String)
    (g : JsMap Handle GraceEntry) (n : Nat) :
    RegistryInv ⟨s.rooms.delete code, g, n⟩ := by
  intro e he
  exact hs e (List.mem_of_mem_filter he)

theorem createRoom_inv {s s1 : Registry} {room : Room} {hostId : Handle} {hostName : String}
    {now : Nat} {draws : List Nat} (hs : RegistryInv s)
    (h : createRoom s hostId hostName now draws = some (s1, room)) : RegistryInv s1 := by
  unfold createRoom at h
  split at h
  · simp at h
  · rename_i code _
    simp only [Option.some.injEq, Prod.mk.injEq] at h
    obtain ⟨rfl, _⟩ := h
    apply registryInv_set hs
    constructor
    · exact ⟨Player.fresh hostName true, JsMap.get_set_self _ _ _, rfl⟩
    · constructor
      · intro e he
        simp only [JsMap.set, JsMap.empty, JsMap.upsert, List.mem_singleton] at he
        subst he
        intro hd
        simp [Player.fresh] at hd
      · simp [JsMap.keys, JsMap.set, JsMap.empty, JsMap.upsert]

theorem joinRoom_inv {s : Registry} (hs : RegistryInv s) (socketId : Handle)
    (code name : String) : RegistryInv (joinRoom s socketId code name).1 := by
  unfold joinRoom
  cases hget : s.rooms.get code with
  | none => exact hs
  | some room =>
    have hr := registryInv_of_get hs hget
    simp only
    split
    · exact hs
    · split
      · exact hs
      · apply registryInv_set hs
        constructor
        · exact hostIsHuman_set hr.host_human _ (fun _ => rfl)
        · exact playersWF_set hr.wf _ (fun hd => by simp [Player.fresh] at hd)

theorem rejoinRoom_inv {s : Registry} (hs : RegistryInv s) (socketId : Handle)
    (code name : String) : RegistryInv (rejoinRoom s socketId code name).1 := by
  unfold rejoinRoom
  cases hget : s.rooms.get code with
  | none => exact hs
  | some room =>
    have hr := registryInv_of_get hs hget
    simp only
    cases hfind : findDisconnected room.players name with
    | none =>
      simp only
      split
      · exact hs
      · exact joinRoom_inv hs _ _ _
    | some r =>
      obtain ⟨oldId, oldPlayer⟩ := r
      have hmem : (oldId, oldPlayer) ∈ room.players.entries := List.mem_of_find?_eq_some hfind
      have hprop := List.find?_some hfind
      simp only [Bool.and_eq_true, decide_eq_true_eq] at hprop
      have hhuman : oldPlayer.isBot = false := hr.wf.away_human _ hmem hprop.2
      apply registryInv_set hs
      constructor
      · show HostIsHuman (if room.host = oldId then socketId else room.host)
          ((room.players.delete oldId).set socketId { oldPlayer with disconnected := false })
        split
        · exact ⟨_, JsMap.get_set_self _ _ _, hhuman⟩
        · rename_i hne
          exact hostIsHuman_set (hostIsHuman_delete hr.host_human hne) _ (fun _ => hhuman)
      · exact playersWF_set (playersWF_delete hr.wf oldId) _ (fun hd => by simp at hd)

theorem disconnectScan_spec {socketId : Handle} {rooms : List (String × Room)}
    {code : String} {room1 : Room} {player1 : Player}
    (h : disconnectScan socketId rooms = some (code, room1, player1)) :
    ∃ room player, (code, room) ∈ rooms ∧ room.players.get socketId = some player ∧
      player.isBot = false ∧ player1 = { player with disconnected := true } ∧
      room1 = { room with players := room.players.set socketId player1 } := by
  induction rooms with
  | nil => simp [disconnectScan] at h
  | cons e rest ih =>
    obtain ⟨c, room⟩ := e
    simp only [disconnectScan] at h
    cases hget : room.players.get socketId with
    | none =>
      simp only [hget] at h
      obtain ⟨room0, player, hm, rest1⟩ := ih h
      exact ⟨room0, player, List.mem_cons_of_mem _ hm, rest1⟩
    | some player =>
      simp only [hget] at h
      rcases Bool.eq_false_or_eq_true player.isBot with hb | hb
      · simp only [hb, if_true] at h
        obtain ⟨room0, player0, hm, rest1⟩ := ih h
        exact ⟨room0, player0, List.mem_cons_of_mem _ hm, rest1⟩
      · have h' : some (c,
            ({ room with
                players := room.players.set socketId { player with disconnected := true } } : Room),
            ({ player with disconnected := true } : Player))
            = some (code, room1, player1) := by
          rw [← h]
          simp [hb]
        simp only [Option.some.injEq, Prod.mk.injEq] at h'
        obtain ⟨rfl, rfl, rfl⟩ := h'
        exact ⟨room, player, by simp, hget, hb, rfl, rfl⟩

theorem disconnectPlayer_inv {s : Registry} (hs : RegistryInv s) (socketId : Handle)
    (now : Nat) : RegistryInv (disconnectPlayer s socketId now).1 := by
  unfold disconnectPlayer
  cases hscan : disconnectScan socketId s.rooms.entries with
  | none => exact hs
  | some r =>
    obtain ⟨code, room1, player1⟩ := r
    obtain ⟨room, player, hm, hget, hb, rfl, rfl⟩ := disconnectScan_spec hscan
    have hr := hs _ hm
    apply registryInv_set hs
    constructor
    · exact hostIsHuman_set hr.host_human _ (fun _ => hb)
    · exact playersWF_set hr.wf _ (fun _ => hb)

theorem leave_tail_inv {s : Registry} (hs : RegistryInv s) {room : Room} (hr : RoomInv room)
    (socketId : Handle) (code : String) (g : JsMap Handle GraceEntry) :
    RegistryInv
      (if room.host = socketId then
        match promoteFirstHuman (room.players.delete socketId).entries with
        | none => ((⟨s.rooms.delete code, g, s.botCounter⟩ : Registry), some (LeaveResult.closed code))
        | some (id, entries2) =>
          if (JsMap.mk entries2 : JsMap Handle Player).size = 0 then
            (⟨s.rooms.delete code, g, s.botCounter⟩, some (.closed code))
          else (⟨s.rooms.set code { room with players := ⟨entries2⟩, host := id }, g,
                  s.botCounter⟩,
                some (.left code { room with players := ⟨entries2⟩, host := id }))
      else
        if (room.players.delete socketId).size = 0 then
          (⟨s.rooms.delete code, g, s.botCounter⟩, some (.closed code))
        else (⟨s.rooms.set code { room with players := room.players.delete socketId }, g,
                s.botCounter⟩,
              some (.left code { room with players := room.players.delete socketId }))).1 := by
  split
  · split
    · exact registryInv_delete hs _ _ _
    · rename_i id entries2 hprom
      split
      · exact registryInv_delete hs _ _ _
      · apply registryInv_set hs
        have := promoteFirstHuman_inv (playersWF_delete hr.wf socketId) hprom
        exact ⟨this.1, this.2⟩
  · rename_i hne
    split
    · exact registryInv_delete hs _ _ _
    · apply registryInv_set hs
      exact ⟨hostIsHuman_delete hr.host_human hne, playersWF_delete hr.wf _⟩

theorem finalizeLeave_inv {s : Registry} (hs : RegistryInv s) (socketId : Handle)
    (code : String) : RegistryInv (finalizeLeave s socketId code).1 := by
  unfold finalizeLeave
  cases hget : s.rooms.get code with
  | none => exact hs
  | some room =>
    have hr := registryInv_of_get hs hget
    simp only
    cases hp : room.players.get socketId with
    | none => exact hs
    | some player =>
      simp only
      split
      · exact hs
      · exact leave_tail_inv hs hr socketId code s.graceTimers

theorem leaveRoom_inv {s : Registry} (hs : RegistryInv s) (socketId : Handle) :
    RegistryInv (leaveRoom s socketId).1 := by
  unfold leaveRoom
  simp only
  cases hfind : findRoomOf socketId s.rooms with
  | none => exact hs
  | some r =>
    obtain ⟨code, room⟩ := r
    have hr : RoomInv room := hs _ (List.mem_of_find?_eq_some hfind)
    exact leave_tail_inv hs hr socketId code (s.graceTimers.delete socketId)

theorem reachable_inv {s : Registry} (h : Reachable s) : RegistryInv s := by
  induction h with
  | start =>
    intro e he
    simp [Registry.empty, JsMap.empty] at he
  | createRoom hostId hostName now draws _ hc ih => exact createRoom_inv ih hc
  | joinRoom socketId code name _ ih => exact joinRoom_inv ih _ _ _
  | rejoinRoom socketId code name _ ih => exact rejoinRoom_inv ih _ _ _
  | disconnectPlayer socketId now _ ih => exact disconnectPlayer_inv ih _ _
  | finalizeLeave socketId code _ ih => exact finalizeLeave_inv ih _ _
  | leaveRoom socketId _ ih => exact leaveRoom_inv ih _
  | @createBot s room code now rName rDiff _ hget hfresh ih =>
    have hr := registryInv_of_get ih hget
    apply registryInv_set ih
    have hne : room.host ≠ botId (s.botCounter + 1) now := by
      intro heq
      obtain ⟨p, hp, _⟩ := hr.host_human
      rw [heq] at hp
      simp [JsMap.has, hp] at hfresh
    constructor
    · exact hostIsHuman_set hr.host_human _ (fun heq => absurd heq hne)
    · exact playersWF_set hr.wf _ (fun hd => by simp at hd)
  | @removeBot s room code bot _ hget ih =>
    have hr := registryInv_of_get ih hget
    apply registryInv_set ih
    unfold removeBot
    cases hp : room.players.get bot with
    | none => exact hr
    | some player =>
      simp only
      split
      · exact hr
      · rename_i hb
        have hne : room.host ≠ bot := by
          intro heq
          obtain ⟨p, hp2, hb2⟩ := hr.host_human
          rw [heq, hp] at hp2
          simp only [Option.some.injEq] at hp2
          subst hp2
          simp [hb2] at hb
        exact ⟨hostIsHuman_delete hr.host_human hne, playersWF_delete hr.wf _⟩

/-! ## Host and room lifetime -/

theorem reachable_demoCreated : Reachable demoCreated :=
  @Reachable.createRoom _ _ demoRoom "s1" "Ava" 0 [0, 1, 2, 3] Reachable.start (by decide)

theorem reachable_demoHostAway : Reachable demoHostAway :=
  Reachable.disconnectPlayer "s1" 1000 (Reachable.joinRoom "s2" "ABCD" "Ben" reachable_demoCreated)

theorem reachable_demoSoloAway : Reachable demoSoloAway :=
  Reachable.disconnectPlayer "s1" 1000 reachable_demoCreated

/-- C4 (amended). In every registry reachable through `createRoom`, `joinRoom`,
`rejoinRoom`, `disconnectPlayer`, `finalizeLeave`, `leaveRoom`, `createBot` and
`removeBot`, the host handle of every live room is the handle of a player of
that room that is not a bot; that player may be flagged disconnected. -/
theorem host_is_human_player (s : Registry) (hs : Reachable s) (code : String) (room : Room)
    (hroom : getRoom s code = some room) :
    ∃ p, room.players.get room.host = some p ∧ p.isBot = false :=
  (registryInv_of_get (reachable_inv hs) hroom).host_human

/-- A concrete instance of C4 (amended): room `ABCD` while its host is away. -/
theorem host_is_human_player_witness :
    Reachable demoHostAway ∧ getRoom demoHostAway "ABCD" = some demoRoomHostAway ∧
    ∃ p, demoRoomHostAway.players.get demoRoomHostAway.host = some p ∧ p.isBot = false :=
  ⟨reachable_demoHostAway, by decide,
   host_is_human_player demoHostAway reachable_demoHostAway "ABCD" demoRoomHostAway (by decide)⟩

/-- C4 as stated fails: after "Ava" created room `ABCD`, "Ben" joined and Ava's
socket disconnected, the room has a connected human player ("Ben"), yet
`room.host` is still the handle of "Ava", who is flagged disconnected. -/
theorem host_connected_counterexample :
    Reachable demoHostAway ∧ getRoom demoHostAway "ABCD" = some demoRoomHostAway ∧
    hasConnectedHuman demoRoomHostAway = true ∧
    hostIsConnectedHuman demoRoomHostAway = false :=
  ⟨reachable_demoHostAway, by decide, by decide, by decide⟩

/-- C5. In every reachable registry: when `finalizeLeave` removes a player
(a player of the room flagged disconnected) and only bots remain, the call
returns `{code, closed: true}` and `getRoom(code)` is null afterwards; the
same holds for `leaveRoom` and the room it removes the player from; and every
room in the registry has at least one player that is not a bot. -/
theorem room_closed_without_humans (s : Registry) (hs : Reachable s) :
    (∀ (h : Handle) (code : String) (room : Room) (p : Player),
        s.rooms.get code = some room → room.players.get h = some p → p.disconnected = true →
        (∀ e ∈ (room.players.delete h).entries, e.2.isBot = true) →
        (finalizeLeave s h code).2 = some (.closed code) ∧
        getRoom (finalizeLeave s h code).1 code = none) ∧
    (∀ (h : Handle) (code : String) (room : Room),
        findRoomOf h s.rooms = some (code, room) →
        (∀ e ∈ (room.players.delete h).entries, e.2.isBot = true) →
        (leaveRoom s h).2 = some (.closed code) ∧
        getRoom (leaveRoom s h).1 code = none) ∧
    (∀ (code : String) (room : Room), getRoom s code = some room →
        ∃ e ∈ room.players.entries, e.2.isBot = false) := by
  have hinv := reachable_inv hs
  have hostcase : ∀ (room : Room) (h : Handle), RoomInv room →
      (∀ e ∈ (room.players.delete h).entries, e.2.isBot = true) →
      room.host = h ∧ promoteFirstHuman (room.players.delete h).entries = none := by
    intro room h hr hbots
    constructor
    · by_contra hne
      obtain ⟨q, hq, hb⟩ := hostIsHuman_delete hr.host_human hne
      have := hbots _ (JsMap.mem_of_lookup_some hq)
      simp [hb] at this
    · exact promoteFirstHuman_none.mpr hbots
  refine ⟨?_, ?_, ?_⟩
  · intro h code room p hroom hp hdisc hbots
    obtain ⟨hhost, hprom⟩ := hostcase room h (registryInv_of_get hinv hroom) hbots
    simp only [finalizeLeave, hroom, hp, hdisc, hhost, hprom, getRoom, Bool.not_true,
      Bool.false_eq_true, if_false, if_true, true_and]
    exact JsMap.get_delete_self _ _
  · intro h code room hfind hbots
    have hr : RoomInv room := hinv _ (List.mem_of_find?_eq_some hfind)
    obtain ⟨hhost, hprom⟩ := hostcase room h hr hbots
    simp only [leaveRoom, hfind, hhost, hprom, getRoom, if_true, true_and]
    exact JsMap.get_delete_self _ _
  · intro code room hroom
    obtain ⟨p, hp, hb⟩ := (registryInv_of_get hinv hroom).host_human
    exact ⟨_, JsMap.mem_of_lookup_some hp, hb⟩

/-- A concrete instance of C5: "Ava", alone in room `ABCD`, disconnected; when
her grace period ends the room is closed. -/
theorem room_closed_without_humans_witness :
    Reachable demoSoloAway ∧ demoSoloAway.rooms.get "ABCD" = some demoRoomSoloAway ∧
    (finalizeLeave demoSoloAway "s1" "ABCD").2 = some (.closed "ABCD") ∧
    getRoom (finalizeLeave demoSoloAway "s1" "ABCD").1 "ABCD" = none :=
  ⟨reachable_demoSoloAway, by decide,
   (room_closed_without_humans demoSoloAway reachable_demoSoloAway).1 "s1" "ABCD"
     demoRoomSoloAway { Player.fresh "Ava" true with disconnected := true }
     (by decide) (by decide) (by decide) (by decide)⟩

/-! ## Round-ending transitions fire once -/

/-- C7. For every module and every room holding a game state of that module:
a second invocation of the round-ending transition right after a first one
emits nothing and leaves the room (phase, game state, every player's score,
pending timers) exactly as the first invocation left it; a single invocation
emits at most one message; and when the round has not been ended yet the
first invocation emits exactly one round-result broadcast to the room and
leaves the game in the module's result phase. -/
theorem roundEnd_idempotent (g : GameId) (now1 now2 : Nat) (w1 w2 : Option Handle)
    (room : Room) (gs : GameState) (hgs : room.gameState = some gs) (hg : gs.gameId = g) :
    (roundEnd g now2 w2 (roundEnd g now1 w1 room).room).room = (roundEnd g now1 w1 room).room ∧
    (roundEnd g now2 w2 (roundEnd g now1 w1 room).room).emits = [] ∧
    (roundEnd g now2 w2 (roundEnd g now1 w1 room).room).threw = false ∧
    (roundEnd g now1 w1 room).emits.length ≤ 1 ∧
    (roundOpen gs = true →
      (roundEnd g now1 w1 room).threw = false ∧
      (∃ e, (roundEnd g now1 w1 room).emits = [e] ∧ isRoundResult g room.code e = true) ∧
      (roundEnd g now1 w1 room).room.gameState.map GameState.phase = some (resultPhase g)) := by
  cases gs with
  | reactionRace gs =>
    subst hg
    simp only [GameState.gameId, roundEnd, ReactionRace._roundResult, hgs]
    by_cases h : gs.resultFired = true
    · simp [h, hgs, roundOpen]
    · simp [h, Room.setTimeout, roundOpen, isRoundResult, Payload.phase, resultPhaseName,
        resultPhase, GameState.phase]
  | triviaBlitz gs =>
    subst hg
    simp only [GameState.gameId, roundEnd, TriviaBlitz._showAnswer, hgs]
    by_cases h : gs.answerShown = true
    · simp [h, hgs, roundOpen]
    · by_cases h2 : gs.phase = .finished
      · simp [h, h2, hgs, roundOpen]
      · cases h3 : roundItem gs.questions gs.round with
        | none => simp [h, h2, h3, hgs, roundOpen]
        | some q =>
          simp [h, h2, h3, Room.setTimeout, roundOpen, isRoundResult, Payload.phase,
            resultPhaseName, resultPhase, GameState.phase]
  | tapFrenzy gs =>
    subst hg
    simp only [GameState.gameId, roundEnd, TapFrenzy._roundResult, hgs]
    by_cases h : gs.phase = .result
    · simp [h, hgs, roundOpen]
    · simp [h, Room.setTimeout, roundOpen, isRoundResult, Payload.phase, resultPhaseName,
        resultPhase, GameState.phase]
  | wordScramble gs =>
    subst hg
    simp only [GameState.gameId, roundEnd, WordScramble._revealAnswer, hgs]
    by_cases h : gs.revealFired = true
    · simp [h, hgs, roundOpen]
    · simp [h, Room.setTimeout, roundOpen, isRoundResult, Payload.phase, resultPhaseName,
        resultPhase, GameState.phase]
  | emojiMatch gs =>
    subst hg
    simp only [GameState.gameId, roundEnd, EmojiMatch._roundResult, hgs]
    by_cases h : gs.phase = .roundResult ∨ gs.phase = .finished
    · rcases h with h | h <;> simp [h, hgs, roundOpen]
    · have h1 : ¬ gs.phase = .roundResult := fun x => h (Or.inl x)
      have h2 : ¬ gs.phase = .finished := fun x => h (Or.inr x)
      simp [h1, h2, Room.setTimeout, roundOpen, isRoundResult, Payload.phase, resultPhaseName,
        resultPhase, GameState.phase]
  | mathBlitz gs =>
    subst hg
    simp only [GameState.gameId, roundEnd, MathBlitz._roundResult, hgs]
    by_cases h : gs.phase = .result
    · simp [h, hgs, roundOpen]
    · cases h3 : roundItem gs.problems gs.round with
      | none => simp [h, h3, roundOpen]
      | some q =>
        simp [h, h3, Room.setTimeout, roundOpen, isRoundResult, Payload.phase,
          resultPhaseName, resultPhase, GameState.phase]
  | simonSays gs =>
    subst hg
    simp only [GameState.gameId, roundEnd, SimonSays._resolveRound, hgs]
    by_cases h : gs.phase = .result
    · simp [h, hgs, roundOpen]
    · simp [h, Room.setTimeout, roundOpen, isRoundResult, Payload.phase, resultPhaseName,
        resultPhase, GameState.phase]
  | colorClash gs =>
    subst hg
    simp only [GameState.gameId, roundEnd, ColorClash._resolveRound, hgs]
    by_cases h : gs.phase = .result
    · simp [h, hgs, roundOpen]
    · simp [h, Room.setTimeout, roundOpen, isRoundResult, Payload.phase, resultPhaseName,
        resultPhase, GameState.phase]

/-- A concrete instance of C7: the first round of the example color-clash
game, ended twice, at 5000 ms and at 6000 ms. -/
theorem roundEnd_idempotent_witness :
    demoGameRoom.gameState = some demoGameState ∧ roundOpen demoGameState = true ∧
    (roundEnd .colorClash 6000 none (roundEnd .colorClash 5000 none demoGameRoom).room).room
      = (roundEnd .colorClash 5000 none demoGameRoom).room ∧
    (roundEnd .colorClash 6000 none (roundEnd .colorClash 5000 none demoGameRoom).room).emits = [] ∧
    ∃ e, (roundEnd .colorClash 5000 none demoGameRoom).emits = [e] ∧
      isRoundResult .colorClash demoGameRoom.code e = true :=
  have h := roundEnd_idempotent .colorClash 5000 6000 none none demoGameRoom demoGameState
    (by decide) (by decide)
  ⟨by decide, by decide, h.1, h.2.1, (h.2.2.2.2 (by decide)).2.1⟩

/-! ## Round timers without a round number -/

/-- C8, the code at a failing input. In the example color-clash game the timer
of round 1 is created at time 0 with handle 0, due at 5000 ms. Both players
answer by 1000 ms, which resolves round 1; round 2 starts at 4000 ms with a
limit of 4700 ms, and the timer of round 1 is still pending. When that timer
runs at 5000 ms it ends round 2: the phase becomes `result` and the result of
round 2 is broadcast, with no answer in it. -/
theorem colorClash_stale_timeout_ends_next_round :
    demoGameRoom.gameState.map GameState.round = some 1 ∧
    demoGameRoom.timers = [⟨0, 5000, .roundTimeout .colorClash⟩] ∧
    demoAfterAnswers.gameState.map GameState.phase = some .result ∧
    demoAfterAnswers.timers
      = [⟨0, 5000, .roundTimeout .colorClash⟩, ⟨1, 4000, .nextRound .colorClash⟩] ∧
    demoRound2.map (fun r => (r.gameState.map GameState.round,
        r.gameState.map GameState.phase, r.timers))
      = some (some 2, some .showing,
          [⟨0, 5000, .roundTimeout .colorClash⟩, ⟨2, 8700, .roundTimeout .colorClash⟩]) ∧
    demoStaleFire.map (fun o => (o.room.gameState.map GameState.round,
        o.room.gameState.map GameState.phase, o.emits))
      = some (some 2, some .result,
          [⟨.room "ABCD", "game:state", .ccResult 2 (some "purple") (some "green") []⟩]) := by
  decide

/-- The round timers of math-blitz and simon-says end whichever round is live
when they run: in the module's input phase the callback is the round-ending
transition itself, whatever the round number. -/
theorem timeout_ends_live_round (now : Nat) (room : Room) :
    (∀ gs, room.gameState = some (.mathBlitz gs) → gs.phase = .solving →
      gs.round ≤ gs.totalRounds →
      MathBlitz.roundTimeout now room = MathBlitz._roundResult now room ∧
      (MathBlitz.roundTimeout now room).room.gameState.map GameState.phase = some .result) ∧
    (∀ gs, room.gameState = some (.simonSays gs) → gs.phase = .input →
      SimonSays.inputTimeout now room = SimonSays._resolveRound now room ∧
      (SimonSays.inputTimeout now room).room.gameState.map GameState.phase = some .result) := by
  constructor
  · intro gs hgs hp hr
    have h1 : MathBlitz.roundTimeout now room = MathBlitz._roundResult now room := by
      simp [MathBlitz.roundTimeout, hgs, hp, hr]
    refine ⟨h1, ?_⟩
    rw [h1]
    simp only [MathBlitz._roundResult, hgs, hp]
    cases roundItem gs.problems gs.round <;> simp [Room.setTimeout, GameState.phase]
  · intro gs hgs hp
    have h1 : SimonSays.inputTimeout now room = SimonSays._resolveRound now room := by
      simp [SimonSays.inputTimeout, hgs, hp]
    refine ⟨h1, ?_⟩
    rw [h1]
    simp [SimonSays._resolveRound, hgs, hp, Room.setTimeout, GameState.phase]

/-! ## Handles left behind by a rejoin -/

/-- C1, the code at a failing input. "Ava" (socket `s1`) and "Ben" (socket `s2`)
play color-clash; "Ava" disconnects and rejoins on socket `s3`. The rejoin is
a restore, the players are now keyed by `s2` and `s3`, and `gameState.streaks`
is still keyed by the old handle `s1`. -/
theorem rejoin_leaves_old_handle :
    (rejoinRoom demoPlayingAway "s3" "ABCD" "Ava").2
      = .rejoined { demoGameRoom with
          host := "s3"
          players := ⟨[("s2", Player.fresh "Ben" false), ("s3", Player.fresh "Ava" true)]⟩ } ∧
    demoGameRoom.gameState.map GameState.handles = some ["s1", "s2"] ∧
    ((rejoinRoom demoPlayingAway "s3" "ABCD" "Ava").1.rooms.get "ABCD").map (handleOccurs "s1")
      = some true := by
  decide

/-- The remap of `rejoinRoom` leaves a simon-says state as it is, and in a
color-clash state it leaves `streaks` as it is: a handle in `survivors`,
`eliminated`, `inputs` or `streaks` stays there. -/
theorem remapGameState_untouched (oldId newId : Handle) :
    (∀ gs : SSState, remapGameState oldId newId (.simonSays gs) = .simonSays gs) ∧
    (∀ gs : CCState, ∃ gs1 : CCState,
      remapGameState oldId newId (.colorClash gs) = .colorClash gs1 ∧
      gs1.streaks = gs.streaks) :=
  ⟨fun _ => rfl, fun _ => ⟨_, rfl, rfl⟩⟩

/-! ## Rejoin without a disconnected namesake -/

theorem findDisconnected_none {players : JsMap Handle Player} {name : String}
    (h : ∀ e ∈ players.entries,
      ¬ (toLowerCase e.2.name = toLowerCase name ∧ e.2.disconnected = true)) :
    findDisconnected players name = none := by
  unfold findDisconnected
  rw [List.find?_eq_none]
  intro e he
  have := h e he
  simpa using this

/-- C12. For an existing room in which no player flagged disconnected has the
name ignoring case: when `room.state` is 'playing', `rejoinRoom` returns the
error 'Game in progress' and leaves the registry unchanged; otherwise it
returns exactly what `joinRoom` returns on the same arguments, with the same
registry afterwards. -/
theorem rejoinRoom_fallback (s : Registry) (socketId : Handle) (code name : String)
    (room : Room) (hroom : s.rooms.get code = some room)
    (hnone : ∀ e ∈ room.players.entries,
      ¬ (toLowerCase e.2.name = toLowerCase name ∧ e.2.disconnected = true)) :
    (room.state = .playing →
      rejoinRoom s socketId code name = (s, .error "Game in progress")) ∧
    (room.state ≠ .playing →
      rejoinRoom s socketId code name = joinRoom s socketId code name) := by
  have hfind := findDisconnected_none hnone
  constructor
  · intro hst
    simp [rejoinRoom, hroom, hfind, hst]
  · intro hst
    simp [rejoinRoom, hroom, hfind, hst]

/-- A concrete instance of C12: "Ben" asks to rejoin room `ABCD`, which is in
the lobby and has no disconnected player; the call is a plain join. -/
theorem rejoinRoom_fallback_witness :
    demoCreated.rooms.get "ABCD" = some demoRoom ∧ demoRoom.state ≠ .playing ∧
    rejoinRoom demoCreated "s2" "ABCD" "Ben" = joinRoom demoCreated "s2" "ABCD" "Ben" :=
  ⟨by decide, by decide,
   (rejoinRoom_fallback demoCreated "s2" "ABCD" "Ben" demoRoom (by decide) (by decide)).2
     (by decide)⟩

/-! ## Rejoining after the grace period -/

theorem findDisconnected_key_ne {players : JsMap Handle Player} {name : String} {h oldId : Handle}
    {oldPlayer : Player} (hnone : players.get h = none)
    (hfind : findDisconnected players name = some (oldId, oldPlayer)) : oldId ≠ h := by
  intro heq
  have hmem : (oldId, oldPlayer) ∈ players.entries := List.mem_of_find?_eq_some hfind
  have := JsMap.lookup_eq_none_iff.mp hnone
  apply this
  rw [← heq]
  exact List.mem_map_of_mem Prod.fst hmem

/-- C13 (amended). After `finalizeLeave` has removed a player flagged
disconnected (handle `h`, name `p.name`), a `rejoinRoom` with the same code
and name never restores that player's entry. If the removal closed the room
the call returns 'Room not found'. Otherwise the room has no entry for `h`,
a restore can only pick an entry under another handle, and when no other
player flagged disconnected has that name the call returns 'Game in progress'
if `room.state` is 'playing' and else exactly what `joinRoom` returns: never
`rejoined`, and on success a new entry with score 0 and isHost false. -/
theorem rejoin_after_expiry (s : Registry) (h socketId : Handle) (code : String) (room : Room)
    (p : Player)
    (hroom : s.rooms.get code = some room) (hp : room.players.get h = some p)
    (hd : p.disconnected = true) :
    ((finalizeLeave s h code).2 = some (.closed code) ∨
      ∃ room1, (finalizeLeave s h code).2 = some (.left code room1)) ∧
    ((finalizeLeave s h code).2 = some (.closed code) →
      rejoinRoom (finalizeLeave s h code).1 socketId code p.name
        = ((finalizeLeave s h code).1, .error "Room not found")) ∧
    (∀ room1, (finalizeLeave s h code).2 = some (.left code room1) →
      (finalizeLeave s h code).1.rooms.get code = some room1 ∧
      room1.players.get h = none ∧
      (∀ oldId oldPlayer, findDisconnected room1.players p.name = some (oldId, oldPlayer) →
        oldId ≠ h) ∧
      (findDisconnected room1.players p.name = none →
        (room1.state = .playing →
          rejoinRoom (finalizeLeave s h code).1 socketId code p.name
            = ((finalizeLeave s h code).1, .error "Game in progress")) ∧
        (room1.state ≠ .playing →
          rejoinRoom (finalizeLeave s h code).1 socketId code p.name
            = joinRoom (finalizeLeave s h code).1 socketId code p.name ∧
          (rejoinRoom (finalizeLeave s h code).1 socketId code p.name).2.isRejoined = false ∧
          ∀ r, (rejoinRoom (finalizeLeave s h code).1 socketId code p.name).2 = .joined r →
            r.players.get socketId = some (Player.fresh p.name false)))) := by
  have hcases : ((finalizeLeave s h code).2 = some (.closed code) ∧
        (finalizeLeave s h code).1.rooms.get code = none) ∨
      ∃ room1, (finalizeLeave s h code).2 = some (.left code room1) ∧
        (finalizeLeave s h code).1.rooms.get code = some room1 ∧
        room1.players.get h = none := by
    simp only [finalizeLeave, hroom, hp, hd, Bool.not_true, Bool.false_eq_true, if_false]
    split
    · split
      · exact Or.inl ⟨rfl, JsMap.get_delete_self _ _⟩
      · rename_i id entries2 hprom
        split
        · exact Or.inl ⟨rfl, JsMap.get_delete_self _ _⟩
        · exact Or.inr ⟨_, rfl, JsMap.get_set_self _ _ _,
            promoteFirstHuman_lookup_none hprom (JsMap.lookup_filter_self h _)⟩
    · split
      · exact Or.inl ⟨rfl, JsMap.get_delete_self _ _⟩
      · exact Or.inr ⟨_, rfl, JsMap.get_set_self _ _ _, JsMap.get_delete_self _ _⟩
  refine ⟨?_, ?_, ?_⟩
  · rcases hcases with ⟨h1, _⟩ | ⟨room1, h1, _⟩
    · exact Or.inl h1
    · exact Or.inr ⟨room1, h1⟩
  · intro hclosed
    rcases hcases with ⟨_, h2⟩ | ⟨room1, h1, _⟩
    · simp [rejoinRoom, h2]
    · rw [h1] at hclosed
      simp at hclosed
  · intro room1 hleft
    rcases hcases with ⟨h1, _⟩ | ⟨room2, h1, h2, h3⟩
    · rw [h1] at hleft
      simp at hleft
    · rw [h1] at hleft
      simp only [Option.some.injEq, LeaveResult.left.injEq, true_and] at hleft
      subst hleft
      refine ⟨h2, h3, fun oldId oldPlayer hf => findDisconnected_key_ne h3 hf, ?_⟩
      intro hnone
      constructor
      · intro hst
        simp [rejoinRoom, h2, hnone, hst]
      · intro hst
        have heq : rejoinRoom (finalizeLeave s h code).1 socketId code p.name
            = joinRoom (finalizeLeave s h code).1 socketId code p.name := by
          simp [rejoinRoom, h2, hnone, hst]
        refine ⟨heq, ?_, ?_⟩
        · rw [heq]
          unfold joinRoom
          rw [h2]
          simp only
          split
          · rfl
          · split <;> rfl
        · intro r hr
          rw [heq] at hr
          unfold joinRoom at hr
          rw [h2] at hr
          simp only at hr
          split at hr
          · simp at hr
          · split at hr
            · simp at hr
            · simp only [JoinResult.joined.injEq] at hr
              subst hr
              exact JsMap.get_set_self _ _ _

/-- A concrete instance of C13 (amended): the host "Ava" of room `ABCD` is
removed when her grace period ends and "Ben" becomes host; a later rejoin as
"Ava" is a plain join. -/
theorem rejoin_after_expiry_witness :
    demoHostAway.rooms.get "ABCD" = some demoRoomHostAway ∧
    (rejoinRoom (finalizeLeave demoHostAway "s1" "ABCD").1 "s3" "ABCD" "Ava").2.isRejoined
      = false ∧
    rejoinRoom (finalizeLeave demoHostAway "s1" "ABCD").1 "s3" "ABCD" "Ava"
      = joinRoom (finalizeLeave demoHostAway "s1" "ABCD").1 "s3" "ABCD" "Ava" :=
  have hw := (rejoin_after_expiry demoHostAway "s1" "s3" "ABCD" demoRoomHostAway
    { Player.fresh "Ava" true with disconnected := true } (by decide) (by decide)
    (by decide)).2.2
    { demoRoomHostAway with
      players := ⟨[("s2", { Player.fresh "Ben" false with isHost := true })]⟩, host := "s2" }
    (by decide)
  ⟨by decide, ((hw.2.2.2 (by decide)).2 (by decide)).2.1, ((hw.2.2.2 (by decide)).2 (by decide)).1⟩

/-- C13 as stated fails: "Ava", alone in room `ABCD`, disconnects and her grace
period ends, which closes the room. A later `rejoinRoom` with the same code
and name is neither a join nor the 'Game in progress' error: it returns
'Room not found'. -/
theorem rejoin_after_expiry_counterexample :
    (finalizeLeave demoSoloAway "s1" "ABCD").2 = some (.closed "ABCD") ∧
    (rejoinRoom (finalizeLeave demoSoloAway "s1" "ABCD").1 "s3" "ABCD" "Ava").2
      = .error "Room not found" :=
  ⟨by decide, by decide⟩

/-! ## Disconnecting -/

theorem disconnectScan_none {h : Handle} {rooms : List (String × Room)}
    (hall : ∀ e ∈ rooms, ∀ p, e.2.players.get h = some p → p.isBot = true) :
    disconnectScan h rooms = none := by
  induction rooms with
  | nil => rfl
  | cons e rest ih =>
    obtain ⟨c, room⟩ := e
    have hrest : ∀ e ∈ rest, ∀ p, e.2.players.get h = some p → p.isBot = true :=
      fun e he => hall e (List.mem_cons_of_mem _ he)
    simp only [disconnectScan]
    cases hget : room.players.get h with
    | none => exact ih hrest
    | some p =>
      have hb := hall (c, room) (by simp) p hget
      simp only [hb, if_true]
      exact ih hrest

theorem disconnectScan_first {h : Handle} {pre post : List (String × Room)} {code : String}
    {room : Room} {p : Player}
    (hpre : ∀ e ∈ pre, ∀ q, e.2.players.get h = some q → q.isBot = true)
    (hp : room.players.get h = some p) (hb : p.isBot = false) :
    disconnectScan h (pre ++ (code, room) :: post)
      = some (code, { room with players := room.players.set h { p with disconnected := true } },
          { p with disconnected := true }) := by
  induction pre with
  | nil => simp [disconnectScan, hp, hb]
  | cons e rest ih =>
    obtain ⟨c, r⟩ := e
    have hrest : ∀ e ∈ rest, ∀ q, e.2.players.get h = some q → q.isBot = true :=
      fun e he => hpre e (List.mem_cons_of_mem _ he)
    simp only [List.cons_append, disconnectScan]
    cases hget : r.players.get h with
    | none => exact ih hrest
    | some q =>
      have hq := hpre (c, r) (by simp) q hget
      simp only [hq, if_true]
      exact ih hrest

theorem JsMap.upsert_at {α β : Type} [DecidableEq α] {k : α} (v w : β) {pre post : List (α × β)}
    (hpre : ∀ e ∈ pre, e.1 ≠ k) :
    JsMap.upsert k v (pre ++ (k, w) :: post) = pre ++ (k, v) :: post := by
  induction pre with
  | nil => simp [JsMap.upsert]
  | cons e rest ih =>
    obtain ⟨k', v'⟩ := e
    have h1 : k' ≠ k := hpre (k', v') (by simp)
    have h2 : ∀ e ∈ rest, e.1 ≠ k := fun e he => hpre e (List.mem_cons_of_mem _ he)
    simp [JsMap.upsert, h1, ih h2]

theorem JsMap.keys_set_of_mem {α β : Type} [DecidableEq α] (m : JsMap α β) {k : α} (v : β) {w : β}
    (h : m.get k = some w) : (m.set k v).keys = m.keys := by
  unfold JsMap.keys JsMap.set
  rw [JsMap.keys_upsert]
  have : k ∈ m.entries.map Prod.fst := by
    by_contra hk
    have := JsMap.lookup_eq_none_iff.mpr hk
    simp [JsMap.get] at h
    rw [h] at this
    cases this
  simp [this]

/-- C14. `disconnectPlayer(h)`: when in every room `h` is the handle of a bot
or of no player, it returns null and changes neither the registry nor the
grace table. Otherwise, in the first room in which `h` is a player that is
not a bot, it sets that player's `disconnected` flag and nothing else: the
player keeps its place, name, score and isHost, every other player and
`room.host`, `state` and `gameState` are unchanged; every other room is
unchanged; the grace table gets an entry for `h` naming that room, due after
the grace period; and the result has `gracePeriod` true. -/
theorem disconnectPlayer_spec (s : Registry) (h : Handle) (now : Nat) :
    ((∀ e ∈ s.rooms.entries, ∀ p, e.2.players.get h = some p → p.isBot = true) →
      disconnectPlayer s h now = (s, none)) ∧
    (∀ (pre post : List (String × Room)) (code : String) (room : Room) (p : Player),
      s.rooms.entries = pre ++ (code, room) :: post →
      (∀ e ∈ pre, ∀ q, e.2.players.get h = some q → q.isBot = true) →
      (∀ e ∈ pre, e.1 ≠ code) →
      room.players.get h = some p → p.isBot = false →
      ∃ room1 : Room,
        disconnectPlayer s h now
          = (⟨⟨pre ++ (code, room1) :: post⟩,
              s.graceTimers.set h ⟨now + GRACE_PERIOD, code, { p with disconnected := true }⟩,
              s.botCounter⟩,
             some ⟨code, room1, true⟩) ∧
        room1.players.get h = some { p with disconnected := true } ∧
        (∀ k, k ≠ h → room1.players.get k = room.players.get k) ∧
        room1.players.keys = room.players.keys ∧
        room1.host = room.host ∧ room1.code = room.code ∧ room1.state = room.state ∧
        room1.gameState = room.gameState ∧
        ((disconnectPlayer s h now).1.graceTimers.get h).map (·.code) = some code) := by
  constructor
  · intro hall
    simp [disconnectPlayer, disconnectScan_none hall]
  · intro pre post code room p hent hpre hcode hp hb
    refine ⟨{ room with players := room.players.set h { p with disconnected := true } }, ?_⟩
    have hscan := @disconnectScan_first h pre post code room p hpre hp hb
    have hset : s.rooms.set code
        { room with players := room.players.set h { p with disconnected := true } }
        = ⟨pre ++ (code, { room with
            players := room.players.set h { p with disconnected := true } }) :: post⟩ := by
      unfold JsMap.set
      rw [hent, JsMap.upsert_at _ _ hcode]
    have heq : disconnectPlayer s h now
        = (⟨⟨pre ++ (code, { room with
              players := room.players.set h { p with disconnected := true } }) :: post⟩,
            s.graceTimers.set h ⟨now + GRACE_PERIOD, code, { p with disconnected := true }⟩,
            s.botCounter⟩,
           some ⟨code, { room with
              players := room.players.set h { p with disconnected := true } }, true⟩) := by
      unfold disconnectPlayer
      rw [hent, hscan]
      simp only
      rw [hset]
    refine ⟨heq, JsMap.get_set_self _ _ _, fun k hk => JsMap.get_set_ne _ hk _,
      JsMap.keys_set_of_mem _ _ hp, rfl, rfl, rfl, rfl, ?_⟩
    rw [heq]
    simp [JsMap.get_set_self]

/-- A concrete instance of C14: the host's socket `s1` of room `ABCD` disconnects
at time 1000 while "Ben" is in the room. -/
theorem disconnectPlayer_spec_witness :
    (joinRoom demoCreated "s2" "ABCD" "Ben").1.rooms.entries
      = [] ++ ("ABCD", demoRoomJoined) :: [] ∧
    demoRoomJoined.players.get "s1" = some (Player.fresh "Ava" true) ∧
    ∃ room1 : Room,
      disconnectPlayer (joinRoom demoCreated "s2" "ABCD" "Ben").1 "s1" 1000
        = (⟨⟨[] ++ ("ABCD", room1) :: []⟩,
            (joinRoom demoCreated "s2" "ABCD" "Ben").1.graceTimers.set "s1"
              ⟨1000 + GRACE_PERIOD, "ABCD", { Player.fresh "Ava" true with disconnected := true }⟩,
            (joinRoom demoCreated "s2" "ABCD" "Ben").1.botCounter⟩,
           some ⟨"ABCD", room1, true⟩) ∧
      room1.players.get "s1" = some { Player.fresh "Ava" true with disconnected := true } ∧
      room1.host = demoRoomJoined.host :=
  ⟨by decide, by decide,
   by
    obtain ⟨room1, h1, h2, _, _, h5, _⟩ :=
      (disconnectPlayer_spec (joinRoom demoCreated "s2" "ABCD" "Ben").1 "s1" 1000).2
        [] [] "ABCD" demoRoomJoined (Player.fresh "Ava" true)
        (by decide) (by simp) (by simp) (by decide) (by decide)
    exact ⟨room1, h1, h2, h5⟩⟩

/-! ## Explicit leave against grace expiry -/

theorem findRoomOf_only {s : Registry} {h : Handle} {c : String} {room : Room} {p : Player}
    (hroom : s.rooms.get c = some room) (hp : room.players.get h = some p)
    (honly : ∀ e ∈ s.rooms.entries, e.2.players.has h = true → e = (c, room)) :
    findRoomOf h s.rooms = some (c, room) := by
  unfold findRoomOf
  cases hfind : s.rooms.entries.find? (fun e => e.2.players.has h) with
  | none =>
    rw [List.find?_eq_none] at hfind
    have hm := JsMap.mem_of_lookup_some hroom
    have := hfind (c, room) hm
    simp [JsMap.has, hp] at this
  | some e =>
    have hm := List.mem_of_find?_eq_some hfind
    have hh := List.find?_some hfind
    rw [honly e hm hh]

theorem JsMap.delete_set_self {α β : Type} [DecidableEq α] (m : JsMap α β) (k : α) (v : β) :
    (m.set k v).delete k = m.delete k := by
  unfold JsMap.delete JsMap.set
  congr 1
  induction m.entries with
  | nil => simp [JsMap.upsert]
  | cons e rest ih =>
    obtain ⟨k', v'⟩ := e
    by_cases h : k' = k
    · simp [JsMap.upsert, h, List.filter_cons]
    · simp [JsMap.upsert, h, List.filter_cons, ih]

theorem JsMap.set_set_self {α β : Type} [DecidableEq α] (m : JsMap α β) (k : α) (v w : β) :
    (m.set k v).set k w = m.set k w := by
  unfold JsMap.set
  congr 1
  induction m.entries with
  | nil => simp [JsMap.upsert]
  | cons e rest ih =>
    obtain ⟨k', v'⟩ := e
    by_cases h : k' = k
    · simp [JsMap.upsert, h]
    · simp [JsMap.upsert, h, ih]

/-- C15. For a handle `h` that is a player of exactly one room `c`:
when the player is flagged disconnected, `leaveRoom(h)` and
`finalizeLeave(h, c)` leave the same rooms (same removal, same promotion, same
destruction) and return the same value; `leaveRoom` also deletes the grace
entry of `h` (which `finalizeLeave` leaves alone); and `leaveRoom` does not
look at the flag: on a player that is not flagged it leaves the rooms and
returns the value that `finalizeLeave` gives once the flag is set. -/
theorem leaveRoom_eq_finalizeLeave (s : Registry) (h : Handle) (c : String) (room : Room)
    (p : Player)
    (hroom : s.rooms.get c = some room) (hp : room.players.get h = some p)
    (honly : ∀ e ∈ s.rooms.entries, e.2.players.has h = true → e = (c, room)) :
    (p.disconnected = true →
      (leaveRoom s h).1.rooms = (finalizeLeave s h c).1.rooms ∧
      (leaveRoom s h).2 = (finalizeLeave s h c).2) ∧
    (leaveRoom s h).1.graceTimers = s.graceTimers.delete h ∧
    (finalizeLeave s h c).1.graceTimers = s.graceTimers ∧
    (leaveRoom s h).1.rooms
      = (finalizeLeave (markDisconnected s c room h p) h c).1.rooms ∧
    (leaveRoom s h).2
      = (finalizeLeave (markDisconnected s c room h p) h c).2 := by
  have hfind := findRoomOf_only hroom hp honly
  refine ⟨?_, ?_, ?_, ?_, ?_⟩
  · intro hd
    simp only [leaveRoom, hfind, finalizeLeave, hroom, hp, hd, Bool.not_true,
      Bool.false_eq_true, if_false]
    constructor
    · split
      · split <;> [rfl; (split <;> rfl)]
      · split <;> rfl
    · split
      · split <;> [rfl; (split <;> rfl)]
      · split <;> rfl
  · simp only [leaveRoom, hfind]
    split
    · split <;> [rfl; (split <;> rfl)]
    · split <;> rfl
  · simp only [finalizeLeave, hroom, hp]
    split
    · rfl
    · split
      · split <;> [rfl; (split <;> rfl)]
      · split <;> rfl
  · simp only [leaveRoom, hfind, finalizeLeave, markDisconnected, JsMap.get_set_self, Bool.not_true,
      Bool.false_eq_true, if_false, JsMap.delete_set_self, JsMap.set_set_self]
    split
    · split <;> [rfl; (split <;> rfl)]
    · split <;> rfl
  · simp only [leaveRoom, hfind, finalizeLeave, markDisconnected, JsMap.get_set_self, Bool.not_true,
      Bool.false_eq_true, if_false, JsMap.delete_set_self, JsMap.set_set_self]
    split
    · split <;> [rfl; (split <;> rfl)]
    · split <;> rfl

/-- A concrete instance of C15: the disconnected host "Ava" of room `ABCD`. -/
theorem leaveRoom_eq_finalizeLeave_witness :
    demoHostAway.rooms.get "ABCD" = some demoRoomHostAway ∧
    (leaveRoom demoHostAway "s1").1.rooms = (finalizeLeave demoHostAway "s1" "ABCD").1.rooms ∧
    (leaveRoom demoHostAway "s1").2 = (finalizeLeave demoHostAway "s1" "ABCD").2 :=
  ⟨by decide,
   (leaveRoom_eq_finalizeLeave demoHostAway "s1" "ABCD" demoRoomHostAway
     { Player.fresh "Ava" true with disconnected := true } (by decide) (by decide)
     (by decide)).1 (by decide)⟩

/-! ## Room capacity -/

theorem JsMap.length_upsert_le {α β : Type} [DecidableEq α] (k : α) (v : β)
    (l : List (α × β)) : (JsMap.upsert k v l).length ≤ l.length + 1 := by
  induction l with
  | nil => simp [JsMap.upsert]
  | cons e rest ih =>
    obtain ⟨k', v'⟩ := e
    by_cases h : k' = k
    · simp [JsMap.upsert, h]
    · simp only [JsMap.upsert, h, if_false, List.length_cons]
      omega

theorem JsMap.size_set_le {α β : Type} [DecidableEq α] (m : JsMap α β) (k : α) (v : β) :
    (m.set k v).size ≤ m.size + 1 :=
  JsMap.length_upsert_le k v m.entries

theorem JsMap.size_delete_le {α β : Type} [DecidableEq α] (m : JsMap α β) (k : α) :
    (m.delete k).size ≤ m.size := by
  unfold JsMap.size JsMap.delete
  exact List.length_filter_le _ _

theorem JsMap.length_filter_lt {α β : Type} [DecidableEq α] {k : α} {v : β}
    {l : List (α × β)} (h : (k, v) ∈ l) :
    (l.filter fun e => !decide (e.1 = k)).length < l.length := by
  induction l with
  | nil => simp at h
  | cons e rest ih =>
    rcases List.mem_cons.mp h with h' | h'
    · subst h'
      have := List.length_filter_le (fun e : α × β => !decide (e.1 = k)) rest
      simp only [List.filter_cons, decide_True, Bool.not_true, Bool.false_eq_true, if_false,
        List.length_cons]
      omega
    · have := ih h'
      simp only [List.filter_cons, List.length_cons]
      split
      · simp only [List.length_cons]
        omega
      · omega

theorem JsMap.size_delete_lt {α β : Type} [DecidableEq α] (m : JsMap α β) {k : α} {v : β}
    (h : (k, v) ∈ m.entries) : (m.delete k).size < m.size :=
  JsMap.length_filter_lt h

theorem promoteFirstHuman_length {l : List (Handle × Player)} {id : Handle}
    {l2 : List (Handle × Player)} (h : promoteFirstHuman l = some (id, l2)) :
    l2.length = l.length := by
  have := congrArg List.length (promoteFirstHuman_keys h)
  simpa using this

theorem roomsCapped_set {s : Registry} (hs : RoomsCapped s) (code : String) {room : Room}
    (hr : room.players.size ≤ 20) (g : JsMap Handle GraceEntry) (n : Nat) :
    RoomsCapped ⟨s.rooms.set code room, g, n⟩ := by
  intro e he
  rcases JsMap.mem_upsert he with rfl | h
  · exact hr
  · exact hs e h

theorem roomsCapped_delete {s : Registry} (hs : RoomsCapped s) (code : String)
    (g : JsMap Handle GraceEntry) (n : Nat) :
    RoomsCapped ⟨s.rooms.delete code, g, n⟩ := by
  intro e he
  exact hs e (List.mem_of_mem_filter he)

theorem joinRoom_capped {s : Registry} (hs : RoomsCapped s) (socketId : Handle)
    (code name : String) : RoomsCapped (joinRoom s socketId code name).1 := by
  unfold joinRoom
  cases hget : s.rooms.get code with
  | none => exact hs
  | some room =>
    simp only
    split
    · exact hs
    · rename_i hsz
      split
      · exact hs
      · apply roomsCapped_set hs
        have := JsMap.size_set_le room.players socketId (Player.fresh name false)
        show (room.players.set socketId (Player.fresh name false)).size ≤ 20
        omega

theorem leave_tail_capped {s : Registry} (hs : RoomsCapped s) {room : Room}
    (hr : room.players.size ≤ 20) (socketId : Handle) (code : String)
    (g : JsMap Handle GraceEntry) :
    RoomsCapped
      (if room.host = socketId then
        match promoteFirstHuman (room.players.delete socketId).entries with
        | none => ((⟨s.rooms.delete code, g, s.botCounter⟩ : Registry), some (LeaveResult.closed code))
        | some (id, entries2) =>
          if (JsMap.mk entries2 : JsMap Handle Player).size = 0 then
            (⟨s.rooms.delete code, g, s.botCounter⟩, some (.closed code))
          else (⟨s.rooms.set code { room with players := ⟨entries2⟩, host := id }, g,
                  s.botCounter⟩,
                some (.left code { room with players := ⟨entries2⟩, host := id }))
      else
        if (room.players.delete socketId).size = 0 then
          (⟨s.rooms.delete code, g, s.botCounter⟩, some (.closed code))
        else (⟨s.rooms.set code { room with players := room.players.delete socketId }, g,
                s.botCounter⟩,
              some (.left code { room with players := room.players.delete socketId }))).1 := by
  have hdel := JsMap.size_delete_le room.players socketId
  split
  · split
    · exact roomsCapped_delete hs _ _ _
    · rename_i id entries2 hprom
      split
      · exact roomsCapped_delete hs _ _ _
      · apply roomsCapped_set hs
        have := promoteFirstHuman_length hprom
        show entries2.length ≤ 20
        unfold JsMap.size at hdel hr
        omega
  · split
    · exact roomsCapped_delete hs _ _ _
    · apply roomsCapped_set hs
      show (room.players.delete socketId).size ≤ 20
      omega

theorem reachableByHandlers_capped {s : Registry} (h : ReachableByHandlers s) :
    RoomsCapped s := by
  induction h with
  | start =>
    intro e he
    simp [Registry.empty, JsMap.empty] at he
  | createRoom hostId hostName now draws _ hc ih =>
    unfold createRoom at hc
    split at hc
    · simp at hc
    · simp only [Option.some.injEq, Prod.mk.injEq] at hc
      obtain ⟨rfl, _⟩ := hc
      apply roomsCapped_set ih
      simp [JsMap.size, JsMap.set, JsMap.empty, JsMap.upsert]
  | joinRoom socketId code name _ ih => exact joinRoom_capped ih _ _ _
  | @rejoinRoom s socketId code name _ ih =>
    unfold rejoinRoom
    cases hget : s.rooms.get code with
    | none => exact ih
    | some room =>
      have hr : room.players.size ≤ 20 := ih _ (JsMap.mem_of_lookup_some hget)
      simp only
      cases hfind : findDisconnected room.players name with
      | none =>
        simp only
        split
        · exact ih
        · exact joinRoom_capped ih _ _ _
      | some r =>
        obtain ⟨oldId, oldPlayer⟩ := r
        have hmem : (oldId, oldPlayer) ∈ room.players.entries := List.mem_of_find?_eq_some hfind
        apply roomsCapped_set ih
        have h1 := JsMap.size_delete_lt room.players hmem
        have h2 := JsMap.size_set_le (room.players.delete oldId) socketId
          { oldPlayer with disconnected := false }
        show ((room.players.delete oldId).set socketId _).size ≤ 20
        omega
  | @addBot s socketId now rName rDiff _ ih =>
    unfold addBotHandler
    cases hfind : findRoomOf socketId s.rooms with
    | none => exact ih
    | some r =>
      obtain ⟨code, room⟩ := r
      simp only
      split
      · exact ih
      · split
        · exact ih
        · rename_i hsz
          split
          · exact ih
          · apply roomsCapped_set ih
            have := JsMap.size_set_le room.players (botId (s.botCounter + 1) now)
            simp only [createBot]
            exact Nat.le_of_lt_succ (Nat.lt_of_le_of_lt (JsMap.size_set_le _ _ _)
              (by omega))
  | @removeBot s socketId bot _ ih =>
    unfold removeBotHandler
    cases hfind : findRoomOf socketId s.rooms with
    | none => exact ih
    | some r =>
      obtain ⟨code, room⟩ := r
      have hr : room.players.size ≤ 20 := ih _ (List.mem_of_find?_eq_some hfind)
      simp only
      split
      · exact ih
      · split
        · apply roomsCapped_set ih
          unfold removeBot
          split
          · exact hr
          · split
            · exact hr
            · exact le_trans (JsMap.size_delete_le _ _) hr
        · exact ih
  | @disconnectPlayer s socketId now _ ih =>
    unfold disconnectPlayer
    cases hscan : disconnectScan socketId s.rooms.entries with
    | none => exact ih
    | some r =>
      obtain ⟨code, room1, player1⟩ := r
      obtain ⟨room, player, hm, hget, hb, rfl, rfl⟩ := disconnectScan_spec hscan
      apply roomsCapped_set ih
      have hr : room.players.size ≤ 20 := ih _ hm
      have : (room.players.set socketId { player with disconnected := true }).size
          = room.players.size :=
        JsMap.length_upsert_of_lookup_some _ player hget
      show (room.players.set socketId { player with disconnected := true }).size ≤ 20
      omega
  | @finalizeLeave s socketId code _ ih =>
    unfold finalizeLeave
    cases hget : s.rooms.get code with
    | none => exact ih
    | some room =>
      have hr : room.players.size ≤ 20 := ih _ (JsMap.mem_of_lookup_some hget)
      simp only
      cases hp : room.players.get socketId with
      | none => exact ih
      | some player =>
        simp only
        split
        · exact ih
        · exact leave_tail_capped ih hr socketId code s.graceTimers
  | @leaveRoom s socketId _ ih =>
    unfold leaveRoom
    simp only
    cases hfind : findRoomOf socketId s.rooms with
    | none => exact ih
    | some r =>
      obtain ⟨code, room⟩ := r
      have hr : room.players.size ≤ 20 := ih _ (List.mem_of_find?_eq_some hfind)
      exact leave_tail_capped ih hr socketId code (s.graceTimers.delete socketId)

/-- C11. In every registry reachable through room creation, join, rejoin
(restore or fresh), the `room:addBot` handler, remove-bot, disconnect, grace
expiry and leave, every room has at most 20 players, humans and bots combined. -/
theorem room_capacity (s : Registry) (hs : ReachableByHandlers s) (code : String) (room : Room)
    (hroom : getRoom s code = some room) : room.players.size ≤ 20 :=
  reachableByHandlers_capped hs _ (JsMap.mem_of_lookup_some hroom)

theorem reachableByHandlers_demoWithBot : ReachableByHandlers demoWithBot :=
  ReachableByHandlers.addBot "s1" 5000 0 0
    (@ReachableByHandlers.createRoom _ _ demoRoom "s1" "Ava" 0 [0, 1, 2, 3]
      ReachableByHandlers.start (by decide))

/-- A concrete instance of C11: room `ABCD` after its host added a bot. -/
theorem room_capacity_witness :
    ReachableByHandlers demoWithBot ∧
    (getRoom demoWithBot "ABCD").map (fun r => r.players.keys) = some ["s1", "bot-1-5000"] ∧
    ∀ room, getRoom demoWithBot "ABCD" = some room → room.players.size ≤ 20 :=
  ⟨reachableByHandlers_demoWithBot, by decide,
   fun room hroom => room_capacity demoWithBot reachableByHandlers_demoWithBot "ABCD" room hroom⟩

/-! ## Events outside the input phases -/

/-- C17: for every module `g` and every room whose game state belongs to `g`
and has a phase that is not one of the input phases of `g` (so in any result
phase and in 'finished'), `onEvent` with any event name and any payload,
absent or not, returns normally, leaves the whole room as it is (game state,
scores, `room.state`, timers) and sends no message. -/
theorem onEvent_outside_input_phases (g : GameId) (now : Nat) (room : Room) (gs : GameState)
    (socketId : Handle) (event : String) (data : Option EventData)
    (hgs : room.gameState = some gs) (hg : gs.gameId = g)
    (hph : gs.phase ∉ inputPhases g) :
    onEvent g now room socketId event data = ⟨room, [], false⟩ := by
  subst hg
  cases gs <;> simp [GameState.gameId, GameState.phase, inputPhases] at hph <;>
    simp [onEvent, GameState.gameId, ReactionRace.onEvent, TriviaBlitz.onEvent,
      TapFrenzy.onEvent, WordScramble.onEvent, EmojiMatch.onEvent, MathBlitz.onEvent,
      SimonSays.onEvent, ColorClash.onEvent, hgs, hph]

/-- C17 at the finished example game: an `answer` event changes nothing. -/
theorem onEvent_outside_input_phases_witness :
    onEvent .colorClash 9000 demoFinishedRoom "s1" "answer" (some (demoChoice "blue"))
      = ⟨demoFinishedRoom, [], false⟩ :=
  onEvent_outside_input_phases .colorClash 9000 demoFinishedRoom demoFinishedState "s1" "answer"
    (some (demoChoice "blue")) (by decide) (by decide) (by decide)

/-! ## Events that throw in the dispatcher -/

/-- In every module, the module's own event throws while `room.gameState` is
null: a room that is 'playing' with `currentGame` set passes the dispatcher's
check, and `onEvent` reads `gs.phase`. -/
theorem dispatch_null_state_throws (g : GameId) (now : Nat) (room : Room) (socketId : Handle)
    (data : Option EventData) (hst : room.state = .playing) (hcg : room.currentGame = some g)
    (hgs : room.gameState = none) :
    dispatch now room socketId (eventName g) data = ⟨room, [], true⟩ := by
  cases g <;>
    simp [dispatch, hst, hcg, hgs, onEvent, eventName, ReactionRace.onEvent,
      TriviaBlitz.onEvent, TapFrenzy.onEvent, WordScramble.onEvent, EmojiMatch.onEvent,
      MathBlitz.onEvent, SimonSays.onEvent, ColorClash.onEvent]

/-- C18, refuted by evaluation: after the host started reaction-race the room
is 'playing' with `currentGame` set and `gameState` still null, and a `tap`
from "Ben" passes the dispatcher's check and throws in `onEvent` (it reads
`gs.phase` of null); in an open trivia-blitz question an `answer` without
payload passes the check and throws as well (it reads `data.choice`). -/
theorem gameEvent_throws :
    (startGameHandler (joinRoom demoCreated "s2" "ABCD" "Ben").1 "s1" (some .reactionRace)).2
        = .ok
      ∧ (getRoom demoStarted "ABCD").map (fun r => (r.state, r.currentGame, r.gameState))
        = some (.playing, some .reactionRace, none)
      ∧ (gameEventHandler demoStarted 100 "s2" "tap" none).2.2 = true
      ∧ (gameEventHandler demoStarted 100 "s2" "tap" (some (demoChoice "x"))).2.2 = true
      ∧ (demoTriviaRoom.state, demoTriviaRoom.currentGame,
          demoTriviaRoom.gameState.map GameState.phase)
        = (.playing, some .triviaBlitz, some .question)
      ∧ (dispatch 100 demoTriviaRoom "s2" "answer" none).threw = true :=
  ⟨by decide, by decide, by decide, by decide, by decide, by decide⟩

/-! ## The end of a game -/

/-- The final ranking lists the players: it is a permutation of the rows built
from the entries of `players`. -/
theorem finalScores_perm (players : JsMap Handle Player) :
    (finalScores players).Perm (players.entries.map fun e => ⟨e.1, e.2.name, e.2.score⟩) := by
  unfold finalScores jsSort
  exact List.perm_insertionSort _ _

/-- The final ranking is ordered by non-increasing score. -/
theorem finalScores_sorted (players : JsMap Handle Player) :
    (finalScores players).Pairwise fun a b => b.score ≤ a.score := by
  unfold finalScores jsSort
  haveI : IsTotal ScoreEntry (fun a b => b.score - a.score ≤ 0) :=
    ⟨fun a b => by
      show b.score - a.score ≤ 0 ∨ a.score - b.score ≤ 0
      omega⟩
  haveI : IsTrans ScoreEntry (fun a b => b.score - a.score ≤ 0) :=
    ⟨fun a b c hab hbc => by
      show c.score - a.score ≤ 0
      have h1 : b.score - a.score ≤ 0 := hab
      have h2 : c.score - b.score ≤ 0 := hbc
      omega⟩
  have h := List.sorted_insertionSort (fun a b : ScoreEntry => b.score - a.score ≤ 0)
    (players.entries.map fun e => (⟨e.1, e.2.name, e.2.score⟩ : ScoreEntry))
  refine List.Pairwise.imp ?_ h
  intro a b hab
  have h1 : b.score - a.score ≤ 0 := hab
  omega

/-- The ids of the final ranking are the handles of the players, each once per
entry of the map. -/
theorem finalScores_ids (players : JsMap Handle Player) :
    ((finalScores players).map (·.id)).Perm players.keys := by
  have h := (finalScores_perm players).map (·.id)
  simpa [JsMap.keys, List.map_map, Function.comp_def] using h

/-- The bonus loop of simon-says keeps the handles of the players. -/
theorem survivorBonus_keys (survivors : List Handle) (players : JsMap Handle Player) :
    (SimonSays.survivorBonus survivors players).keys = players.keys := by
  unfold SimonSays.survivorBonus
  induction survivors generalizing players with
  | nil => rfl
  | cons id rest ih =>
    simp only [List.foldl_cons]
    rw [ih]
    cases hget : players.get id with
    | none => rfl
    | some player =>
      exact JsMap.keys_set_of_mem players _ hget

/-- The bonus loop of simon-says over distinct survivors adds 200 points to
each survivor that is a player and leaves the other players as they are. -/
theorem survivorBonus_get (survivors : List Handle) (hnd : survivors.Nodup)
    (players : JsMap Handle Player) (id : Handle) :
    (SimonSays.survivorBonus survivors players).get id
      = (players.get id).map fun p =>
          if id ∈ survivors then { p with score := p.score + 200 } else p := by
  unfold SimonSays.survivorBonus
  induction survivors generalizing players with
  | nil => cases h : players.get id <;> simp [h]
  | cons s rest ih =>
    have hs : s ∉ rest := (List.nodup_cons.mp hnd).1
    simp only [List.foldl_cons]
    rw [ih (List.nodup_cons.mp hnd).2]
    cases hget : players.get s with
    | none =>
      by_cases hid : id = s
      · subst hid; simp [hget]
      · cases h : players.get id <;> simp [h, hid]
    | some player =>
      by_cases hid : id = s
      · subst hid
        simp [JsMap.get_set_self, hget, hs]
      · rw [JsMap.get_set_ne _ hid]
        cases h : players.get id <;> simp [h, hid]

/-- Clearing a timer leaves the players of the room as they are. -/
theorem clearTimeout_players (room : Room) (t : Option Nat) :
    (room.clearTimeout t).players = room.players := by
  cases t <;> rfl
/-- C19: for every module `g` and every room whose game state belongs to `g`
and is not in phase 'finished', `_endGame` returns normally and sends exactly
one message, a `game:end` to the room, whose `scores` list is a permutation of
the rows of the room's players (one entry per player, with that player's final
score), has the players' handles as ids, and is ordered by non-increasing
score; the phase becomes 'finished' and `room.state` 'results'; the handles of
the players stay, and outside simon-says so do the players themselves; in
simon-says each of the (distinct) survivors that is a player has 200 points
more and nobody else's score changes. A second `_endGame` sends nothing and
changes nothing, so the bonus is applied once. -/
theorem endGame_once (g : GameId) (room : Room) (gs : GameState)
    (hgs : room.gameState = some gs) (hg : gs.gameId = g) (hph : gs.phase ≠ .finished) :
    ∃ scores : List ScoreEntry,
      (_endGame g room).emits = [⟨.room room.code, "game:end", .gameEnd scores⟩]
        ∧ (_endGame g room).threw = false
        ∧ scores.Perm
            ((_endGame g room).room.players.entries.map fun e => ⟨e.1, e.2.name, e.2.score⟩)
        ∧ (scores.map (·.id)).Perm room.players.keys
        ∧ (scores.Pairwise fun a b => b.score ≤ a.score)
        ∧ (_endGame g room).room.gameState.map GameState.phase = some .finished
        ∧ (_endGame g room).room.state = .results
        ∧ (_endGame g room).room.players.keys = room.players.keys
        ∧ (g ≠ .simonSays → (_endGame g room).room.players = room.players)
        ∧ (∀ ss, gs = .simonSays ss → ss.survivors.elems.Nodup → ∀ id,
            (_endGame g room).room.players.get id
              = (room.players.get id).map fun p =>
                  if id ∈ ss.survivors.elems then { p with score := p.score + 200 } else p)
        ∧ _endGame g (_endGame g room).room = ⟨(_endGame g room).room, [], false⟩ := by
  subst hg
  cases gs with
  | simonSays ss =>
    simp only [GameState.phase] at hph
    refine ⟨finalScores (SimonSays.survivorBonus ss.survivors.elems room.players), ?_, ?_,
      ?_, ?_, ?_, ?_, ?_, ?_, ?_, ?_, ?_⟩
    · simp [_endGame, GameState.gameId, SimonSays._endGame, hgs, hph]
    · simp [_endGame, GameState.gameId, SimonSays._endGame, hgs, hph]
    · simpa [_endGame, GameState.gameId, SimonSays._endGame, hgs, hph] using
        finalScores_perm (SimonSays.survivorBonus ss.survivors.elems room.players)
    · have h := finalScores_ids (SimonSays.survivorBonus ss.survivors.elems room.players)
      rwa [survivorBonus_keys] at h
    · exact finalScores_sorted _
    · simp [_endGame, GameState.gameId, SimonSays._endGame, hgs, hph, GameState.phase]
    · simp [_endGame, GameState.gameId, SimonSays._endGame, hgs, hph]
    · simpa [_endGame, GameState.gameId, SimonSays._endGame, hgs, hph] using
        survivorBonus_keys ss.survivors.elems room.players
    · intro h; exact absurd rfl h
    · intro ss1 hss hnd id
      cases hss
      simpa [_endGame, GameState.gameId, SimonSays._endGame, hgs, hph] using
        survivorBonus_get ss.survivors.elems hnd room.players id
    · simp [_endGame, GameState.gameId, SimonSays._endGame, hgs, hph]
  | reactionRace s | triviaBlitz s | tapFrenzy s | wordScramble s | emojiMatch s
  | mathBlitz s | colorClash s =>
    simp only [GameState.phase] at hph
    refine ⟨finalScores room.players, ?_, ?_, ?_, ?_, ?_, ?_, ?_, ?_, ?_, ?_, ?_⟩
    · simp [_endGame, GameState.gameId, ReactionRace._endGame, TriviaBlitz._endGame,
        TapFrenzy._endGame, WordScramble._endGame, EmojiMatch._endGame, MathBlitz._endGame,
        ColorClash._endGame, hgs, hph]
    · simp [_endGame, GameState.gameId, ReactionRace._endGame, TriviaBlitz._endGame,
        TapFrenzy._endGame, WordScramble._endGame, EmojiMatch._endGame, MathBlitz._endGame,
        ColorClash._endGame, hgs, hph]
    · simpa [_endGame, GameState.gameId, ReactionRace._endGame, TriviaBlitz._endGame,
        TapFrenzy._endGame, WordScramble._endGame, EmojiMatch._endGame, MathBlitz._endGame,
        ColorClash._endGame, hgs, hph, clearTimeout_players] using finalScores_perm room.players
    · exact finalScores_ids room.players
    · exact finalScores_sorted _
    · simp [_endGame, GameState.gameId, ReactionRace._endGame, TriviaBlitz._endGame,
        TapFrenzy._endGame, WordScramble._endGame, EmojiMatch._endGame, MathBlitz._endGame,
        ColorClash._endGame, hgs, hph, GameState.phase, Room.clearTimeout]
    · simp [_endGame, GameState.gameId, ReactionRace._endGame, TriviaBlitz._endGame,
        TapFrenzy._endGame, WordScramble._endGame, EmojiMatch._endGame, MathBlitz._endGame,
        ColorClash._endGame, hgs, hph, clearTimeout_players]
    · simp [_endGame, GameState.gameId, ReactionRace._endGame, TriviaBlitz._endGame,
        TapFrenzy._endGame, WordScramble._endGame, EmojiMatch._endGame, MathBlitz._endGame,
        ColorClash._endGame, hgs, hph, clearTimeout_players]
    · intro _
      simp [_endGame, GameState.gameId, ReactionRace._endGame, TriviaBlitz._endGame,
        TapFrenzy._endGame, WordScramble._endGame, EmojiMatch._endGame, MathBlitz._endGame,
        ColorClash._endGame, hgs, hph, clearTimeout_players]
    · intro ss1 hss
      cases hss
    · simp [_endGame, GameState.gameId, ReactionRace._endGame, TriviaBlitz._endGame,
        TapFrenzy._endGame, WordScramble._endGame, EmojiMatch._endGame, MathBlitz._endGame,
        ColorClash._endGame, hgs, hph, clearTimeout_players]

/-- C19 at the example game: one `game:end` with a ranking ordered by
non-increasing score, and a second `_endGame` that does nothing. -/
theorem endGame_once_witness :
    ∃ scores : List ScoreEntry,
      (_endGame .colorClash demoGameRoom).emits
          = [⟨.room demoGameRoom.code, "game:end", .gameEnd scores⟩]
        ∧ (scores.map (·.id)).Perm demoGameRoom.players.keys
        ∧ (scores.Pairwise fun a b => b.score ≤ a.score)
        ∧ _endGame .colorClash (_endGame .colorClash demoGameRoom).room
          = ⟨(_endGame .colorClash demoGameRoom).room, [], false⟩ :=
  (endGame_once .colorClash demoGameRoom demoGameState (by decide) (by decide) (by decide)).imp
    fun _ h => ⟨h.1, h.2.2.2.1, h.2.2.2.2.1, h.2.2.2.2.2.2.2.2.2.2⟩

/-! ## A second response in the same round -/

/-- Reaction-race `_nextRound` establishes `roundWF` whatever the state of the
game was, and so does `init`. -/
theorem roundWF_nextRound (now delay : Nat) (room : Room) (gs : RRState)
    (hgs : room.gameState = some (.reactionRace gs)) (gs1 : GameState)
    (h : (ReactionRace._nextRound now delay room).room.gameState = some gs1) :
    gs1.roundWF := by
  simp only [ReactionRace._nextRound, hgs] at h
  split at h
  · simp [ReactionRace._endGame] at h
    subst h
    simp [GameState.roundWF]
  · simp [Room.setTimeout] at h
    subst h
    simp [GameState.roundWF, JsSet.empty]

/-- Reaction-race keeps `roundWF`: the timer callbacks, `onEvent` and the
handle remap of a rejoin preserve it. -/
theorem roundWF_reactionRace (now : Nat) (room : Room) (gs : RRState)
    (hgs : room.gameState = some (.reactionRace gs))
    (hwf : (GameState.reactionRace gs).roundWF) :
    (∀ thisRound gs1, (ReactionRace.goCallback now thisRound room).room.gameState
        = some gs1 → gs1.roundWF)
      ∧ (∀ thisRound gs1, (ReactionRace.timeoutCallback now thisRound room).room.gameState
        = some gs1 → gs1.roundWF)
      ∧ (∀ winnerId gs1, (ReactionRace.firstTapCallback now winnerId room).room.gameState
        = some gs1 → gs1.roundWF)
      ∧ (∀ h event data gs1, (ReactionRace.onEvent now room h event data).room.gameState
        = some gs1 → gs1.roundWF)
      ∧ (∀ oldId newId, (remapGameState oldId newId (.reactionRace gs)).roundWF) := by
  have hres : ∀ winnerId gs1,
      (ReactionRace._roundResult now room winnerId).room.gameState = some gs1 →
        gs1.roundWF := by
    intro winnerId gs1 h
    simp only [ReactionRace._roundResult, hgs] at h
    split at h
    · simp [hgs] at h
      subst h
      exact hwf
    · simp [Room.setTimeout] at h
      subst h
      simp [GameState.roundWF]
  refine ⟨?_, ?_, ?_, ?_, ?_⟩
  · intro thisRound gs1 h
    simp only [ReactionRace.goCallback, hgs] at h
    split at h
    · simp [hgs] at h
      subst h
      exact hwf
    · simp [Room.setTimeout] at h
      subst h
      simp [GameState.roundWF]
  · intro thisRound gs1 h
    simp only [ReactionRace.timeoutCallback, hgs] at h
    split at h
    · exact hres _ _ h
    · simp [hgs] at h
      subst h
      exact hwf
  · intro winnerId gs1 h
    simp only [ReactionRace.firstTapCallback, hgs] at h
    split at h
    · exact hres _ _ h
    · simp [hgs] at h
      subst h
      exact hwf
  · intro h event data gs1 hout
    simp only [ReactionRace.onEvent] at hout
    split at hout
    · simp [hgs] at hout
      subst hout
      exact hwf
    · simp only [hgs] at hout
      split at hout
      · simp at hout
        subst hout
        simpa [GameState.roundWF] using hwf
      · rename_i hready
        split at hout
        · simp [hgs] at hout
          subst hout
          exact hwf
        · split at hout
          · simp [hgs] at hout
            subst hout
            exact hwf
          · split at hout
            · simp at hout
              subst hout
              simp [GameState.roundWF, hready]
            · split at hout
              · simp [Room.setTimeout] at hout
                subst hout
                simp [GameState.roundWF, hready]
              · simp at hout
                subst hout
                simp [GameState.roundWF, hready]
  · intro oldId newId
    simp only [remapGameState, GameState.roundWF]
    intro hp
    have := hwf hp
    simp [remapSet, JsSet.has, this]

/-- Math-blitz keeps `solversAnswered`: `onEvent` preserves it. A solver of the
round therefore has an entry in `answers`, the record that the guard of
`onEvent` consults. -/
theorem solversAnswered_onEvent (now : Nat) (room : Room) (gs : MBState)
    (hgs : room.gameState = some (.mathBlitz gs)) (hwf : MathBlitz.solversAnswered gs)
    (socketId : Handle) (event : String) (data : Option EventData) (gs1 : MBState)
    (hout : (MathBlitz.onEvent now room socketId event data).room.gameState
      = some (.mathBlitz gs1)) :
    MathBlitz.solversAnswered gs1 := by
  have hset : ∀ (v : MBAnswer) (s : MBSolver), gs.answers.has s.id = true →
      (gs.answers.set socketId v).has s.id = true := by
    intro v s hs
    by_cases hid : s.id = socketId
    · simp [JsMap.has, hid, JsMap.get_set_self]
    · simpa [JsMap.has, JsMap.get_set_ne _ hid] using hs
  simp only [MathBlitz.onEvent] at hout
  split at hout
  · simp [hgs] at hout; subst hout; exact hwf
  · simp only [hgs] at hout
    split at hout
    · simp [hgs] at hout; subst hout; exact hwf
    · split at hout
      · simp [hgs] at hout; subst hout; exact hwf
      · rename_i hno
        split at hout
        · simp [hgs] at hout; subst hout; exact hwf
        · split at hout
          · simp [hgs] at hout; subst hout; exact hwf
          · split at hout
            · simp [hgs] at hout; subst hout; exact hwf
            · split at hout
              · simp at hout
                subst hout
                intro s hs
                exact hset _ s (hwf s hs)
              · split at hout
                · have hnew : ∀ gs2 : MBState, ∀ v name t,
                      gs2.answers = gs.answers.set socketId v →
                      gs2.solvers = gs.solvers ++ [⟨socketId, name, t⟩] →
                      MathBlitz.solversAnswered gs2 := by
                    intro gs2 v name t ha hs s hmem
                    rw [hs] at hmem
                    rw [ha]
                    rcases List.mem_append.mp hmem with h1 | h1
                    · exact hset _ s (hwf s h1)
                    · simp only [List.mem_singleton] at h1
                      subst h1
                      simp [JsMap.has, JsMap.get_set_self]
                  repeat' split at hout
                  all_goals
                    simp [Room.setTimeout] at hout
                    subst hout
                    exact hnew _ _ _ _ rfl rfl
                · simp at hout
                  subst hout
                  intro s hs
                  have hne : s.id ≠ socketId := by
                    intro heq
                    have := hwf s hs
                    rw [heq] at this
                    exact hno this
                  have h1 := hwf s hs
                  simpa [JsMap.has, JsMap.get_delete_ne _ hne, JsMap.get_set_ne _ hne] using h1

/-- Math-blitz `_nextRound` establishes `solversAnswered` whatever the state of
the game was: it empties `solvers`. -/
theorem solversAnswered_nextRound (now : Nat) (room : Room) (gs : MBState)
    (hgs : room.gameState = some (.mathBlitz gs)) (gs1 : MBState)
    (hout : (MathBlitz._nextRound now room).room.gameState = some (.mathBlitz gs1)) :
    MathBlitz.solversAnswered gs1 := by
  simp only [MathBlitz._nextRound, hgs] at hout
  repeat' split at hout
  all_goals
    simp [MathBlitz._endGame, Room.setTimeout] at hout
    subst hout
    simp [MathBlitz.solversAnswered]

/-- With `solversAnswered`, a handle that has an entry in the math-blitz
`solvers` has a response on record. -/
theorem solver_hasResponse (gs : MBState) (hwf : MathBlitz.solversAnswered gs) (h : Handle)
    (s : MBSolver) (hs : s ∈ gs.solvers) (hid : s.id = h) :
    (GameState.mathBlitz gs).hasResponse h = true := by
  subst hid
  exact hwf s hs

/-- C16: in trivia-blitz, color-clash, math-blitz, word-scramble and
reaction-race, when the game state already holds a response of the handle `h`
for the round (an entry in `answers`; in word-scramble an entry in `solvers`;
in reaction-race membership in `tapped`), `onEvent` from `h` with any event
name and payload leaves the whole room as it was: the game state, every
player's score, the timers. The state is one of a running game (`roundWF`: in
reaction-race `tapped` is empty while the phase is 'ready'). -/
theorem repeated_response_ignored (g : GameId) (now : Nat) (room : Room) (gs : GameState)
    (h : Handle) (event : String) (data : Option EventData)
    (hgs : room.gameState = some gs) (hg : gs.gameId = g) (hwf : gs.roundWF)
    (hrec : gs.hasResponse h = true) :
    (onEvent g now room h event data).room = room := by
  subst hg
  cases gs with
  | reactionRace s =>
    simp only [GameState.hasResponse, JsSet.has, decide_eq_true_eq] at hrec
    have hready : s.phase ≠ .ready := by
      intro hp
      have := hwf hp
      rw [this] at hrec
      simp at hrec
    have hhas : s.tapped.has h = true := by simp [JsSet.has, hrec]
    simp only [onEvent, GameState.gameId, ReactionRace.onEvent]
    split
    · rfl
    · simp only [hgs, hready, if_false]
      split
      · rfl
      · simp [hhas]
  | triviaBlitz s =>
    simp only [GameState.hasResponse] at hrec
    simp only [onEvent, GameState.gameId, TriviaBlitz.onEvent]
    split
    · rfl
    · simp only [hgs]
      split
      · rfl
      · simp [hrec]
  | wordScramble s =>
    simp only [GameState.hasResponse] at hrec
    simp only [onEvent, GameState.gameId, WordScramble.onEvent]
    split
    · rfl
    · simp only [hgs]
      split
      · rfl
      · split
        · rfl
        · split
          · rfl
          · split
            · simp [hrec]
            · rfl
  | mathBlitz s =>
    have hans : s.answers.has h = true := hrec
    simp only [onEvent, GameState.gameId, MathBlitz.onEvent]
    split
    · rfl
    · simp only [hgs]
      split
      · rfl
      · simp [hans]
  | colorClash s =>
    simp only [GameState.hasResponse] at hrec
    simp only [onEvent, GameState.gameId, ColorClash.onEvent]
    split
    · rfl
    · simp only [hgs]
      split
      · rfl
      · simp [hrec]
  | tapFrenzy s => simp [GameState.hasResponse] at hrec
  | emojiMatch s => simp [GameState.hasResponse] at hrec
  | simonSays s => simp [GameState.hasResponse] at hrec

/-- C16 at the example game: "Ava" has answered, and her second `answer`
changes nothing. -/
theorem repeated_response_ignored_witness :
    (demoAnswered.gameState.map fun gs => gs.hasResponse "s1") = some true
      ∧ (onEvent .colorClash 900 demoAnswered "s1" "answer" (some (demoChoice "red"))).room
        = demoAnswered :=
  ⟨by decide,
   repeated_response_ignored .colorClash 900 demoAnswered
    (demoAnswered.gameState.getD demoGameState) "s1" "answer" (some (demoChoice "red"))
    (by decide) (by decide) (by decide) (by decide)⟩

/-! ## The state that `init` builds -/

/-- Setting every key of a list to 0 in a map whose values are 0 leaves all
values 0. -/
theorem zero_counts {α : Type} (l : List (Handle × α)) (m : JsMap Handle Nat)
    (hm : ∀ e ∈ m.entries, e.2 = 0) :
    ∀ e ∈ (l.foldl (fun m e => m.set e.1 0) m).entries, e.2 = 0 := by
  induction l generalizing m with
  | nil => simpa using hm
  | cons x rest ih =>
    simp only [List.foldl_cons]
    apply ih
    intro e he
    rcases JsMap.mem_upsert he with h | h
    · rw [h]
    · exact hm e h

/-- Adding the keys of a list with distinct keys, none of them a member yet,
appends them to the set. -/
theorem foldl_add_elems {α : Type} (l : List (Handle × α)) (st : JsSet Handle)
    (hnd : (l.map Prod.fst).Nodup) (hdis : ∀ e ∈ l, e.1 ∉ st.elems) :
    (l.foldl (fun st e => st.add e.1) st).elems = st.elems ++ l.map Prod.fst := by
  induction l generalizing st with
  | nil => simp
  | cons x rest ih =>
    simp only [List.foldl_cons, List.map_cons, List.nodup_cons] at hnd ⊢
    have hx : x.1 ∉ st.elems := hdis x (List.mem_cons_self _ _)
    have hadd : (st.add x.1).elems = st.elems ++ [x.1] := by simp [JsSet.add, hx]
    rw [ih _ hnd.2, hadd]
    · simp
    · intro e he
      rw [hadd]
      simp only [List.mem_append, List.mem_singleton, not_or]
      refine ⟨hdis e (List.mem_cons_of_mem _ he), ?_⟩
      intro heq
      exact hnd.1 (heq ▸ List.mem_map_of_mem Prod.fst he)

/-- The survivors that simon-says `init` collects are the handles of the players. -/
theorem survivors_of_players (players : JsMap Handle Player) (hnd : players.keys.Nodup) :
    (players.entries.foldl (fun st e => st.add e.1) JsSet.empty).size = players.size := by
  have h := foldl_add_elems players.entries JsSet.empty hnd (by simp [JsSet.empty])
  unfold JsSet.size JsMap.size
  rw [h]
  simp [JsSet.empty]

/-- Creating the flash timers of simon-says leaves the game state as it is. -/
theorem scheduleFlashes_gameState (now total : Nat) (colors : List String) (i : Nat)
    (room : Room) :
    (SimonSays.scheduleFlashes now total i colors room).gameState = room.gameState := by
  induction colors generalizing i room with
  | nil => rfl
  | cons c rest ih =>
    simp only [SimonSays.scheduleFlashes]
    rw [ih]
    rfl

/-- C20: for every module `g` and every room with at least two players (the
handles of a `Map` being distinct), whatever `room.gameState` held before,
`init` returns normally and leaves in `room.gameState` a state of module `g`
with `round = 1`, `totalRounds` equal to the module's `rounds`, the phase
that opens a round of the module, which is never 'waiting', and no response
recorded for the round; that state does not depend on the earlier
`room.gameState`. The shuffled question and word lists are rearrangements of
the module's tables. -/
theorem init_fresh (g : GameId) (inp : InitInput) (room : Room)
    (h2 : 2 ≤ room.players.size) (hnd : room.players.keys.Nodup)
    (htv : inp.tvShuffled.Perm TriviaBlitz.QUESTIONS)
    (hws : inp.wsShuffled.Perm WordScramble.WORDS) :
    ∃ gs : GameState,
      (init g inp room).room.gameState = some gs
        ∧ (init g inp room).threw = false
        ∧ gs.gameId = g ∧ gs.round = 1 ∧ gs.totalRounds = rounds g
        ∧ gs.phase = startPhase g ∧ gs.phase ≠ .waiting ∧ gs.noResponses
        ∧ ∀ prior, (init g inp { room with gameState := prior }).room.gameState = some gs := by
  cases g with
  | reactionRace =>
    refine ⟨_, rfl, ?_, ?_⟩
    all_goals simp [init, ReactionRace.init, ReactionRace._nextRound, ReactionRace.rounds,
      Room.setTimeout, GameState.gameId, GameState.round, GameState.totalRounds, rounds,
      GameState.phase, startPhase, GameState.noResponses, JsSet.empty]
  | triviaBlitz =>
    have hlen := htv.length_eq
    have h20 : TriviaBlitz.QUESTIONS.length = 20 := rfl
    rw [h20] at hlen
    obtain ⟨q, rest, hq⟩ : ∃ q rest, inp.tvShuffled = q :: rest := by
      cases h : inp.tvShuffled with
      | nil => rw [h] at hlen; simp at hlen
      | cons q rest => exact ⟨q, rest, rfl⟩
    obtain ⟨now, rrDelay, tvShuffled, wsShuffled, wsScrambled, emBoard, emTurnOrder, mbProblem,
      ssDraw, ccGenerated⟩ := inp
    simp only at hq
    subst hq
    simp [init, TriviaBlitz.init, TriviaBlitz._nextQuestion, TriviaBlitz.rounds,
      Room.setTimeout, Room.clearTimeout, roundItem, GameState.gameId, GameState.round,
      GameState.totalRounds, rounds, GameState.phase, startPhase, GameState.noResponses,
      JsMap.empty]
  | tapFrenzy =>
    have hz := zero_counts room.players.entries (JsMap.empty : JsMap Handle Nat)
      (by simp [JsMap.empty])
    simp [init, TapFrenzy.init, TapFrenzy._nextRound, TapFrenzy.rounds,
      TapFrenzy._clearRoundTimers, Room.setTimeout, GameState.gameId, GameState.round,
      GameState.totalRounds, rounds, GameState.phase, startPhase, GameState.noResponses]
    exact fun a b hab => hz (a, b) hab
  | wordScramble =>
    have hlen := hws.length_eq
    have h49 : WordScramble.WORDS.length = 49 := rfl
    rw [h49] at hlen
    obtain ⟨w, rest, hw⟩ : ∃ w rest, inp.wsShuffled = w :: rest := by
      cases h : inp.wsShuffled with
      | nil => rw [h] at hlen; simp at hlen
      | cons w rest => exact ⟨w, rest, rfl⟩
    obtain ⟨now, rrDelay, tvShuffled, wsShuffled, wsScrambled, emBoard, emTurnOrder, mbProblem,
      ssDraw, ccGenerated⟩ := inp
    simp only at hw
    subst hw
    simp [init, WordScramble.init, WordScramble._nextRound, WordScramble.rounds,
      Room.setTimeout, roundItem, GameState.gameId, GameState.round,
      GameState.totalRounds, rounds, GameState.phase, startPhase, GameState.noResponses]
  | emojiMatch =>
    have hz := zero_counts room.players.entries (JsMap.empty : JsMap Handle Nat)
      (by simp [JsMap.empty])
    simp [init, EmojiMatch.init, EmojiMatch._nextRound, EmojiMatch.rounds, EmojiMatch.sizes,
      roundItem, GameState.gameId, GameState.round,
      GameState.totalRounds, rounds, GameState.phase, startPhase, GameState.noResponses]
    exact fun a b hab => hz (a, b) hab
  | mathBlitz =>
    simp [init, MathBlitz.init, MathBlitz._nextRound, MathBlitz.ROUNDS, Room.setTimeout,
      roundItem, GameState.gameId, GameState.round, List.range_succ_eq_map,
      GameState.totalRounds, rounds, GameState.phase, startPhase, GameState.noResponses,
      JsMap.empty]
  | simonSays =>
    have hs := survivors_of_players room.players hnd
    have hgt : ¬ (room.players.entries.foldl (fun st e => st.add e.1) JsSet.empty).size ≤ 1 := by
      omega
    simp [init, SimonSays.init, SimonSays._nextRound, SimonSays.MAX_ROUNDS, Room.setTimeout,
      hgt, scheduleFlashes_gameState, GameState.gameId, GameState.round,
      GameState.totalRounds, rounds, GameState.phase, startPhase, GameState.noResponses,
      JsMap.empty]
  | colorClash =>
    simp [init, ColorClash.init, ColorClash._nextRound, ColorClash.TOTAL_ROUNDS,
      Room.setTimeout, GameState.gameId, GameState.round,
      GameState.totalRounds, rounds, GameState.phase, startPhase, GameState.noResponses,
      JsMap.empty]

/-- C20 at room `ABCD` with "Ava" and "Ben": simon-says `init` leaves a state
in round 1 of 12, phase 'showing', with no input recorded. -/
theorem init_fresh_witness :
    ∃ gs : GameState,
      (init .simonSays demoInit demoRoomJoined).room.gameState = some gs
        ∧ gs.round = 1 ∧ gs.totalRounds = 12 ∧ gs.phase = .showing ∧ gs.noResponses :=
  (init_fresh .simonSays demoInit demoRoomJoined (by decide) (by decide) (List.Perm.refl _)
    (List.Perm.refl _)).imp
    fun _ h => ⟨h.1, h.2.2.2.1, h.2.2.2.2.1, h.2.2.2.2.2.1, h.2.2.2.2.2.2.2.1⟩

/-! ## Round timers that capture the round number -/

/-- The round timers of trivia-blitz (`_nextQuestion`), word-scramble
(`_nextRound`) and reaction-race (the timer `t2`, created when the round
turns to 'go' by a timer `t1` that holds the live game state) capture the
round number that is live when they are created. -/
theorem round_timer_captures_round (now : Nat) (room : Room) :
    CapturesLiveRound room (TriviaBlitz._nextQuestion now room).room
      ∧ (∀ scrambled, CapturesLiveRound room (WordScramble._nextRound now scrambled room).room)
      ∧ (∀ thisRound, CapturesLiveRound room (ReactionRace.goCallback now thisRound room).room) := by
  have hfilter : ∀ (t : Timer) (q : Timer → Bool), t ∈ room.timers.filter q → t ∈ room.timers :=
    fun t q h => (List.mem_filter.mp h).1
  have hclear : ∀ (t : Timer) (c : Option Nat), t ∈ (room.clearTimeout c).timers →
      t ∈ room.timers := by
    intro t c h
    cases c with
    | none => exact h
    | some id => exact hfilter _ _ h
  refine ⟨?_, ?_, ?_⟩
  · intro t ht hnew g r hcb
    generalize hout : TriviaBlitz._nextQuestion now room = out at ht ⊢
    simp only [TriviaBlitz._nextQuestion, TriviaBlitz._endGame] at hout
    repeat' split at hout
    all_goals subst hout
    all_goals simp only [Room.setTimeout, List.mem_append, List.mem_singleton] at ht
    all_goals try (exact absurd ht hnew)
    all_goals try (exact absurd (hclear _ _ ht) hnew)
    all_goals
      rcases ht with ht | ht
      · exact absurd (hclear _ _ ht) hnew
      · subst ht
        simp at hcb
        simp [GameState.round, hcb.2]
  · intro scrambled t ht hnew g r hcb
    generalize hout : WordScramble._nextRound now scrambled room = out at ht ⊢
    simp only [WordScramble._nextRound, WordScramble._endGame] at hout
    repeat' split at hout
    all_goals subst hout
    all_goals simp only [Room.setTimeout, List.mem_append, List.mem_singleton] at ht
    all_goals try (exact absurd ht hnew)
    all_goals
      rcases ht with ht | ht
      · exact absurd ht hnew
      · subst ht
        simp at hcb
        simp [GameState.round, hcb.2]
  · intro thisRound t ht hnew g r hcb
    generalize hout : ReactionRace.goCallback now thisRound room = out at ht ⊢
    simp only [ReactionRace.goCallback] at hout
    repeat' split at hout
    all_goals subst hout
    all_goals simp only [Room.setTimeout, List.mem_append, List.mem_singleton] at ht
    all_goals try (exact absurd ht hnew)
    all_goals
      rcases ht with ht | ht
      · exact absurd ht hnew
      · subst ht
        simp at hcb
        rename_i hround
        simp only [ne_eq, Decidable.not_not] at hround
        simp [GameState.round, ← hcb.2, hround, Room.setTimeout]

/-- While the game that created the timer runs, the object the closure holds
is the live game state. Then the callback of the round timer of trivia-blitz,
word-scramble and reaction-race, which captured the round number `r`, does
nothing when the live round number differs from `r` or when the guard flag of
the round (`answerShown`, `revealFired`, `resultFired`) is already set: it
returns normally, leaves the whole room as it is and sends no message. -/
theorem round_timer_same_game (now r : Nat) (room : Room) :
    (∀ gs : TVState, room.gameState = some (.triviaBlitz gs) →
        gs.round ≠ r ∨ gs.answerShown = true →
        TriviaBlitz.timeoutCallback now r room = ⟨room, [], false⟩)
      ∧ (∀ gs : WSState, room.gameState = some (.wordScramble gs) →
        gs.round ≠ r ∨ gs.revealFired = true →
        WordScramble.timeoutCallback now r room = ⟨room, [], false⟩)
      ∧ (∀ gs : RRState, room.gameState = some (.reactionRace gs) →
        gs.round ≠ r ∨ gs.resultFired = true →
        ReactionRace.timeoutCallback now r room = ⟨room, [], false⟩) := by
  refine ⟨?_, ?_, ?_⟩
  · intro gs hgs hstale
    simp only [TriviaBlitz.timeoutCallback, hgs]
    rcases hstale with h | h <;> simp [h]
  · intro gs hgs hstale
    simp only [WordScramble.timeoutCallback, hgs]
    rcases hstale with h | h <;> simp [h]
  · intro gs hgs hstale
    simp only [ReactionRace.timeoutCallback, hgs]
    rcases hstale with h | h <;> simp [h]

/-- The guard of a round timer reads the object the closure captured, not
`room.gameState`. When that object is an orphan that still shows the round
`r` with its flag unset, the callback runs the round-ending method on the
room, whatever the live game state is: `_showAnswer` in trivia-blitz,
`_revealAnswer` in word-scramble and, for an orphan in phase 'go',
`_roundResult` in reaction-race. -/
theorem round_timer_orphan (now r : Nat) (room : Room) :
    (∀ gs : TVState, gs.round = r → gs.answerShown = false →
        TriviaBlitz.timeoutCallback now r room (.orphan gs) = TriviaBlitz._showAnswer now room)
      ∧ (∀ gs : WSState, gs.round = r → gs.revealFired = false →
        WordScramble.timeoutCallback now r room (.orphan gs)
          = WordScramble._revealAnswer now room)
      ∧ (∀ gs : RRState, gs.round = r → gs.phase = .go → gs.resultFired = false →
        ReactionRace.timeoutCallback now r room (.orphan gs)
          = ReactionRace._roundResult now room none) := by
  refine ⟨?_, ?_, ?_⟩
  · intro gs h1 h2
    simp [TriviaBlitz.timeoutCallback, h1, h2]
  · intro gs h1 h2
    simp [WordScramble.timeoutCallback, h1, h2]
  · intro gs h1 h2 h3
    simp [ReactionRace.timeoutCallback, h1, h2, h3]

/-- Reaction-race: the timer `t1` of an orphaned game state that still shows
its round turns that object to 'go' and leaves `room.gameState` alone, but it
sends 'go' to the room and creates the timer `t2` in it. -/
theorem go_timer_orphan (now r : Nat) (room : Room) (gs : RRState) (hround : gs.round = r) :
    (ReactionRace.goCallback now r room (.orphan gs)).room.gameState = room.gameState
      ∧ (ReactionRace.goCallback now r room (.orphan gs)).emits
        = [⟨.room room.code, "game:state", .rrGo⟩]
      ∧ (ReactionRace.goCallback now r room (.orphan gs)).room.timers
        = room.timers ++ [⟨room.nextTimerId, now + 5000, .roundTimeoutFor .reactionRace r⟩]
      ∧ ReactionRace.goCaptured now r gs = { gs with phase := .go, goTime := some now } := by
  simp [ReactionRace.goCallback, ReactionRace.goCaptured, hround, Room.setTimeout]

/-- Trivia-blitz: the round timer of an orphaned game state that shows round
`r` ends the round that is live in the room, whatever its number: when the
live state has an open question, the callback shows the answer of the live
round and broadcasts it. -/
theorem orphan_timer_ends_live_round (now r : Nat) (room : Room) (orphan gs : TVState)
    (q : Question) (hround : orphan.round = r) (hflag : orphan.answerShown = false)
    (hgs : room.gameState = some (.triviaBlitz gs)) (hshown : gs.answerShown = false)
    (hph : gs.phase ≠ .finished) (hq : roundItem gs.questions gs.round = some q) :
    ((TriviaBlitz.timeoutCallback now r room (.orphan orphan)).room.gameState.map
        fun st => (st.round, st.phase)) = some (gs.round, .answer)
      ∧ (TriviaBlitz.timeoutCallback now r room (.orphan orphan)).emits.map
          (fun e => (e.target, e.payload.phase))
        = [(.room room.code, some "answer")] := by
  simp [TriviaBlitz.timeoutCallback, hround, hflag, TriviaBlitz._showAnswer, hgs, hshown, hph,
    hq, Room.setTimeout, GameState.round, GameState.phase, Payload.phase]

/-- C24, refuted by evaluation: the host sends `room:startGame` for
trivia-blitz twice, 150 ms apart; both requests are accepted and `init` runs
at 500 ms and again at 650 ms. The second `init` puts a new state object in
`room.gameState` and leaves the round timer of the first one pending (due at
10500 ms, round number 1); the object of the first `init` stays in round 1
with `answerShown` unset. "Ava" and "Ben" answer by 2000 ms, which ends round
1 of the second game and clears its own round timer; round 2 opens at 6000 ms
with a timer due at 16000 ms. At 10500 ms the timer of the first `init` runs:
its guard reads the object it captured and passes, although the live round
number is 2 and the timer captured 1, and the callback ends the live round 2:
the phase becomes 'answer', the answer is broadcast, the timer of round 2 is
cleared and the next question is due at 14500 ms. -/
theorem restarted_game_timer_ends_round :
    demoQuizRestart.2 = .ok
      ∧ demoQuizFirst.gameState = some (.triviaBlitz demoQuizOrphan)
      ∧ timersDueAfter 650 demoQuizSecond
        = [(0, 10500, .roundTimeoutFor .triviaBlitz 1), (1, 10650, .roundTimeoutFor .triviaBlitz 1)]
      ∧ (demoQuizSecondShown.gameState.map fun gs => (gs.round, gs.phase)) = some (1, .answer)
      ∧ timersDueAfter 2000 demoQuizSecondShown
        = [(0, 10500, .roundTimeoutFor .triviaBlitz 1), (2, 6000, .nextRound .triviaBlitz)]
      ∧ (demoQuizSecondRound2.gameState.map fun gs => (gs.round, gs.phase))
        = some (2, .question)
      ∧ timersDueAfter 6000 demoQuizSecondRound2
        = [(0, 10500, .roundTimeoutFor .triviaBlitz 1), (3, 16000, .roundTimeoutFor .triviaBlitz 2)]
      ∧ ((TriviaBlitz.timeoutCallback 10500 1 demoQuizSecondRound2
            (.orphan demoQuizOrphan)).room.gameState.map fun gs => (gs.round, gs.phase))
        = some (2, .answer)
      ∧ (TriviaBlitz.timeoutCallback 10500 1 demoQuizSecondRound2
            (.orphan demoQuizOrphan)).emits.map (fun e => (e.target, e.payload.phase))
        = [(.room "ABCD", some "answer")]
      ∧ timersDueAfter 10500 (TriviaBlitz.timeoutCallback 10500 1 demoQuizSecondRound2
            (.orphan demoQuizOrphan)).room
        = [(4, 14500, .nextRound .triviaBlitz)] :=
  ⟨by decide, by decide, by decide, by decide, by decide, by decide, by decide, by decide,
   by decide, by decide⟩

/-! ## Reaction-race: a tap that came too early -/

/-- C25: in reaction-race a `tap` in phase 'ready' only adds the handle to
`earlyTappers` (and tells that socket 'early'): `tapped`, `roundResults`, the
scores and the timers stay. A `tap` in phase 'go' by a handle that is not in
`tapped` and belongs to a player is processed without looking at
`earlyTappers`: the handle joins `tapped` and a result with the reaction time
is appended; when it is the first result of the round and no result has fired,
the player scores 100 points, plus 50 when the reaction time is under 300 ms,
and the result timer is created; otherwise no score changes. -/
theorem early_tap_second_chance (now : Nat) (room : Room) (gs : RRState) (h : Handle)
    (data : Option EventData) (hgs : room.gameState = some (.reactionRace gs)) :
    (gs.phase = .ready →
        ReactionRace.onEvent now room h "tap" data
          = ⟨{ room with gameState := some (.reactionRace
                { gs with earlyTappers := gs.earlyTappers.add h }) },
             [⟨.socket h, "game:state", .rrEarly⟩], false⟩)
      ∧ (gs.phase = .go → gs.tapped.has h = false → ∀ p, room.players.get h = some p →
          let reactionTime : Int := (now : Int) - (gs.goTime.getD 0 : Nat)
          let gs1 : RRState :=
            { gs with tapped := gs.tapped.add h
                      roundResults := gs.roundResults ++ [⟨h, p.name, reactionTime⟩] }
          (gs.roundResults = [] ∧ gs.resultFired = false →
              ReactionRace.onEvent now room h "tap" data
                = ⟨({ room with
                      players := room.players.set h
                        { p with score := p.score + 100 + (if reactionTime < 300 then 50 else 0) }
                      gameState := some (.reactionRace gs1) }).setTimeout now 1500
                      (.rrFirstTap h), [], false⟩)
            ∧ (¬ (gs.roundResults = [] ∧ gs.resultFired = false) →
              ReactionRace.onEvent now room h "tap" data
                = ⟨{ room with gameState := some (.reactionRace gs1) }, [], false⟩)) := by
  refine ⟨?_, ?_⟩
  · intro hph
    simp [ReactionRace.onEvent, hgs, hph]
  · intro hph hnot p hp
    refine ⟨?_, ?_⟩
    · intro hfirst
      simp [ReactionRace.onEvent, hgs, hph, hnot, hp, hfirst.1, hfirst.2]
    · intro hfirst
      simp only [ReactionRace.onEvent, hgs, hph, hnot, hp]
      simp
      intro h1 h2
      exact absurd ⟨h1, h2⟩ hfirst

/-- C25 at the example race: "Ben" tapped too early in round 1, and his tap
220 ms after 'go' is the first result and scores 150 points. -/
theorem early_tap_second_chance_witness :
    (demoRaceGo.gameState.map fun gs => gs.handles.contains "s2") = some true
      ∧ (ReactionRace.onEvent 2220 demoRaceGo "s2" "tap" none).room.players.entries.map
          (fun e => (e.1, e.2.score)) = [("s1", 0), ("s2", 150)] := by
  refine ⟨by decide, ?_⟩
  have h := (early_tap_second_chance 2220 demoRaceGo
    ⟨1, 5, .go, some 2000, [], JsSet.empty, ⟨["s2"]⟩, false⟩ "s2" none (by decide)).2
    (by decide) (by decide) (Player.fresh "Ben" false) (by decide)
  rw [(h.1 ⟨rfl, rfl⟩)]
  decide

/-! ## The remap of a rejoin, structure by structure -/

/-- The remap of a `Set` field, for a new handle that is not a member yet. -/
theorem remapSet_spec (h n : Handle) (s : JsSet Handle) (hne : n ≠ h) (hfresh : n ∉ s.elems) :
    SetRemapped h n s (remapSet h n s) := by
  unfold remapSet SetRemapped
  by_cases hh : h ∈ s.elems
  · have hnot : n ∉ List.filter (fun y => !decide (y = h)) s.elems := fun hc =>
      hfresh (List.mem_filter.mp hc).1
    simp only [JsSet.has, hh, decide_True, if_true, JsSet.delete, JsSet.add, hnot, if_false]
    refine ⟨by simp, by simp [Ne.symm hne], ?_⟩
    intro k hk1 hk2
    simp [hk1, hk2]
  · simp [JsSet.has, hh, hfresh]

/-- The remap of a `Map` field, for a new handle that is not a key yet. -/
theorem remapMap_spec {β : Type} (h n : Handle) (m : JsMap Handle β) (hne : n ≠ h)
    (hfresh : n ∉ m.keys) : MapRemapped h n m (remapMap h n m) := by
  unfold remapMap MapRemapped
  have hn : m.get n = none := by
    cases hg : m.get n with
    | none => rfl
    | some v =>
      exact absurd (List.mem_map_of_mem Prod.fst (JsMap.mem_of_lookup_some hg)) hfresh
  cases hg : m.get h with
  | none => exact ⟨hn, hg, fun _ _ _ => rfl⟩
  | some v =>
    refine ⟨?_, JsMap.get_delete_self _ _, ?_⟩
    · rw [JsMap.get_delete_ne _ hne, JsMap.get_set_self]
    · intro k hk1 hk2
      rw [JsMap.get_delete_ne _ hk1, JsMap.get_set_ne _ hk2]

/-- The remap of the turn pointer. -/
theorem remapTurn_spec (h n : Handle) (t : Option Handle) (hne : n ≠ h) :
    TurnRemapped h n t (remapTurn h n t) := by
  unfold remapTurn TurnRemapped
  by_cases ht : t = some h
  · simp [ht, hne]
  · simp [ht]

/-- The remap of the turn order, in which every handle occurs once. -/
theorem remapTurnOrder_spec (h n : Handle) (l : List Handle) (hne : n ≠ h) (hnd : l.Nodup) :
    OrderRemapped h n l (remapTurnOrder h n l) := by
  have hmap : remapTurnOrder h n l = l.map (fun x => if x = h then n else x) := by
    induction l with
    | nil => rfl
    | cons x rest ih =>
      have hx := (List.nodup_cons.mp hnd)
      by_cases hxh : x = h
      · subst hxh
        have hrest : rest.map (fun y => if y = x then n else y) = rest := by
          conv_rhs => rw [← List.map_id rest]
          apply List.map_congr_left
          intro y hy
          have : y ≠ x := fun hc => hx.1 (hc ▸ hy)
          simp [this]
        simp [remapTurnOrder, hrest]
      · simp [remapTurnOrder, hxh, ih hx.2]
  refine ⟨hmap, ?_⟩
  rw [hmap]
  intro hc
  obtain ⟨x, _, hx⟩ := List.mem_map.mp hc
  by_cases hxh : x = h
  · rw [if_pos hxh] at hx
    exact hne hx
  · rw [if_neg hxh] at hx
    exact hxh hx

/-- The remap of a `Set` field for any two handles: afterwards the
members are the old members other than `h`, and `n` when `h` was a member. A
handle `n` that was a member before the remap stays one. -/
theorem remapSet_mem (h n : Handle) (s : JsSet Handle) (k : Handle) :
    k ∈ (remapSet h n s).elems ↔ (k ≠ h ∧ k ∈ s.elems) ∨ (k = n ∧ h ∈ s.elems) := by
  unfold remapSet
  by_cases hh : h ∈ s.elems
  · have hhas : s.has h = true := by simp [JsSet.has, hh]
    rw [if_pos hhas]
    simp only [JsSet.delete, JsSet.add]
    split
    · rename_i hin
      have hin1 := List.mem_filter.mp hin
      constructor
      · intro hk
        have hk1 := List.mem_filter.mp hk
        exact Or.inl ⟨by simpa using hk1.2, hk1.1⟩
      · rintro (⟨h1, h2⟩ | ⟨h1, _⟩)
        · exact List.mem_filter.mpr ⟨h2, by simpa using h1⟩
        · rw [h1]; exact hin
    · constructor
      · intro hk
        rcases List.mem_append.mp hk with hk1 | hk1
        · have hk2 := List.mem_filter.mp hk1
          exact Or.inl ⟨by simpa using hk2.2, hk2.1⟩
        · exact Or.inr ⟨by simpa using hk1, hh⟩
      · rintro (⟨h1, h2⟩ | ⟨h1, _⟩)
        · exact List.mem_append.mpr (Or.inl (List.mem_filter.mpr ⟨h2, by simpa using h1⟩))
        · exact List.mem_append.mpr (Or.inr (by simp [h1]))
  · have hhas : ¬ s.has h = true := by simp [JsSet.has, hh]
    rw [if_neg hhas]
    constructor
    · intro hk
      exact Or.inl ⟨fun hc => hh (hc ▸ hk), hk⟩
    · rintro (⟨_, h2⟩ | ⟨_, h2⟩)
      · exact h2
      · exact absurd h2 hh

/-- The remap of a `Map` field for any two distinct handles: `h` has no entry
afterwards, `n` maps to what `h` mapped to and, when `h` had no entry, to what
`n` itself mapped to; every other handle maps to what it mapped to before. -/
theorem remapMap_get {β : Type} (h n : Handle) (m : JsMap Handle β) (hne : n ≠ h) :
    (remapMap h n m).get h = none
      ∧ (remapMap h n m).get n = (match m.get h with
                                  | some v => some v
                                  | none => m.get n)
      ∧ ∀ k, k ≠ h → k ≠ n → (remapMap h n m).get k = m.get k := by
  unfold remapMap
  cases hg : m.get h with
  | none => exact ⟨hg, rfl, fun _ _ _ => rfl⟩
  | some v =>
    refine ⟨JsMap.get_delete_self _ _, ?_, ?_⟩
    · rw [JsMap.get_delete_ne _ hne, JsMap.get_set_self]
    · intro k hk1 hk2
      rw [JsMap.get_delete_ne _ hk1, JsMap.get_set_ne _ hk2]

/-- The block of `rejoinRoom` that updates the game state remaps each of the
seven structures, for a new handle that the game state does not hold yet. -/
theorem remapGameState_spec (h n : Handle) (gs : GameState) (hne : n ≠ h)
    (hfresh : n ∉ gs.handles) (hnd : gs.turnOrder.Nodup) :
    GameState.Remapped h n gs (remapGameState h n gs) := by
  cases gs with
  | reactionRace a =>
    simp only [GameState.handles, List.mem_append, not_or] at hfresh
    exact ⟨remapSet_spec h n _ hne hfresh.1.1, remapSet_spec h n _ hne hfresh.1.2, rfl⟩
  | triviaBlitz a => exact ⟨remapMap_spec h n _ hne hfresh, rfl⟩
  | tapFrenzy a => exact ⟨remapMap_spec h n _ hne hfresh, rfl⟩
  | wordScramble a => exact rfl
  | emojiMatch a =>
    simp only [GameState.handles, List.mem_append, not_or] at hfresh
    exact ⟨remapTurn_spec h n _ hne, remapTurnOrder_spec h n _ hne hnd,
      remapMap_spec h n _ hne hfresh.2, rfl⟩
  | mathBlitz a =>
    simp only [GameState.handles, List.mem_append, not_or] at hfresh
    exact ⟨remapMap_spec h n _ hne hfresh.1, rfl⟩
  | simonSays a => exact rfl
  | colorClash a =>
    simp only [GameState.handles, List.mem_append, not_or] at hfresh
    exact ⟨remapMap_spec h n _ hne hfresh.1, rfl⟩

/-- C23: when `rejoinRoom` restores the disconnected player found under the
old handle `h` to the new handle `n` of the calling socket, in a room whose
`gameState` is not null, then afterwards, in the game state of that room:
`currentTurn` is `n` if it was `h`; in `turnOrder` the element `h` is replaced
by `n` at the same index; `n` is in `tapped` (in `earlyTappers`) iff `h` was;
`n` maps in `answers`, `taps` and `pairsFound` to what `h` mapped to; `h` is
absent from all seven structures; every entry of another handle and every
other property of the state are as before. The handle `n` is new: it differs
from `h` and the game state does not hold it yet; the handles of the turn
order are distinct. -/
theorem rejoin_remaps_structures (s : Registry) (n : Handle) (code name : String)
    (room : Room) (h : Handle) (p : Player) (gs : GameState)
    (hroom : s.rooms.get code = some room)
    (hfind : findDisconnected room.players name = some (h, p))
    (hgs : room.gameState = some gs)
    (hne : n ≠ h) (hfresh : n ∉ gs.handles) (hnd : gs.turnOrder.Nodup) :
    ∃ room1 gs1,
      (rejoinRoom s n code name).1.rooms.get code = some room1
        ∧ (rejoinRoom s n code name).2 = .rejoined room1
        ∧ room1.gameState = some gs1
        ∧ gs1 = remapGameState h n gs
        ∧ GameState.Remapped h n gs gs1 := by
  refine ⟨{ room with
            players := (room.players.delete h).set n { p with disconnected := false }
            host := if room.host = h then n else room.host
            gameState := room.gameState.map (remapGameState h n) },
    remapGameState h n gs, ?_, ?_, ?_, rfl, remapGameState_spec h n gs hne hfresh hnd⟩
  · simp only [rejoinRoom, hroom, hfind]
    exact JsMap.get_set_self _ _ _
  · simp [rejoinRoom, hroom, hfind]
  · simp [hgs]

/-- C23 at the example game: "Ava" answered on socket `s1`, lost the
connection and comes back on socket `s3`; her answer is then under `s3`. -/
theorem rejoin_remaps_structures_witness :
    ∃ room1 gs1,
      (rejoinRoom demoAnsweredAway "s3" "ABCD" "Ava").1.rooms.get "ABCD" = some room1
        ∧ room1.gameState = some gs1
        ∧ GameState.Remapped "s1" "s3" (demoAnswered.gameState.getD demoGameState) gs1 := by
  obtain ⟨room1, gs1, h1, _, h3, _, h5⟩ :=
    rejoin_remaps_structures demoAnsweredAway "s3" "ABCD" "Ava"
      ((demoAnsweredAway.rooms.get "ABCD").getD demoRoom) "s1"
      { Player.fresh "Ava" true with score := 184, disconnected := true }
      (demoAnswered.gameState.getD demoGameState)
      (by decide) (by decide) (by decide) (by decide) (by decide) (by decide)
  exact ⟨room1, gs1, h1, h3, h5⟩

/-! ## Creating a room -/

/-- The handler of `room:create`: an absent or empty name and a name of more
than 20 code units are refused with 'Invalid name' and leave the registry as
it is; every other name, when a room code is found, appends one room in state
'lobby' with no game, whose host and only player is the creator, under the
name `name.trim()` with score 0 and `isHost` true. -/
theorem createHandler_spec (s : Registry) (socketId : Handle) (now : Nat) (draws : List Nat) :
    createHandler s socketId none now draws = some (s, .error "Invalid name")
      ∧ (∀ name, name = "" ∨ jsLength name > 20 →
          createHandler s socketId (some name) now draws = some (s, .error "Invalid name"))
      ∧ (∀ name s1 reply, ¬ (name = "" ∨ jsLength name > 20) →
          createHandler s socketId (some name) now draws = some (s1, reply) →
          ∃ room, reply = .created room
            ∧ s.rooms.get room.code = none
            ∧ s1.rooms.entries = s.rooms.entries ++ [(room.code, room)]
            ∧ room.state = .lobby ∧ room.currentGame = none ∧ room.gameState = none
            ∧ room.host = socketId
            ∧ room.players.entries = [(socketId, Player.fresh (trim name) true)]) := by
  refine ⟨rfl, ?_, ?_⟩
  · intro name h
    simp [createHandler, h]
  · intro name s1 reply hok hres
    simp only [createHandler, hok, if_false] at hres
    cases hc : createRoom s socketId (trim name) now draws with
    | none => simp [hc] at hres
    | some r =>
      obtain ⟨s2, room⟩ := r
      simp only [hc, Option.some.injEq, Prod.mk.injEq] at hres
      obtain ⟨hs, hr⟩ := hres
      subst hs
      subst hr
      unfold createRoom at hc
      split at hc
      · simp at hc
      · rename_i code hcode
        simp only [Option.some.injEq, Prod.mk.injEq] at hc
        obtain ⟨hs, hr⟩ := hc
        have hfree := (generateCode_sound s.rooms draws.length draws code le_rfl hcode).2.2
        have hnone : s.rooms.get code = none := by
          simpa [JsMap.has] using hfree
        subst hr
        subst hs
        refine ⟨_, rfl, hnone, JsMap.upsert_of_lookup_none _ hnone, rfl, rfl, rfl, rfl, ?_⟩
        simp [JsMap.set, JsMap.empty, JsMap.upsert]

/-- C21, refuted by evaluation: the name " " (one space) is neither empty nor
longer than 20, so the handler of `room:create` does not answer 'Invalid
name'; it creates room `ABCD`, whose only player, the creator, has the empty
name `" ".trim()`. -/
theorem create_with_blank_name :
    (createHandler Registry.empty "s1" (some " ") 0 [0, 1, 2, 3]).map (fun r => r.1.rooms.keys)
        = some ["ABCD"]
      ∧ ((createHandler Registry.empty "s1" (some " ") 0 [0, 1, 2, 3]).bind fun r =>
          (r.1.rooms.get "ABCD").map fun room =>
            (room.host, room.players.entries.map fun e => (e.1, e.2.name, e.2.score, e.2.isHost)))
        = some ("s1", [("s1", "", 0, true)])
      ∧ (createHandler Registry.empty "s1" (some " ") 0 [0, 1, 2, 3]).map (fun r => r.2)
        ≠ some (.error "Invalid name") :=
  ⟨by decide, by decide, by decide⟩

/-! ## Reaction-race: the winner of a round -/

/-- The round timer of reaction-race ends a round in phase 'go' with
`winner: null`, whatever `roundResults` holds: it calls `_roundResult` with a
null `winnerId`. -/
theorem timeout_result_has_no_winner (now : Nat) (room : Room) (gs : RRState)
    (hgs : room.gameState = some (.reactionRace gs)) (hph : gs.phase = .go)
    (hfl : gs.resultFired = false) :
    (ReactionRace.timeoutCallback now gs.round room).emits
      = [⟨.room room.code, "game:state", .rrResult gs.round none (gs.roundResults.take 5)⟩] := by
  simp [ReactionRace.timeoutCallback, ReactionRace._roundResult, hgs, hph, hfl]

/-- C28, refuted by evaluation: in round 1 of the example race 'go' comes at
2000 ms and "Ava" taps at 6000 ms. Hers is the first valid tap: she is
`roundResults[0]` and scores 100 points, and the timer that would announce her
is due at 7500 ms. The round timer, due at 7000 ms, runs first and broadcasts
the result with `winner: null` and her tap in `results`; the timer of her tap
then finds `resultFired` set and does nothing. -/
theorem late_first_tap_has_no_winner :
    (demoRaceGo.gameState.map fun gs => (gs.round, gs.phase)) = some (1, .go)
      ∧ demoRaceLateTap.players.entries.map (fun e => (e.1, e.2.score)) = [("s1", 100), ("s2", 0)]
      ∧ demoRaceLateTap.timers.map (fun t => (t.due, t.cb))
        = [(2000, .rrGo 1), (7000, .roundTimeoutFor .reactionRace 1), (7500, .rrFirstTap "s1")]
      ∧ (ReactionRace.timeoutCallback 7000 1 demoRaceLateTap).emits
        = [⟨.room "ABCD", "game:state", .rrResult 1 none [⟨"s1", "Ava", 4000⟩]⟩]
      ∧ (ReactionRace.firstTapCallback 7500 "s1"
            (ReactionRace.timeoutCallback 7000 1 demoRaceLateTap).room).emits = []
      ∧ (ReactionRace.firstTapCallback 7500 "s1"
            (ReactionRace.timeoutCallback 7000 1 demoRaceLateTap).room).room.players.entries.map
          (fun e => (e.1, e.2.score)) = [("s1", 100), ("s2", 0)] :=
  ⟨by decide, by decide, by decide, by decide, by decide, by decide⟩

/-! ## Ending a round early -/

/-- C26, refuted by evaluation: "Ava", "Ben" and "Cat" play trivia-blitz;
"Ben" answers and then disconnects, so two players are not flagged
disconnected; when "Ava" answers, `answers.size` is 2 and `onEvent` calls
`_showAnswer` (the phase turns to 'answer' and the result is broadcast),
although "Cat", who is connected, has no answer. The same happens in
word-scramble with `solvers.length`: the round is revealed after "Ben" and
"Ava" solved the word, and "Cat" has not. -/
theorem round_ends_before_all_answered :
    demoQuizBenAway.players.entries.map (fun e => (e.1, e.2.name, e.2.disconnected))
        = [("s1", "Ava", false), ("s2", "Ben", true), ("s3", "Cat", false)]
      ∧ ((TriviaBlitz.onEvent 1000 demoQuizBenAway "s1" "answer"
            (some (demoPick 1))).room.gameState.map fun gs => (gs.round, gs.phase, gs.handles))
        = some (1, .answer, ["s2", "s1"])
      ∧ (TriviaBlitz.onEvent 1000 demoQuizBenAway "s1" "answer" (some (demoPick 1))).emits.map
          (fun e => (e.event, e.payload.phase)) = [("game:state", some "answer")]
      ∧ demoWordsBenAway.players.entries.map (fun e => (e.1, e.2.name, e.2.disconnected))
        = [("s1", "Ava", false), ("s2", "Ben", true), ("s3", "Cat", false)]
      ∧ ((WordScramble.onEvent 1000 demoWordsBenAway "s1" "guess"
            (some (demoGuess "PYTHON"))).room.gameState.map fun gs =>
              (gs.round, gs.phase, gs.handles))
        = some (1, .reveal, ["s2", "s1"])
      ∧ (WordScramble.onEvent 1000 demoWordsBenAway "s1" "guess"
            (some (demoGuess "PYTHON"))).emits.map (fun e => (e.target, e.payload.phase))
        = [(.socket "s1", some "solved"), (.room "ABCD", some "reveal")] :=
  ⟨by decide, by decide, by decide, by decide, by decide, by decide⟩

/-! ## The delayed decisions of the bots -/

/-- The delayed callbacks of the bots act whenever the phase is the input
phase and the bot has no record, whatever the round: for trivia-blitz, a state
in phase 'question' without an answer of the bot makes the callback call
`onEvent` with the `choice` of its closure. -/
theorem triviaCallback_sends (now : Nat) (botId : Handle) (choice : Int) (room : Room)
    (gs : TVState) (hgs : room.gameState = some (.triviaBlitz gs))
    (hph : gs.phase = .question) (hno : gs.answers.has botId = false) :
    Bots.triviaCallback now botId choice room
      = Bots.send now room botId "answer" { Bots.noData with choice := .num choice } := by
  simp [Bots.triviaCallback, Bots.guarded, hgs, GameState.phase, hph, GameState.answersHas, hno]

/-- C22, refuted by evaluation: "Ava", "Ben" and an easy bot play
trivia-blitz. In round 1 (from 500 ms) the poll of the bot, at its tick of
700 ms, takes the right answer of question 1, index 2, and creates the delayed
callback with a delay of 7000 ms, due at 7700 ms. "Ben" answers and
disconnects, "Ava" answers at 2000 ms, which ends round 1; round 2 starts at
6000 ms. At 7700 ms the callback finds phase 'question' and no answer of the
bot, and sends the choice computed for round 1 into round 2, where it is
recorded. -/
theorem bot_answer_lands_in_next_round :
    demoBotQuiz.players.entries.map (fun e => (e.1, e.2.name, e.2.isBot))
        = [("s1", "Ava", false), ("s2", "Ben", false), ("bot-1-0", "RoboChamp", true)]
      ∧ (demoBotQuiz.gameState.map fun gs => (gs.round, gs.phase)) = some (1, .question)
      ∧ Bots.triviaPoll "bot-1-0" 0 true 0 7000 demoBotQuiz = some (1, some (7000, 2))
      ∧ (demoBotQuizShown.gameState.map fun gs => (gs.round, gs.phase, gs.handles))
        = some (1, .answer, ["s2", "s1"])
      ∧ demoBotQuizShown.timers.map (fun t => (t.due, t.cb))
        = [(6000, .nextRound .triviaBlitz)]
      ∧ (demoBotQuizRound2.gameState.map fun gs => (gs.round, gs.phase, gs.handles))
        = some (2, .question, [])
      ∧ ((Bots.triviaCallback 7700 "bot-1-0" 2 demoBotQuizRound2).room.gameState.bind fun gs =>
          match gs with
          | .triviaBlitz tv => some (tv.round, tv.answers.entries)
          | _ => none)
        = some (2, [("bot-1-0", ⟨2, 1700⟩)]) :=
  ⟨by decide, by decide, by decide, by decide, by decide, by decide, by decide⟩

/-! ## Emoji-match: the turn of a disconnected player -/

/-- Emoji-match `_nextRound` takes over the turn order it is given, which in
the source is a shuffle of all keys of `room.players`: no key is filtered out,
so a player flagged disconnected is in the turn order of the new round. -/
theorem nextRound_keeps_disconnected (board : List String) (turnOrder : List Handle)
    (room : Room) (gs : EMState) (hgs : room.gameState = some (.emojiMatch gs))
    (hround : gs.round < gs.totalRounds) (hperm : turnOrder.Perm room.players.keys)
    (h : Handle) (p : Player) (hp : (h, p) ∈ room.players.entries) :
    ∃ gs1, (EmojiMatch._nextRound board turnOrder room).room.gameState = some (.emojiMatch gs1)
      ∧ h ∈ gs1.turnOrder := by
  have hmem : h ∈ turnOrder := hperm.symm.subset (List.mem_map_of_mem Prod.fst hp)
  have hnot : ¬ gs.round + 1 > gs.totalRounds := by omega
  simp [EmojiMatch._nextRound, hgs, hnot, hmem]

/-- The loop of `_advanceTurn`, started with `left` passes to go: it ends on a
handle of the turn order that is a key of `players`, or every handle at the
next `left` places of the turn order, taken cyclically, is no key. -/
theorem advanceLoop_spec (players : JsMap Handle Player) (order : List Handle)
    (hn : 0 < order.length) (left : Nat) :
    ∀ idx, 0 < left →
      (∃ h, (EmojiMatch.advanceLoop players order left idx).2 = some h ∧ h ∈ order
          ∧ players.has h = true)
        ∨ ∀ k, k < left → ∀ h, order[(idx + 1 + k) % order.length]? = some h →
            players.has h = false := by
  induction left with
  | zero => intro idx h0; exact absurd h0 (Nat.lt_irrefl 0)
  | succ left ih =>
    intro idx _
    have hlt : (idx + 1) % order.length < order.length := Nat.mod_lt _ hn
    obtain ⟨h, hh⟩ : ∃ h, order[(idx + 1) % order.length]? = some h :=
      ⟨order[(idx + 1) % order.length], List.getElem?_eq_getElem hlt⟩
    have hmem : h ∈ order := by
      rw [List.getElem?_eq_getElem hlt] at hh
      cases hh
      exact List.getElem_mem _
    simp only [EmojiMatch.advanceLoop, hh]
    by_cases hp : players.has h = true
    · left
      exact ⟨h, by simp [hp], hmem, hp⟩
    · have hp1 : players.has h = false := by simpa using hp
      by_cases hl : left = 0
      · right
        intro k hk x hx
        have hk0 : k = 0 := by omega
        subst hk0
        rw [Nat.add_zero, hh] at hx
        cases hx
        exact hp1
      · have hrest := ih ((idx + 1) % order.length) (Nat.pos_of_ne_zero hl)
        simp only [hp1, hl, Bool.false_eq_true, or_self, if_false]
        rcases hrest with hfound | hnone
        · left; exact hfound
        · right
          intro k hk x hx
          cases k with
          | zero =>
            rw [Nat.add_zero, hh] at hx
            cases hx
            exact hp1
          | succ k =>
            apply hnone k (by omega) x
            have hmod : ((idx + 1) % order.length + 1 + k) % order.length
                = (idx + 1 + (k + 1)) % order.length := by
              rw [Nat.add_assoc, Nat.mod_add_mod, Nat.add_comm 1 k]
            rw [hmod]
            exact hx

/-- The handle on which the loop of `_advanceTurn` ends is one of the turn
order. -/
theorem advanceLoop_mem (players : JsMap Handle Player) (order : List Handle) (left : Nat) :
    ∀ idx h, (EmojiMatch.advanceLoop players order left idx).2 = some h → h ∈ order := by
  have hget : ∀ (i : Nat) (h : Handle), order[i]? = some h → h ∈ order := by
    intro i h hi
    exact List.mem_iff_getElem?.mpr ⟨i, hi⟩
  induction left with
  | zero =>
    intro idx h hcur
    exact hget idx h hcur
  | succ left ih =>
    intro idx h hcur
    simp only [EmojiMatch.advanceLoop] at hcur
    split at hcur
    · rename_i x hx
      split at hcur
      · simp only [Option.some.injEq] at hcur
        subst hcur
        exact hget _ _ hx
      · exact ih _ _ hcur
    · split at hcur
      · cases hcur
      · exact ih _ _ hcur

/-- A full turn of the loop of `_advanceTurn` finds a handle that is a key of
`players` whenever the turn order has one. -/
theorem advanceLoop_finds (players : JsMap Handle Player) (order : List Handle)
    (hn : 0 < order.length) (idx : Nat)
    (hex : ∃ h ∈ order, players.has h = true) :
    ∃ h, (EmojiMatch.advanceLoop players order order.length idx).2 = some h ∧ h ∈ order
      ∧ players.has h = true := by
  rcases advanceLoop_spec players order hn order.length idx hn with hfound | hnone
  · exact hfound
  · exfalso
    obtain ⟨h, hmem, hp⟩ := hex
    have hrot : h ∈ order.rotate (idx + 1) := List.mem_rotate.mpr hmem
    obtain ⟨i, hi⟩ := List.getElem?_of_mem hrot
    have hilt : i < order.length := by
      have h1 : i < (order.rotate (idx + 1)).length := by
        by_contra hc
        rw [List.getElem?_eq_none (Nat.le_of_not_lt hc)] at hi
        cases hi
      rwa [List.length_rotate] at h1
    rw [List.getElem?_rotate hilt, Nat.add_comm] at hi
    have := hnone i hilt h hi
    rw [hp] at this
    cases this

/-- What `_advanceTurn` tests is presence in `room.players`, not the
`disconnected` flag: when the turn order has a handle that is a key of
`room.players`, the turn goes to such a handle, the phase stays, and one
'turn' message is sent; when it has none, `_advanceTurn` ends the round with
`_roundResult`. The loop makes at most `turnOrder.length` passes. -/
theorem advanceTurn_presence (now : Nat) (room : Room) (gs : EMState)
    (hgs : room.gameState = some (.emojiMatch gs)) (hn : 0 < gs.turnOrder.length) :
    ((∃ h ∈ gs.turnOrder, room.players.has h = true) →
        ∃ gs1 h, (EmojiMatch._advanceTurn now room).room.gameState = some (.emojiMatch gs1)
          ∧ gs1.currentTurn = some h ∧ h ∈ gs.turnOrder ∧ room.players.has h = true
          ∧ gs1.phase = gs.phase
          ∧ (EmojiMatch._advanceTurn now room).emits.map (fun e => e.payload.phase)
            = [some "turn"])
      ∧ ((∀ h ∈ gs.turnOrder, room.players.has h = false) →
        ∃ gs1, gs1.phase = gs.phase
          ∧ EmojiMatch._advanceTurn now room
            = EmojiMatch._roundResult now { room with gameState := some (.emojiMatch gs1) }) := by
  have hne : ¬ gs.turnOrder.length = 0 := by omega
  refine ⟨?_, ?_⟩
  · intro hex
    obtain ⟨h, hcur, hmem, hp⟩ := advanceLoop_finds room.players gs.turnOrder hn gs.turnIndex hex
    refine ⟨{ gs with
              turnIndex :=
                (EmojiMatch.advanceLoop room.players gs.turnOrder gs.turnOrder.length
                  gs.turnIndex).1
              currentTurn := some h }, h, ?_, rfl, hmem, hp, rfl, ?_⟩
    · simp [EmojiMatch._advanceTurn, hgs, hne, hcur, EmojiMatch.turnHolderPresent, hp]
    · simp [EmojiMatch._advanceTurn, hgs, hne, hcur, EmojiMatch.turnHolderPresent, hp,
        Payload.phase]
  · intro hall
    refine ⟨{ gs with
              turnIndex :=
                (EmojiMatch.advanceLoop room.players gs.turnOrder gs.turnOrder.length
                  gs.turnIndex).1
              currentTurn :=
                (EmojiMatch.advanceLoop room.players gs.turnOrder gs.turnOrder.length
                  gs.turnIndex).2 }, rfl, ?_⟩
    have habs : EmojiMatch.turnHolderPresent room.players
        (EmojiMatch.advanceLoop room.players gs.turnOrder gs.turnOrder.length
          gs.turnIndex).2 = false := by
      cases hcur : (EmojiMatch.advanceLoop room.players gs.turnOrder gs.turnOrder.length
          gs.turnIndex).2 with
      | none => rfl
      | some h => exact hall h (advanceLoop_mem _ _ _ _ _ hcur)
    simp [EmojiMatch._advanceTurn, hgs, hne, habs]

/-- C27, refuted by evaluation: "Ava" and "Ben" play emoji-match, "Ben" is
flagged disconnected (his grace period runs) and "Ava" turns two cards that do
not match. The timer of the mismatch calls `_advanceTurn`, which tests only
`room.players.has`: the turn goes to "Ben", although "Ava" is in the turn
order, in the room and connected. A round that starts in this state has "Ben"
in its turn order, here in first place, so that the first turn is his. -/
theorem turn_goes_to_disconnected_player :
    demoCardsBenAway.players.entries.map (fun e => (e.1, e.2.name, e.2.disconnected))
        = [("s1", "Ava", false), ("s2", "Ben", true)]
      ∧ demoCardsBenAway.timers.map (fun t => (t.due, t.cb))
        = [(4200, .emUnflip (.card 0) (.card 1))]
      ∧ ((EmojiMatch.unflipCallback 4200 (.card 0) (.card 1) demoCardsBenAway).room.gameState.bind
          fun gs =>
            match gs with
            | .emojiMatch em => some (em.phase, em.turnOrder, em.currentTurn)
            | _ => none)
        = some (.playing, ["s1", "s2"], some "s2")
      ∧ (EmojiMatch.unflipCallback 4200 (.card 0) (.card 1) demoCardsBenAway).emits.map
          (fun e => e.payload)
        = [.emUnflip (.card 0) (.card 1), .emTurn (some "s2") (some "Ben")]
      ∧ ((EmojiMatch._nextRound demoBoard ["s2", "s1"] demoCardsBenAway).room.gameState.bind
          fun gs =>
            match gs with
            | .emojiMatch em => some (em.round, em.turnOrder, em.currentTurn)
            | _ => none)
        = some (2, ["s2", "s1"], some "s2") :=
  ⟨by decide, by decide, by decide, by decide, by decide⟩

/-! ## Simon-says: an eliminated player who reconnects -/

/-- C29, refuted by evaluation: "Ava", "Ben" and "Cat" play simon-says. In
round 1 "Ben" presses a wrong colour and is eliminated (`eliminated` holds his
handle `s2`, `survivors` the other two). He disconnects and comes back on
socket `s4`; the rejoin leaves both sets as they are, so `s4` is not in
`eliminated`. His next input is accepted and scored, the resolution of round 1
rebuilds `survivors` from the players that are not in `eliminated` and counts
him in, and when he is the only survivor of round 2 the game ends and pays him
the 200-point survivor bonus. -/
theorem eliminated_player_returns :
    simonView demoSimonBenOut = some (1, .input, ["s2"], ["s1", "s3"])
      ∧ scoreboard demoSimonBenBack = [("s1", "Ava", 0), ("s3", "Cat", 0), ("s4", "Ben", 0)]
      ∧ simonView demoSimonBenBack = some (1, .input, ["s2"], ["s1", "s3"])
      ∧ (SimonSays.onEvent 4200 demoSimonBenBack "s4" "input" (some (demoColor "red"))).emits.map
          (fun e => (e.target, e.payload.phase))
        = [(.socket "s4", some "inputProgress"), (.socket "s4", some "roundComplete")]
      ∧ simonView demoSimonRound1 = some (1, .result, ["s2"], ["s1", "s3", "s4"])
      ∧ scoreboard demoSimonRound1 = [("s1", "Ava", 20), ("s3", "Cat", 20), ("s4", "Ben", 20)]
      ∧ simonView demoSimonRound2 = some (2, .result, ["s2", "s1", "s3"], ["s4"])
      ∧ (demoSimonRound2.timers.map fun t => (t.due, t.cb)).getLast?
        = some (14700, .endGame .simonSays)
      ∧ scoreboard (SimonSays._endGame demoSimonRound2).room
        = [("s1", "Ava", 20), ("s3", "Cat", 20), ("s4", "Ben", 260)] :=
  ⟨by decide, by decide, by decide, by decide, by decide, by decide, by decide, by decide,
   by decide⟩

/-! ## Names that are equal ignoring case -/

theorem reachable_demoTwoBens : Reachable demoTwoBens :=
  Reachable.rejoinRoom "s4" "ABCD" "ben"
    (Reachable.joinRoom "s3" "ABCD" "Ben"
      (Reachable.disconnectPlayer "s2" 1000
        (Reachable.joinRoom "s2" "ABCD" "Ben" reachable_demoCreated)))

theorem reachable_demoRoboBot : Reachable demoRoboBot :=
  @Reachable.createBot demoRobo demoRoboRoom "ABCD" 5000 0 0
    (@Reachable.createRoom _ _ demoRoboRoom "s1" "robochamp" 0 [0, 1, 2, 3] Reachable.start
      (by decide))
    (by decide) (by decide)

/-- C30, refuted by evaluation, twice. First: "Ben" disconnects; while he is
flagged disconnected `joinRoom` lets another socket in as "Ben" (its name check
skips disconnected players), and a `rejoinRoom` for "ben" then restores the
old entry: the room has two connected players called "Ben". Second: the host
is called "robochamp" and `createBot`, whose name check is case-sensitive,
names its bot "RoboChamp". Both registries are reachable through the eight
operations. -/
theorem duplicate_names_reachable :
    Reachable demoTwoBens
      ∧ (getRoom demoTwoBens "ABCD").map
          (fun r => r.players.entries.map fun e => (e.1, e.2.name, e.2.disconnected))
        = some [("s1", "Ava", false), ("s3", "Ben", false), ("s4", "Ben", false)]
      ∧ (getRoom demoTwoBens "ABCD").map (fun r => decide (NamesDistinct r)) = some false
      ∧ Reachable demoRoboBot
      ∧ (getRoom demoRoboBot "ABCD").map
          (fun r => r.players.entries.map fun e => (e.1, e.2.name, e.2.isBot, e.2.disconnected))
        = some [("s1", "robochamp", false, false), ("bot-1-5000", "RoboChamp", true, false)]
      ∧ (getRoom demoRoboBot "ABCD").map (fun r => decide (NamesDistinct r)) = some false :=
  ⟨reachable_demoTwoBens, by decide, by decide, reachable_demoRoboBot, by decide, by decide⟩

end MiniGames
